import Mathlib

/-!
# Happy Paws Pet Shop: record store and pet behaviour

A shallow embedding of `happy-paws-pet-shop/js/database.js` (class `PetShopDB`),
`happy-paws-pet-shop/js/pet.js` (class `Pet`) and the interaction handlers of
`happy-paws-pet-shop/js/app.js`.

Conventions of the embedding:

* JavaScript numbers that carry quantities (age, price, happiness, hunger, amounts) are exact
  rationals `ℚ`; ids and clock readings are natural numbers.
* A JavaScript `Map` is an association list in insertion order; `mapGet`, `mapSet`, `mapDelete`
  are `Map.prototype.get`, `set`, `delete`.
* The ambient global `window.petShopData` is the field `storage` of the store state.
* Every reading of the clock (`new Date()`, `Date.now()`) and every `Math.random()` draw is an
  explicit argument.
* Calls that only touch the page (`logActivity`, `updateDisplay`, `showNotification`) have no
  effect on the store and are left out.
-/

namespace HappyPaws

/-! ## Data model -/

/-- The properties `createPet` reads from its argument `petData`. -/
structure PetData where
  name : String
  type : String
  age : ℚ
  price : ℚ
deriving DecidableEq

/-- A pet object: the plain record kept in the store, and equally the `Pet` wrapper that
`new Pet(data)` builds by copying every property of `data`. -/
structure Pet where
  id : Nat
  name : String
  type : String
  age : ℚ
  price : ℚ
  happiness : ℚ
  hunger : ℚ
  isSold : Bool
  createdAt : Nat
  updatedAt : Nat
deriving DecidableEq

/-- The `updates` argument of `updatePet`: an object holding any subset of the properties. -/
structure PetUpdates where
  id : Option Nat := none
  name : Option String := none
  type : Option String := none
  age : Option ℚ := none
  price : Option ℚ := none
  happiness : Option ℚ := none
  hunger : Option ℚ := none
  isSold : Option Bool := none
  createdAt : Option Nat := none
  updatedAt : Option Nat := none
deriving DecidableEq

/-- A ledger entry as built by `recordTransaction`. -/
structure Transaction where
  id : Nat
  petId : Nat
  type : String
  amount : ℚ
  timestamp : Nat
deriving DecidableEq

/-- The object written to `window.petShopData` by `saveToStorage`. -/
structure Snapshot where
  pets : List (Nat × Pet)
  transactions : List Transaction
  nextId : Nat
deriving DecidableEq

/-- State of a `PetShopDB` instance together with the global `window.petShopData` (`storage`,
`none` when the global is unset or `null`). -/
structure PetShopDB where
  pets : List (Nat × Pet)
  transactions : List Transaction
  nextId : Nat
  storage : Option Snapshot
deriving DecidableEq

/-- Clock readings taken while a behaviour method runs: one by `updatePet`, then `Date.now()`
and `new Date()` by `recordTransaction`. -/
structure Clock where
  updatedAt : Nat
  txId : Nat
  txTime : Nat
deriving DecidableEq

/-- Environment readings of one `Pet.simulateTimePassage` call: the two `Math.random()` results
in call order, and the clock reading of `updatePet`. -/
structure Draw where
  happinessRandom : ℚ
  hungerRandom : ℚ
  updatedAt : Nat
deriving DecidableEq

/-! ## `Map` operations -/

/-- `Map.prototype.get`. -/
def mapGet : List (Nat × Pet) → Nat → Option Pet
  | [], _ => none
  | (k, v) :: rest, key => if k = key then some v else mapGet rest key

/-- `Map.prototype.set`: an existing key keeps its position, a new key is appended. -/
def mapSet : List (Nat × Pet) → Nat → Pet → List (Nat × Pet)
  | [], key, value => [(key, value)]
  | (k, v) :: rest, key, value =>
    if k = key then (key, value) :: rest else (k, v) :: mapSet rest key value

/-- `Map.prototype.delete`: the map without the entry of `key`. -/
def mapDelete : List (Nat × Pet) → Nat → List (Nat × Pet)
  | [], _ => []
  | (k, v) :: rest, key => if k = key then rest else (k, v) :: mapDelete rest key

/-- `new Map(entries)`: the entries are set one after the other. -/
def mapOfEntries (entries : List (Nat × Pet)) : List (Nat × Pet) :=
  entries.foldl (fun m e => mapSet m e.1 e.2) []

/-- `Object.assign(pet, updates)`: every property present in `updates` overwrites the pet's. -/
def PetUpdates.assignTo (updates : PetUpdates) (pet : Pet) : Pet :=
  { id := updates.id.getD pet.id
    name := updates.name.getD pet.name
    type := updates.type.getD pet.type
    age := updates.age.getD pet.age
    price := updates.price.getD pet.price
    happiness := updates.happiness.getD pet.happiness
    hunger := updates.hunger.getD pet.hunger
    isSold := updates.isSold.getD pet.isSold
    createdAt := updates.createdAt.getD pet.createdAt
    updatedAt := updates.updatedAt.getD pet.updatedAt }

/-! ## `PetShopDB` (database.js) -/

namespace PetShopDB

/-- State after `new PetShopDB()` when `window.petShopData` is unset. -/
def empty : PetShopDB :=
  { pets := [], transactions := [], nextId := 1, storage := none }

/-- `saveToStorage` (database.js 93-109). -/
def saveToStorage (db : PetShopDB) : PetShopDB :=
  { db with storage := some { pets := db.pets, transactions := db.transactions, nextId := db.nextId } }

/-- `loadFromStorage` (database.js 112-128). -/
def loadFromStorage (db : PetShopDB) : PetShopDB :=
  match db.storage with
  | some data =>
    { db with
      pets := mapOfEntries data.pets
      transactions := data.transactions
      nextId := if data.nextId = 0 then 1 else data.nextId }
  | none => db

/-- `createPet` (database.js 11-28); the two clock readings are `createdAt` and `updatedAt`. -/
def createPet (db : PetShopDB) (petData : PetData) (createdAt updatedAt : Nat) : Pet × PetShopDB :=
  let id := db.nextId
  let pet : Pet :=
    { id := id
      name := petData.name
      type := petData.type
      age := petData.age
      price := petData.price
      happiness := 50
      hunger := 30
      isSold := false
      createdAt := createdAt
      updatedAt := updatedAt }
  (pet, saveToStorage { db with nextId := db.nextId + 1, pets := mapSet db.pets id pet })

/-- `readPet` (database.js 31-33). -/
def readPet (db : PetShopDB) (id : Nat) : Option Pet :=
  mapGet db.pets id

/-- `updatePet` (database.js 36-45); `now` is the clock reading for `updatedAt`. -/
def updatePet (db : PetShopDB) (id : Nat) (updates : PetUpdates) (now : Nat) :
    Option Pet × PetShopDB :=
  match mapGet db.pets id with
  | some pet =>
    let pet1 : Pet := { updates.assignTo pet with updatedAt := now }
    (some pet1, saveToStorage { db with pets := mapSet db.pets id pet1 })
  | none => (none, db)

/-- `deletePet` (database.js 48-54). -/
def deletePet (db : PetShopDB) (id : Nat) : Bool × PetShopDB :=
  if (mapGet db.pets id).isSome then
    (true, saveToStorage { db with pets := mapDelete db.pets id })
  else (false, db)

/-- `getAllPets` (database.js 57-59). -/
def getAllPets (db : PetShopDB) : List Pet :=
  db.pets.map (fun e => e.2)

/-- `getAvailablePets` (database.js 62-64). -/
def getAvailablePets (db : PetShopDB) : List Pet :=
  (getAllPets db).filter (fun pet => !pet.isSold)

/-- `getSoldPets` (database.js 67-69). -/
def getSoldPets (db : PetShopDB) : List Pet :=
  (getAllPets db).filter (fun pet => pet.isSold)

/-- `recordTransaction` (database.js 72-83); `amount || 0` on a number. -/
def recordTransaction (db : PetShopDB) (petId : Nat) (type : String) (amount : ℚ)
    (txId txTime : Nat) : Transaction × PetShopDB :=
  let transaction : Transaction :=
    { id := txId
      petId := petId
      type := type
      amount := if amount = 0 then 0 else amount
      timestamp := txTime }
  (transaction, saveToStorage { db with transactions := db.transactions ++ [transaction] })

/-- `getTotalSales` (database.js 86-90). -/
def getTotalSales (db : PetShopDB) : ℚ :=
  (db.transactions.filter (fun t => t.type == "sale")).foldl (fun total t => total + t.amount) 0

/-- `clearAll` (database.js 162-170). -/
def clearAll (_db : PetShopDB) : PetShopDB :=
  { pets := [], transactions := [], nextId := 1, storage := none }

end PetShopDB

/-! ## `Pet` (pet.js) -/

/-- `Pet.feed` (pet.js 14-35): the wrapper after the call and the store after the call. -/
def Pet.feed (this : Pet) (db : PetShopDB) (clk : Clock) : Pet × PetShopDB :=
  if this.isSold then (this, db)
  else
    let this1 : Pet := { this with hunger := max 0 (this.hunger - 20) }
    let this2 : Pet := { this1 with happiness := min 100 (this1.happiness + 10) }
    let db1 := (db.updatePet this2.id
      { hunger := some this2.hunger, happiness := some this2.happiness } clk.updatedAt).2
    let db2 := (db1.recordTransaction this2.id "feed" 0 clk.txId clk.txTime).2
    (this2, db2)

/-- `Pet.play` (pet.js 40-61). -/
def Pet.play (this : Pet) (db : PetShopDB) (clk : Clock) : Pet × PetShopDB :=
  if this.isSold then (this, db)
  else
    let this1 : Pet := { this with happiness := min 100 (this.happiness + 50) }
    let this2 : Pet := { this1 with hunger := min 100 (this1.hunger + 5) }
    let db1 := (db.updatePet this2.id
      { hunger := some this2.hunger, happiness := some this2.happiness } clk.updatedAt).2
    let db2 := (db1.recordTransaction this2.id "play" 0 clk.txId clk.txTime).2
    (this2, db2)

/-- `Pet.sell` (pet.js 67-82): the returned boolean, the wrapper and the store. -/
def Pet.sell (this : Pet) (db : PetShopDB) (clk : Clock) : Bool × Pet × PetShopDB :=
  if this.isSold then (false, this, db)
  else
    let this1 : Pet := { this with isSold := true }
    let db1 := (db.updatePet this1.id { isSold := some true } clk.updatedAt).2
    let db2 := (db1.recordTransaction this1.id "sale" this1.price clk.txId clk.txTime).2
    (true, this1, db2)

/-- `Pet.delete` (pet.js 88-95). -/
def Pet.delete (this : Pet) (db : PetShopDB) : Bool × PetShopDB :=
  db.deletePet this.id

/-- `Math.round` on an exact number: the nearest integer, a half rounding up. -/
def mathRound (x : ℚ) : ℤ :=
  ⌊x + 1 / 2⌋

/-- `Pet.getWellBeingScore` (pet.js 151-160). -/
def Pet.getWellBeingScore (this : Pet) : ℤ :=
  let happinessWeight : ℚ := 0.6
  let hungerWeight : ℚ := 0.4
  let hungerScore : ℚ := max 0 (100 - this.hunger)
  mathRound ((this.happiness * happinessWeight) + (hungerScore * hungerWeight))

/-- `Pet.simulateTimePassage` (pet.js 166-180). -/
def Pet.simulateTimePassage (this : Pet) (db : PetShopDB) (d : Draw) : Pet × PetShopDB :=
  if this.isSold then (this, db)
  else
    let happinessDecay := d.happinessRandom * 5
    let hungerIncrease := d.hungerRandom * 3
    let this1 : Pet := { this with happiness := max 0 (this.happiness - happinessDecay) }
    let this2 : Pet := { this1 with hunger := min 100 (this1.hunger + hungerIncrease) }
    let db1 := (db.updatePet this2.id
      { hunger := some this2.hunger, happiness := some this2.happiness } d.updatedAt).2
    (this2, db1)

/-! ## Handlers (app.js) -/

/-- `feedPet` (app.js 272-278). -/
def feedPet (db : PetShopDB) (id : Nat) (clk : Clock) : PetShopDB :=
  match db.readPet id with
  | some petData => (Pet.feed petData db clk).2
  | none => db

/-- `playWithPet` (app.js 280-286). -/
def playWithPet (db : PetShopDB) (id : Nat) (clk : Clock) : PetShopDB :=
  match db.readPet id with
  | some petData => (Pet.play petData db clk).2
  | none => db

/-- `sellPet` (app.js 288-297). -/
def sellPet (db : PetShopDB) (id : Nat) (clk : Clock) : PetShopDB :=
  match db.readPet id with
  | some petData => (Pet.sell petData db clk).2.2
  | none => db

/-- `deletePet` of app.js (299-309), the confirmation dialog answered with yes. -/
def deletePet (db : PetShopDB) (id : Nat) : PetShopDB :=
  match db.readPet id with
  | some petData => (Pet.delete petData db).2
  | none => db

/-- The `forEach` of `simulateTimePassage` (app.js 471-478) over the stored objects that were
available when the loop started, identified by their keys; the `i`-th visited pet uses
`draws i`. Each object is read when its turn comes, as the loop copies it then. -/
def simulateLoop : List Nat → Nat → (Nat → Draw) → PetShopDB → PetShopDB
  | [], _, _, db => db
  | key :: rest, i, draws, db =>
    match db.readPet key with
    | some petData =>
      simulateLoop rest (i + 1) draws (Pet.simulateTimePassage petData db (draws i)).2
    | none => simulateLoop rest (i + 1) draws db

/-- `simulateTimePassage` of app.js (465-488). -/
def simulateTimePassage (db : PetShopDB) (draws : Nat → Draw) : PetShopDB :=
  let availableKeys := (db.pets.filter (fun e => !e.2.isSold)).map (fun e => e.1)
  simulateLoop availableKeys 0 draws db

/-! ## Sequences of operations -/

/-- One call on the store: the methods of `PetShopDB` other than `clearAll` and `importData`,
and the handlers of app.js (`removePet` is the handler `deletePet`). -/
inductive Op where
  | createPet (petData : PetData) (createdAt updatedAt : Nat)
  | readPet (id : Nat)
  | updatePet (id : Nat) (updates : PetUpdates) (now : Nat)
  | deletePet (id : Nat)
  | recordTransaction (petId : Nat) (type : String) (amount : ℚ) (txId txTime : Nat)
  | saveToStorage
  | loadFromStorage
  | feedPet (id : Nat) (clk : Clock)
  | playWithPet (id : Nat) (clk : Clock)
  | sellPet (id : Nat) (clk : Clock)
  | removePet (id : Nat)
  | simulateTimePassage (draws : Nat → Draw)

/-- Run one call: the id of the record returned when the call is a `createPet`, and the store
after the call. -/
def Op.run (db : PetShopDB) : Op → Option Nat × PetShopDB
  | .createPet petData createdAt updatedAt =>
    let r := db.createPet petData createdAt updatedAt
    (some r.1.id, r.2)
  | .readPet _ => (none, db)
  | .updatePet id updates now => (none, (db.updatePet id updates now).2)
  | .deletePet id => (none, (db.deletePet id).2)
  | .recordTransaction petId type amount txId txTime =>
    (none, (db.recordTransaction petId type amount txId txTime).2)
  | .saveToStorage => (none, db.saveToStorage)
  | .loadFromStorage => (none, db.loadFromStorage)
  | .feedPet id clk => (none, HappyPaws.feedPet db id clk)
  | .playWithPet id clk => (none, HappyPaws.playWithPet db id clk)
  | .sellPet id clk => (none, HappyPaws.sellPet db id clk)
  | .removePet id => (none, HappyPaws.deletePet db id)
  | .simulateTimePassage draws => (none, HappyPaws.simulateTimePassage db draws)

/-- The store after a sequence of calls. -/
def runOps : PetShopDB → List Op → PetShopDB
  | db, [] => db
  | db, op :: rest => runOps (op.run db).2 rest

/-- The ids returned by the `createPet` calls of a sequence, in call order. -/
def createdIds : PetShopDB → List Op → List Nat
  | _, [] => []
  | db, op :: rest =>
    match (op.run db).1 with
    | some id => id :: createdIds (op.run db).2 rest
    | none => createdIds (op.run db).2 rest

/-! ## The score formula as the specification words it -/

/-- The specification's formula `round(happiness*0.6 + (100-hunger)*0.4)` in exact arithmetic,
with the library's rounding to the nearest integer. -/
def specWellBeingScore (happiness hunger : ℚ) : ℤ :=
  round (happiness * 0.6 + (100 - hunger) * 0.4)

/-! ## Predicates and concrete data used by the theorems -/

/-- The counter is `n`, it is positive, and the persisted snapshot (when there is one) holds
the same counter. -/
def CounterIs (n : Nat) (db : PetShopDB) : Prop :=
  db.nextId = n ∧ 1 ≤ n ∧ ∀ s, db.storage = some s → s.nextId = n

instance CounterIs.decidable (n : Nat) (db : PetShopDB) : Decidable (CounterIs n db) :=
  decidable_of_iff (db.nextId = n ∧ 1 ≤ n ∧ ∀ s ∈ db.storage, s.nextId = n)
    (by simp [CounterIs, Option.mem_def])

/-- The concrete store of the scenario: the empty store after
`createPet({name: "Rex", type: "Dog", age: 2, price: 200})`. -/
def rexStore : PetShopDB :=
  (PetShopDB.empty.createPet { name := "Rex", type := "Dog", age := 2, price := 200 } 1000 1000).2

/-- The record of Rex as created. -/
def rex : Pet :=
  { id := 1, name := "Rex", type := "Dog", age := 2, price := 200, happiness := 50, hunger := 30,
    isSold := false, createdAt := 1000, updatedAt := 1000 }

/-- Clock readings used in the concrete scenarios. -/
def clockAt (t : Nat) : Clock :=
  { updatedAt := t, txId := t, txTime := t }

/-- The scenario store after `updatePet(1, {hunger: 130, happiness: 150})`: `updatePet` stores
the given values as they are. -/
def overfedStore : PetShopDB :=
  (rexStore.updatePet 1 { hunger := some 130, happiness := some 150 } 1500).2

/-- The scenario store after `feedPet(1)`. -/
def rexFedStore : PetShopDB :=
  feedPet rexStore 1 (clockAt 2000)

/-- The record of Rex after the feed. -/
def rexFed : Pet :=
  { rex with hunger := 10, happiness := 60, updatedAt := 2000 }

/-- The scenario store after `feedPet(1)` and `playWithPet(1)`. -/
def rexPlayedStore : PetShopDB :=
  playWithPet rexFedStore 1 (clockAt 3000)

/-- The record of Rex after the feed and the play. -/
def rexPlayed : Pet :=
  { rex with hunger := 15, happiness := 100, updatedAt := 3000 }

/-- The scenario store after `feedPet(1)`, `playWithPet(1)` and `sellPet(1)`. -/
def rexSoldStore : PetShopDB :=
  sellPet rexPlayedStore 1 (clockAt 4000)

/-- The record of Rex after the sale. -/
def rexSold : Pet :=
  { rex with hunger := 15, happiness := 100, isSold := true, updatedAt := 4000 }

/-- The calls that feed or play: `feedPet` and `playWithPet`. -/
def Op.isFeedOrPlay : Op → Bool
  | .feedPet _ _ => true
  | .playWithPet _ _ => true
  | _ => false

/-- The calls of the behaviour operations: `feedPet`, `playWithPet`, `sellPet` and the
periodic `simulateTimePassage`. -/
def Op.isBehaviour : Op → Bool
  | .feedPet _ _ => true
  | .playWithPet _ _ => true
  | .sellPet _ _ => true
  | .simulateTimePassage _ => true
  | _ => false

/-- The store holds a record under `key` and that record is sold. -/
def SoldAt (db : PetShopDB) (key : Nat) : Prop :=
  ∃ r, db.readPet key = some r ∧ r.isSold = true

instance SoldAt.decidable (db : PetShopDB) (key : Nat) : Decidable (SoldAt db key) :=
  decidable_of_iff (∃ r ∈ db.readPet key, r.isSold = true) (by simp [SoldAt, Option.mem_def])

/-- The properties of a record that a sale reads: its id, its price and its sold flag. -/
def saleFacts (r : Pet) : Nat × ℚ × Bool :=
  (r.id, r.price, r.isSold)

/-- A store with two available pets, as `loadSampleData` creates its first two. -/
def twoPetStore : PetShopDB :=
  ((PetShopDB.empty.createPet { name := "Buddy", type := "Dog", age := 2, price := 250 }
      1000 1000).2.createPet { name := "Whiskers", type := "Cat", age := 1, price := 150 }
      1001 1001).2

/-- The first record of `twoPetStore`. -/
def buddy : Pet :=
  { id := 1, name := "Buddy", type := "Dog", age := 2, price := 250, happiness := 50,
    hunger := 30, isSold := false, createdAt := 1000, updatedAt := 1000 }

/-- The second record of `twoPetStore`. -/
def whiskers : Pet :=
  { id := 2, name := "Whiskers", type := "Cat", age := 1, price := 150, happiness := 50,
    hunger := 30, isSold := false, createdAt := 1001, updatedAt := 1001 }

/-- A record with the given happiness and hunger (the other properties are Rex's). -/
def petWith (happiness hunger : ℚ) : Pet :=
  { rex with happiness := happiness, hunger := hunger }

/-! ## Status and validation (pet.js) -/

/-- The object returned by `Pet.getStatus`. -/
structure PetStatus where
  id : Nat
  name : String
  type : String
  age : ℚ
  price : ℚ
  happiness : ℚ
  hunger : ℚ
  isSold : Bool
  needsAttention : Bool
deriving DecidableEq

/-- `Pet.getStatus` (pet.js 101-113). -/
def Pet.getStatus (this : Pet) : PetStatus :=
  { id := this.id
    name := this.name
    type := this.type
    age := this.age
    price := this.price
    happiness := this.happiness
    hunger := this.hunger
    isSold := this.isSold
    needsAttention := decide (this.hunger > 80) || decide (this.happiness < 30) }

/-- `Pet.needsAttention` (pet.js 119-121). -/
def Pet.needsAttention (this : Pet) : Bool :=
  decide (this.hunger > 80) || decide (this.happiness < 30)

/-- The store holds a record under `key` and that record is available (not sold). -/
def AvailableAt (db : PetShopDB) (key : Nat) : Prop :=
  ∃ r, db.readPet key = some r ∧ r.isSold = false

instance AvailableAt.decidable (db : PetShopDB) (key : Nat) : Decidable (AvailableAt db key) :=
  decidable_of_iff (∃ r ∈ db.readPet key, r.isSold = false)
    (by simp [AvailableAt, Option.mem_def])

/-- A draw for the scenarios: both `Math.random()` results are 1/2. -/
def halfDraw (t : Nat) : Draw :=
  { happinessRandom := 1 / 2, hungerRandom := 1 / 2, updatedAt := t }

/-- The two-pet store after `sellPet(1)`: Buddy is sold, Whiskers is available. -/
def oneSoldStore : PetShopDB :=
  sellPet twoPetStore 1 (clockAt 2000)

/-- Happiness and hunger of a record both lie in [0,100]. -/
def Pet.InRange (r : Pet) : Prop :=
  0 ≤ r.happiness ∧ r.happiness ≤ 100 ∧ 0 ≤ r.hunger ∧ r.hunger ≤ 100

instance Pet.InRange.decidable (r : Pet) : Decidable r.InRange :=
  inferInstanceAs (Decidable (_ ∧ _ ∧ _ ∧ _))

/-- Every `Math.random()` result of the draw lies in [0,1), so that the happiness decay lies in
[0,5) and the hunger increase in [0,3). -/
def Draw.Valid (d : Draw) : Prop :=
  0 ≤ d.happinessRandom ∧ d.happinessRandom < 1 ∧ 0 ≤ d.hungerRandom ∧ d.hungerRandom < 1

instance Draw.Valid.decidable (d : Draw) : Decidable d.Valid :=
  inferInstanceAs (Decidable (_ ∧ _ ∧ _ ∧ _))

/-- The calls of the record lifecycle: `createPet`, `feedPet`, `playWithPet`, `sellPet`, the
periodic `simulateTimePassage` with valid draws, and deletion (`deletePet` of the store or of
app.js). -/
def Op.IsLifecycle : Op → Prop
  | .createPet _ _ _ => True
  | .feedPet _ _ => True
  | .playWithPet _ _ => True
  | .sellPet _ _ => True
  | .simulateTimePassage draws => ∀ i, (draws i).Valid
  | .deletePet _ => True
  | .removePet _ => True
  | _ => False

/-- A lifecycle sequence for the scenarios: Rex is created, played with twice (happiness
reaches the upper clamp), a second pet is created, time passes with both random results 1/2,
and the second pet is deleted. -/
def lifecycleOps : List Op :=
  [Op.createPet { name := "Rex", type := "Dog", age := 2, price := 200 } 1000 1000,
   Op.playWithPet 1 (clockAt 2000),
   Op.playWithPet 1 (clockAt 3000),
   Op.createPet { name := "Whiskers", type := "Cat", age := 1, price := 150 } 3500 3500,
   Op.simulateTimePassage halfDraw,
   Op.deletePet 2]

/-- The code points that `String.prototype.trim` strips: the white space and line terminator
code points of the language (tab, line feed, vertical tab, form feed, carriage return, space,
no-break space, the Unicode space separators, line and paragraph separator, byte order mark). -/
def isTrimmedChar (c : Char) : Bool :=
  [0x09, 0x0A, 0x0B, 0x0C, 0x0D, 0x20, 0xA0, 0x1680, 0x2028, 0x2029, 0x202F, 0x205F, 0x3000,
    0xFEFF].contains c.toNat || (decide (0x2000 ≤ c.toNat) && decide (c.toNat ≤ 0x200A))

/-- `String.prototype.trim`. -/
def jsTrim (s : String) : String :=
  String.mk (((s.toList.dropWhile isTrimmedChar).reverse.dropWhile isTrimmedChar).reverse)

/-- The object returned by `validatePetData`. -/
structure ValidationResult where
  isValid : Bool
  errors : List String
deriving DecidableEq

/-- `PetUtils.validatePetData` (pet.js 270-293). On a string `!s` holds for the empty string,
on a number `!x` holds for 0. -/
def PetUtils.validatePetData (petData : PetData) : ValidationResult :=
  let errors : List String := []
  let errors :=
    if petData.name = "" ∨ (jsTrim petData.name).length = 0 then
      errors ++ ["Pet name is required"]
    else errors
  let errors :=
    if petData.type = "" then errors ++ ["Pet type is required"] else errors
  let errors :=
    if petData.age = 0 ∨ petData.age < 0 ∨ petData.age > 20 then
      errors ++ ["Pet age must be between 0 and 20 years"]
    else errors
  let errors :=
    if petData.price = 0 ∨ petData.price < 0 then
      errors ++ ["Pet price must be a positive number"]
    else errors
  { isValid := errors.length == 0, errors := errors }

/-! ## JSON values and the store as `importData` leaves it (database.js 131-159)

`importData` assigns to the store whatever `JSON.parse` returned, so after an import the map, the
ledger and the counter hold arbitrary JSON values. `RawDB` is the store with its contents as
JavaScript values: a JSON tree, or `undefined` (`none`). A `PetShopDB` state is the `RawDB`
state `toRaw` gives. `JSON.parse` and `JSON.stringify` are the platform's and are taken as a
parameter. Clock readings are numbers, as everywhere in this embedding. -/

/-- A value as `JSON.parse` returns it. -/
inductive Json where
  | null
  | bool (b : Bool)
  | num (q : ℚ)
  | str (s : String)
  | arr (items : List Json)
  | obj (props : List (String × Json))

/-- The platform's `JSON` object: `parse` returns `none` when it throws a `SyntaxError`. -/
structure JSONBuiltin where
  parse : String → Option Json
  stringify : Json → String

/-- `ToBoolean` of a value (`none` is `undefined`): the falsy values are `undefined`, `null`,
`false`, `0` and the empty string. -/
def toBoolean : Option Json → Bool
  | none => false
  | some .null => false
  | some (.bool b) => b
  | some (.num q) => decide (q ≠ 0)
  | some (.str s) => decide (s ≠ "")
  | some (.arr _) => true
  | some (.obj _) => true

/-- The expression `a || b` with `b` a JSON value. -/
def jsOr (a : Option Json) (b : Json) : Json :=
  match a with
  | some v => if toBoolean (some v) then v else b
  | none => b

/-- Reading a property whose name is none of `length`, an index or a built-in method: the
property of an object, `undefined` on a boolean, number, string or array, and a `TypeError`
(`Except.error`) on `null`. -/
def getProperty : Json → String → Except Unit (Option Json)
  | .null, _ => .error ()
  | .obj props, name => .ok (props.lookup name)
  | _, _ => .ok none

/-- `SameValueZero`, the key comparison of `Map`: primitives by value; an array or object only
equals itself, and every array or object `JSON.parse` creates is a new one. -/
def sameValueZero : Option Json → Option Json → Bool
  | none, none => true
  | some .null, some .null => true
  | some (.bool a), some (.bool b) => a == b
  | some (.num a), some (.num b) => decide (a = b)
  | some (.str a), some (.str b) => a == b
  | _, _ => false

/-- `Map.prototype.set` on a map of JavaScript values. -/
def rawMapSet : List (Option Json × Option Json) → Option Json → Option Json →
    List (Option Json × Option Json)
  | [], key, value => [(key, value)]
  | (k, v) :: rest, key, value =>
    if sameValueZero k key then (key, value) :: rest else (k, v) :: rawMapSet rest key value

/-- The key and value `new Map` reads from one item of its iterable, `item[0]` and `item[1]`;
`none` when the item is not an object (a `TypeError`). -/
def entryOfItem : Json → Option (Option Json × Option Json)
  | .arr items => some (items[0]?, items[1]?)
  | .obj props => some (props.lookup "0", props.lookup "1")
  | _ => none

/-- The loop of `new Map(iterable)` over the items of an array. -/
def addEntries : List Json → List (Option Json × Option Json) →
    Option (List (Option Json × Option Json))
  | [], m => some m
  | item :: rest, m =>
    match entryOfItem item with
    | some (key, value) => addEntries rest (rawMapSet m key value)
    | none => none

/-- `new Map(iterable)`: empty for `undefined` and `null`; an array is iterated; a string
iterates over its characters, which are not objects, so only the empty string passes; a
boolean, number or object is not iterable. `none` is a `TypeError`. -/
def newMap : Option Json → Option (List (Option Json × Option Json))
  | none => some []
  | some .null => some []
  | some (.arr items) => addEntries items []
  | some (.str s) => if s = "" then some [] else none
  | some _ => none

/-- The object `saveToStorage` writes, with contents as JavaScript values. -/
structure RawSnapshot where
  pets : List (Option Json × Option Json)
  transactions : Json
  nextId : Json

/-- State of a `PetShopDB` instance and of `window.petShopData` with contents as JavaScript
values. -/
structure RawDB where
  pets : List (Option Json × Option Json)
  transactions : Json
  nextId : Json
  storage : Option RawSnapshot

namespace RawDB

/-- `saveToStorage` (database.js 93-109). -/
def saveToStorage (db : RawDB) : RawDB :=
  { db with storage := some { pets := db.pets, transactions := db.transactions, nextId := db.nextId } }

/-- The `try` block of `importData` (database.js 143-152), statement by statement:
`Except.ok` is the store when the block completes, `Except.error` the store at the moment an
exception is thrown. -/
def importTry (json : JSONBuiltin) (db : RawDB) (jsonData : String) : Except RawDB RawDB :=
  match json.parse jsonData with
  | none => .error db
  | some data =>
    match getProperty data "pets" with
    | .error _ => .error db
    | .ok petsValue =>
      match newMap petsValue with
      | none => .error db
      | some pets =>
        let db1 : RawDB := { db with pets := pets }
        match getProperty data "transactions" with
        | .error _ => .error db1
        | .ok transactionsValue =>
          let db2 : RawDB := { db1 with transactions := jsOr transactionsValue (.arr []) }
          match getProperty data "nextId" with
          | .error _ => .error db2
          | .ok nextIdValue =>
            let db3 : RawDB := { db2 with nextId := jsOr nextIdValue (.num 1) }
            .ok (saveToStorage db3)

/-- `importData` (database.js 142-159): `true` when the `try` block completes, `false` from the
`catch`. -/
def importData (json : JSONBuiltin) (db : RawDB) (jsonData : String) : Bool × RawDB :=
  match importTry json db jsonData with
  | .ok db1 => (true, db1)
  | .error db1 => (false, db1)

/-- The object `exportData` hands to `JSON.stringify`, as `JSON.stringify` writes it: an
`undefined` element of an entry array is written as `null`. -/
def exportValue (db : RawDB) (exportDate : Nat) : Json :=
  .obj [("pets", .arr (db.pets.map (fun e => .arr [e.1.getD .null, e.2.getD .null]))),
        ("transactions", db.transactions),
        ("nextId", db.nextId),
        ("exportDate", .num exportDate)]

/-- `exportData` (database.js 131-139). -/
def exportData (json : JSONBuiltin) (db : RawDB) (exportDate : Nat) : String :=
  json.stringify (exportValue db exportDate)

end RawDB

/-- A stored pet object as a JavaScript value. -/
def Pet.toJson (pet : Pet) : Json :=
  .obj [("id", .num pet.id), ("name", .str pet.name), ("type", .str pet.type),
        ("age", .num pet.age), ("price", .num pet.price), ("happiness", .num pet.happiness),
        ("hunger", .num pet.hunger), ("isSold", .bool pet.isSold),
        ("createdAt", .num pet.createdAt), ("updatedAt", .num pet.updatedAt)]

/-- A ledger entry as a JavaScript value. -/
def Transaction.toJson (t : Transaction) : Json :=
  .obj [("id", .num t.id), ("petId", .num t.petId), ("type", .str t.type),
        ("amount", .num t.amount), ("timestamp", .num t.timestamp)]

/-- The map of a `PetShopDB` state with keys and records as JavaScript values. -/
def rawPets (pets : List (Nat × Pet)) : List (Option Json × Option Json) :=
  pets.map (fun e => (some (.num e.1), some e.2.toJson))

/-- The ledger of a `PetShopDB` state as a JavaScript value. -/
def rawTransactions (transactions : List Transaction) : Json :=
  .arr (transactions.map Transaction.toJson)

/-- A `PetShopDB` state with its contents as JavaScript values. -/
def PetShopDB.toRaw (db : PetShopDB) : RawDB :=
  { pets := rawPets db.pets
    transactions := rawTransactions db.transactions
    nextId := .num db.nextId
    storage := db.storage.map (fun s =>
      { pets := rawPets s.pets
        transactions := rawTransactions s.transactions
        nextId := .num s.nextId }) }

/-- `exportData` (database.js 131-139) on a `PetShopDB` state. -/
def PetShopDB.exportData (json : JSONBuiltin) (db : PetShopDB) (exportDate : Nat) : String :=
  db.toRaw.exportData json exportDate

/-- A `JSON` object given by a table of the texts it parses and the one text it writes. -/
def tableJSON (table : List (String × Json)) (output : String) : JSONBuiltin :=
  { parse := fun text => table.lookup text
    stringify := fun _ => output }

/-- An item `new Map` accepts: an array or an object. -/
def isEntryObject : Json → Bool
  | .arr _ => true
  | .obj _ => true
  | _ => false

/-- The values `new Map` accepts as its iterable: `undefined`, `null`, the empty string, and an
array whose items are all arrays or objects. -/
def isEntrySequence : Option Json → Bool
  | none => true
  | some .null => true
  | some (.str s) => decide (s = "")
  | some (.arr items) => items.all isEntryObject
  | some _ => false

/-- The store after `new PetShopDB()`, with contents as JavaScript values. -/
def rawEmpty : RawDB :=
  PetShopDB.empty.toRaw

/-- The `JSON` object of the round-trip scenarios: it parses the text `{"pets":[[]]}` and the
export text of the store that import produces. -/
def scenarioJSON : JSONBuiltin :=
  tableJSON
    [("\x7b\"pets\":[[]]\x7d", Json.obj [("pets", Json.arr [Json.arr []])]),
     ("\x7b\"pets\":[[null,null]],\"transactions\":[],\"nextId\":1,\"exportDate\":0\x7d",
      Json.obj [("pets", Json.arr [Json.arr [Json.null, Json.null]]),
                ("transactions", Json.arr []), ("nextId", Json.num 1),
                ("exportDate", Json.num 0)])]
    "\x7b\"pets\":[[null,null]],\"transactions\":[],\"nextId\":1,\"exportDate\":0\x7d"

/-- The store after `importData('{"pets":[[]]}')` on the fresh store: `new Map([[]])` has the
one entry with key `undefined` and value `undefined`. -/
def undefinedEntryStore : RawDB :=
  (RawDB.importData scenarioJSON rawEmpty "\x7b\"pets\":[[]]\x7d").2

/-- A `JSON` object for the scenario store: it writes one text and parses that text back to
the value exported from the store holding Rex. -/
def rexJSON : JSONBuiltin :=
  tableJSON [("rex-export", rexStore.toRaw.exportValue 9000)] "rex-export"

/-! ## Mood, hunger status, construction (pet.js, database.js) -/

/-- `Pet.getMood` (pet.js 127-133). -/
def Pet.getMood (this : Pet) : String :=
  if this.happiness ≥ 80 then "Very Happy"
  else if this.happiness ≥ 60 then "Happy"
  else if this.happiness ≥ 40 then "Content"
  else if this.happiness ≥ 20 then "Sad"
  else "Very Sad"

/-- `Pet.getHungerStatus` (pet.js 139-145). -/
def Pet.getHungerStatus (this : Pet) : String :=
  if this.hunger ≤ 20 then "Well Fed"
  else if this.hunger ≤ 40 then "Satisfied"
  else if this.hunger ≤ 60 then "Peckish"
  else if this.hunger ≤ 80 then "Hungry"
  else "Starving"

/-- The constructor of `PetShopDB` (database.js 3-8) run while `window.petShopData` holds
`petShopData`: the fields are initialised and `loadFromStorage` is called. -/
def PetShopDB.new (petShopData : Option Snapshot) : PetShopDB :=
  PetShopDB.loadFromStorage
    { pets := [], transactions := [], nextId := 1, storage := petShopData }

/-- The keys of the map are pairwise distinct, as in every `Map`. -/
def PetShopDB.KeysDistinct (db : PetShopDB) : Prop :=
  (db.pets.map Prod.fst).Nodup

instance PetShopDB.KeysDistinct.decidable (db : PetShopDB) : Decidable db.KeysDistinct :=
  inferInstanceAs (Decidable (List.Nodup _))

/-- The call reads the persisted snapshot back into the store (`loadFromStorage`). -/
def Op.loadsStorage : Op → Bool
  | .loadFromStorage => true
  | _ => false

/-- Every stored record's `id` property equals the key under which the map holds it. -/
def PetShopDB.IdIsKey (db : PetShopDB) : Prop :=
  ∀ key r, db.readPet key = some r → r.id = key

/-- The frame of an operation on the record `r` stored under key `i`: every record under
another key is as before, the number of records and the counter are as before, and the record
under `i` still has the `id`, `name`, `type`, `age`, `price` and `createdAt` of `r`. -/
def FramedAt (before after : PetShopDB) (i : Nat) (r : Pet) : Prop :=
  (∀ key, key ≠ i → after.readPet key = before.readPet key) ∧
  after.getAllPets.length = before.getAllPets.length ∧
  after.nextId = before.nextId ∧
  ∃ r1, after.readPet i = some r1 ∧ r1.id = r.id ∧ r1.name = r.name ∧ r1.type = r.type ∧
    r1.age = r.age ∧ r1.price = r.price ∧ r1.createdAt = r.createdAt

/-- The record stored under key `i` has the same `isSold` after as before. -/
def KeepsSoldFlagAt (before after : PetShopDB) (i : Nat) : Prop :=
  (after.readPet i).map (fun r => r.isSold) = (before.readPet i).map (fun r => r.isSold)

/-! ## Elementary store calls

Every call on the store, handler or method, runs a sequence of calls of `updatePet`,
`recordTransaction`, `createPet`, `deletePet`, `saveToStorage` and `clearAll`. -/

/-- One elementary call, with the updates passed to `updatePet` restricted by `allowed`. -/
inductive StoreStep (allowed : Nat → PetUpdates → Prop) : PetShopDB → PetShopDB → Prop where
  | updatePet (db : PetShopDB) (id : Nat) (u : PetUpdates) (now : Nat) (h : allowed id u) :
      StoreStep allowed db (db.updatePet id u now).2
  | recordTransaction (db : PetShopDB) (petId : Nat) (type : String) (amount : ℚ)
      (txId txTime : Nat) :
      StoreStep allowed db (db.recordTransaction petId type amount txId txTime).2
  | createPet (db : PetShopDB) (petData : PetData) (createdAt updatedAt : Nat) :
      StoreStep allowed db (db.createPet petData createdAt updatedAt).2
  | deletePet (db : PetShopDB) (id : Nat) : StoreStep allowed db (db.deletePet id).2
  | saveToStorage (db : PetShopDB) : StoreStep allowed db db.saveToStorage
  | clearAll (db : PetShopDB) : StoreStep allowed db db.clearAll

/-- The call is not `loadFromStorage`, and when it is `updatePet` its updates are allowed. -/
def Op.UpdatesWithin (allowed : Nat → PetUpdates → Prop) : Op → Prop
  | .updatePet id u _ => allowed id u
  | .loadFromStorage => False
  | _ => True

/-- Updates that leave the `id` property alone: they carry no `id`, or the key itself. -/
def KeepsIdField (id : Nat) (u : PetUpdates) : Prop :=
  u.id = none ∨ u.id = some id

instance KeepsIdField.decidable (id : Nat) (u : PetUpdates) : Decidable (KeepsIdField id u) :=
  inferInstanceAs (Decidable (_ ∨ _))

/-- A call on the store: one of `Op`, or `clearAll`. -/
inductive StoreCall where
  | op (o : Op)
  | clearAll

/-- Run one call. -/
def StoreCall.run (db : PetShopDB) : StoreCall → PetShopDB
  | .op o => (o.run db).2
  | .clearAll => db.clearAll

/-- The call reads the persisted snapshot back into the store. -/
def StoreCall.loadsStorage : StoreCall → Bool
  | .op o => o.loadsStorage
  | .clearAll => false

/-- The store after a sequence of calls. -/
def runCalls : PetShopDB → List StoreCall → PetShopDB
  | db, [] => db
  | db, call :: rest => runCalls (call.run db) rest

/-- A sequence for the scenarios: Rex is created, his price is updated, he is fed and sold, a
second pet is created and deleted. -/
def storeOps : List Op :=
  [Op.createPet { name := "Rex", type := "Dog", age := 2, price := 200 } 1000 1000,
   Op.updatePet 1 { price := some 180 } 1500,
   Op.feedPet 1 (clockAt 2000),
   Op.sellPet 1 (clockAt 3000),
   Op.createPet { name := "Whiskers", type := "Cat", age := 1, price := 150 } 3500 3500,
   Op.deletePet 2]

/-- The store that holds Rex under key 1 while its counter is 1, saved. -/
def collidingStore : PetShopDB :=
  PetShopDB.saveToStorage { pets := [(1, rex)], transactions := [], nextId := 1, storage := none }

/-- A backup text that holds Rex under key 1 and no `nextId`. -/
def collidingText : String :=
  "\x7b\"pets\":[[1,\x7b\"id\":1,\"name\":\"Rex\",\"type\":\"Dog\",\"age\":2,\"price\":200,\"happiness\":50,\"hunger\":30,\"isSold\":false,\"createdAt\":1000,\"updatedAt\":1000\x7d]]\x7d"

/-- A `JSON` object that parses `collidingText`. -/
def collidingJSON : JSONBuiltin :=
  tableJSON
    [(collidingText,
      Json.obj [("pets", Json.arr [Json.arr [Json.num 1,
        Json.obj [("id", Json.num 1), ("name", Json.str "Rex"), ("type", Json.str "Dog"),
          ("age", Json.num 2), ("price", Json.num 200), ("happiness", Json.num 50),
          ("hunger", Json.num 30), ("isSold", Json.bool false), ("createdAt", Json.num 1000),
          ("updatedAt", Json.num 1000)]]])])]
    ""

/-- A sequence with a `clearAll` for the scenarios: two pets are created, the store is cleared,
a pet is created and its price updated. -/
def storeCalls : List StoreCall :=
  [StoreCall.op (Op.createPet { name := "Rex", type := "Dog", age := 2, price := 200 } 1000 1000),
   StoreCall.op (Op.createPet { name := "Max", type := "Dog", age := 3, price := 300 } 1100 1100),
   StoreCall.clearAll,
   StoreCall.op (Op.createPet { name := "Whiskers", type := "Cat", age := 1, price := 150 }
     2000 2000),
   StoreCall.op (Op.updatePet 1 { price := some 120 } 2500)]

/-- The ledger entries of type sale for a pet id. -/
def PetShopDB.salesOf (db : PetShopDB) (petId : Nat) : List Transaction :=
  db.transactions.filter (fun t => t.type == "sale" && t.petId == petId)

/-- The calls of the record lifecycle, each by pet id as the handlers of app.js make them:
`createPet`, `feedPet`, `playWithPet`, `sellPet`, the periodic `simulateTimePassage`, and
deletion. -/
def Op.isLifecycleCall : Op → Bool
  | .createPet _ _ _ => true
  | .feedPet _ _ => true
  | .playWithPet _ _ => true
  | .sellPet _ _ => true
  | .simulateTimePassage _ => true
  | .deletePet _ => true
  | .removePet _ => true
  | _ => false

/-- The invariant behind "a sale is recorded exactly once": keys are distinct, each record's
`id` is its key, no record and no sale entry exists for an id at or above the counter, each id
has at most one sale entry, an available record has none, and a sold record has exactly one,
with the record's price as amount. -/
def SalesInvariant (db : PetShopDB) : Prop :=
  db.KeysDistinct ∧ db.IdIsKey ∧
  (∀ key, db.nextId ≤ key → db.readPet key = none ∧ db.salesOf key = []) ∧
  (∀ petId, (db.salesOf petId).length ≤ 1) ∧
  (∀ key r, db.readPet key = some r → r.isSold = false → db.salesOf key = []) ∧
  (∀ key r, db.readPet key = some r → r.isSold = true →
    ∃ t, db.salesOf key = [t] ∧ t.amount = r.price)

/-- A lifecycle sequence with sales for the scenarios: Rex is created, fed, sold, sold again,
Whiskers is created, Rex is deleted, Whiskers is sold. -/
def salesOps : List Op :=
  [Op.createPet { name := "Rex", type := "Dog", age := 2, price := 200 } 1000 1000,
   Op.feedPet 1 (clockAt 2000),
   Op.sellPet 1 (clockAt 3000),
   Op.sellPet 1 (clockAt 3100),
   Op.createPet { name := "Whiskers", type := "Cat", age := 1, price := 150 } 3500 3500,
   Op.removePet 1,
   Op.sellPet 2 (clockAt 4000)]

/-! ## The console model (src/pet.js) -/

namespace Legacy

/-- The object built by the constructor function `Pet` (src/pet.js 2-9). -/
structure Pet where
  name : String
  type : String
  age : ℚ
  price : ℚ
  happiness : ℚ
  hunger : ℚ
  isSold : Bool

/-- The constructor function `Pet(name, type, age, price)` (src/pet.js 2-9). -/
def Pet.new (name type : String) (age price : ℚ) : Pet :=
  { name := name, type := type, age := age, price := price, happiness := 50, hunger := 30,
    isSold := false }

/-- The method `sell` of the console model (src/pet.js 36-46): the result and the object
afterwards. -/
def Pet.sell (this : Pet) : Bool × Pet :=
  if this.isSold then (false, this)
  else (true, { this with isSold := true })

/-- The object built by the constructor function `PetShop` (src/pet.js 63-67). -/
structure PetShop where
  shopName : String
  pets : List Pet
  totalSales : ℚ
  soldPets : List Pet

/-- The constructor function `PetShop(shopName)` (src/pet.js 63-67). -/
def PetShop.new (shopName : String) : PetShop :=
  { shopName := shopName, pets := [], totalSales := 0, soldPets := [] }

/-- The method `addPet` (src/pet.js 69-72). -/
def PetShop.addPet (this : PetShop) (pet : Pet) : PetShop :=
  { this with pets := this.pets ++ [pet] }

/-- The `for` loop of `updateInventory` (src/pet.js 76-82) with `i + 1` indices left to visit:
the body runs at index `i`, then the loop goes on below it; at 0 the loop ends. Reading
`isSold` of an index outside the array throws, which is `none`. -/
def PetShop.updateInventoryLoop : Nat → PetShop → Option PetShop
  | 0, this => some this
  | i + 1, this =>
    match this.pets[i]? with
    | none => none
    | some pet =>
      if pet.isSold then
        updateInventoryLoop i
          { this with
            soldPets := this.soldPets ++ [pet]
            totalSales := this.totalSales + pet.price
            pets := this.pets.eraseIdx i }
      else updateInventoryLoop i this

/-- The method `updateInventory` (src/pet.js 75-83): the loop starts at `pets.length - 1`. -/
def PetShop.updateInventory (this : PetShop) : Option PetShop :=
  updateInventoryLoop this.pets.length this

end Legacy

/-- A console shop for the scenarios: Buddy, Whiskers and Tweety are added, then Buddy and
Tweety are sold. -/
def legacyShop : Legacy.PetShop :=
  { shopName := "Happy Paws"
    pets := [(Legacy.Pet.new "Buddy" "Dog" 3 500).sell.2, Legacy.Pet.new "Whiskers" "Cat" 2 300,
             (Legacy.Pet.new "Tweety" "Bird" 1 150).sell.2]
    totalSales := 0
    soldPets := [] }

/-! # Theorems -/

/-! ## Lemmas on the map operations -/

theorem mapGet_mapSet_self (m : List (Nat × Pet)) (key : Nat) (value : Pet) :
    mapGet (mapSet m key value) key = some value := by
  induction m with
  | nil => simp [mapSet, mapGet]
  | cons e rest ih =>
    obtain ⟨k, v⟩ := e
    by_cases h : k = key
    · simp [mapSet, mapGet, h]
    · simp [mapSet, mapGet, h, ih]

theorem mapGet_mapSet_of_ne (m : List (Nat × Pet)) (key other : Nat) (value : Pet)
    (h : other ≠ key) : mapGet (mapSet m key value) other = mapGet m other := by
  induction m with
  | nil => simp [mapSet, mapGet, Ne.symm h]
  | cons e rest ih =>
    obtain ⟨k, v⟩ := e
    by_cases hk : k = key
    · subst hk
      simp [mapSet, mapGet, Ne.symm h]
    · by_cases ho : k = other
      · subst ho
        simp [mapSet, mapGet, hk]
      · simp [mapSet, mapGet, hk, ho, ih]

/-! ## Lemmas on the store methods -/

namespace PetShopDB

@[simp] theorem saveToStorage_pets (db : PetShopDB) : db.saveToStorage.pets = db.pets := rfl

@[simp] theorem saveToStorage_transactions (db : PetShopDB) :
    db.saveToStorage.transactions = db.transactions := rfl

@[simp] theorem saveToStorage_nextId (db : PetShopDB) : db.saveToStorage.nextId = db.nextId := rfl

@[simp] theorem saveToStorage_readPet (db : PetShopDB) (k : Nat) :
    db.saveToStorage.readPet k = db.readPet k := rfl

theorem updatePet_transactions (db : PetShopDB) (id : Nat) (u : PetUpdates) (now : Nat) :
    (db.updatePet id u now).2.transactions = db.transactions := by
  unfold updatePet
  cases mapGet db.pets id <;> rfl

theorem updatePet_nextId (db : PetShopDB) (id : Nat) (u : PetUpdates) (now : Nat) :
    (db.updatePet id u now).2.nextId = db.nextId := by
  unfold updatePet
  cases mapGet db.pets id <;> rfl

theorem updatePet_readPet_self (db : PetShopDB) (id : Nat) (u : PetUpdates) (now : Nat) :
    (db.updatePet id u now).2.readPet id =
      (db.readPet id).map (fun pet => { u.assignTo pet with updatedAt := now }) := by
  unfold updatePet readPet
  cases h : mapGet db.pets id with
  | none => simp [h]
  | some pet => simp [saveToStorage, mapGet_mapSet_self]

theorem updatePet_readPet_of_ne (db : PetShopDB) (id other : Nat) (u : PetUpdates) (now : Nat)
    (h : other ≠ id) : (db.updatePet id u now).2.readPet other = db.readPet other := by
  unfold updatePet readPet
  cases mapGet db.pets id with
  | none => rfl
  | some pet => simp [saveToStorage, mapGet_mapSet_of_ne _ _ _ _ h]

@[simp] theorem recordTransaction_readPet (db : PetShopDB) (petId : Nat) (type : String)
    (amount : ℚ) (txId txTime k : Nat) :
    (db.recordTransaction petId type amount txId txTime).2.readPet k = db.readPet k := rfl

@[simp] theorem recordTransaction_nextId (db : PetShopDB) (petId : Nat) (type : String)
    (amount : ℚ) (txId txTime : Nat) :
    (db.recordTransaction petId type amount txId txTime).2.nextId = db.nextId := rfl

theorem recordTransaction_transactions (db : PetShopDB) (petId : Nat) (type : String)
    (amount : ℚ) (txId txTime : Nat) :
    (db.recordTransaction petId type amount txId txTime).2.transactions =
      db.transactions ++ [{ id := txId, petId := petId, type := type, amount := amount,
                            timestamp := txTime }] := by
  unfold recordTransaction
  by_cases h : amount = 0 <;> simp [saveToStorage, h]

end PetShopDB

/-! ## The next-id counter along a sequence of calls -/

theorem counterIs_empty : CounterIs 1 PetShopDB.empty :=
  ⟨rfl, le_refl 1, fun s h => by simp [PetShopDB.empty] at h⟩

theorem counterIs_saveToStorage {n : Nat} {db : PetShopDB} (h : db.nextId = n) (hn : 1 ≤ n) :
    CounterIs n db.saveToStorage := by
  refine ⟨h, hn, ?_⟩
  intro s hs
  simp only [PetShopDB.saveToStorage, Option.some.injEq] at hs
  rw [← hs]
  exact h

theorem counterIs_loadFromStorage {n : Nat} {db : PetShopDB} (h : CounterIs n db) :
    CounterIs n db.loadFromStorage := by
  obtain ⟨h1, h2, h3⟩ := h
  unfold PetShopDB.loadFromStorage
  cases hs : db.storage with
  | none => exact ⟨h1, h2, h3⟩
  | some data =>
    have hd : data.nextId = n := h3 data hs
    have hne : data.nextId ≠ 0 := by omega
    refine ⟨?_, h2, ?_⟩
    · show (if data.nextId = 0 then 1 else data.nextId) = n
      rw [if_neg hne]
      exact hd
    · intro s hs2
      exact h3 s (hs ▸ hs2)

theorem counterIs_updatePet {n : Nat} {db : PetShopDB} (h : CounterIs n db) (id : Nat)
    (u : PetUpdates) (now : Nat) : CounterIs n (db.updatePet id u now).2 := by
  unfold PetShopDB.updatePet
  cases mapGet db.pets id with
  | none => exact h
  | some pet => exact counterIs_saveToStorage h.1 h.2.1

theorem counterIs_deletePet {n : Nat} {db : PetShopDB} (h : CounterIs n db) (id : Nat) :
    CounterIs n (db.deletePet id).2 := by
  unfold PetShopDB.deletePet
  split
  · exact counterIs_saveToStorage h.1 h.2.1
  · exact h

theorem counterIs_recordTransaction {n : Nat} {db : PetShopDB} (h : CounterIs n db)
    (petId : Nat) (type : String) (amount : ℚ) (txId txTime : Nat) :
    CounterIs n (db.recordTransaction petId type amount txId txTime).2 :=
  counterIs_saveToStorage h.1 h.2.1

theorem counterIs_feed {n : Nat} {db : PetShopDB} (h : CounterIs n db) (this : Pet)
    (clk : Clock) : CounterIs n (this.feed db clk).2 := by
  unfold Pet.feed
  split
  · exact h
  · exact counterIs_recordTransaction (counterIs_updatePet h _ _ _) _ _ _ _ _

theorem counterIs_play {n : Nat} {db : PetShopDB} (h : CounterIs n db) (this : Pet)
    (clk : Clock) : CounterIs n (this.play db clk).2 := by
  unfold Pet.play
  split
  · exact h
  · exact counterIs_recordTransaction (counterIs_updatePet h _ _ _) _ _ _ _ _

theorem counterIs_sell {n : Nat} {db : PetShopDB} (h : CounterIs n db) (this : Pet)
    (clk : Clock) : CounterIs n (this.sell db clk).2.2 := by
  unfold Pet.sell
  split
  · exact h
  · exact counterIs_recordTransaction (counterIs_updatePet h _ _ _) _ _ _ _ _

theorem counterIs_petSimulate {n : Nat} {db : PetShopDB} (h : CounterIs n db) (this : Pet)
    (d : Draw) : CounterIs n (this.simulateTimePassage db d).2 := by
  unfold Pet.simulateTimePassage
  split
  · exact h
  · exact counterIs_updatePet h _ _ _

theorem counterIs_simulateLoop {n : Nat} (keys : List Nat) (draws : Nat → Draw) :
    ∀ (i : Nat) (db : PetShopDB), CounterIs n db → CounterIs n (simulateLoop keys i draws db) := by
  induction keys with
  | nil => intro i db h; exact h
  | cons key rest ih =>
    intro i db h
    unfold simulateLoop
    cases db.readPet key with
    | none => exact ih _ _ h
    | some petData => exact ih _ _ (counterIs_petSimulate h _ _)

/-- A call other than `createPet` keeps the counter; `createPet` returns the counter as the
new id and advances it by one. -/
theorem counterIs_run {n : Nat} {db : PetShopDB} (h : CounterIs n db) (op : Op) :
    ((op.run db).1 = none ∧ CounterIs n (op.run db).2) ∨
    ((op.run db).1 = some n ∧ CounterIs (n + 1) (op.run db).2) := by
  cases op with
  | createPet petData createdAt updatedAt =>
    right
    refine ⟨?_, ?_⟩
    · simp [Op.run, PetShopDB.createPet, h.1]
    · exact counterIs_saveToStorage (by simp [h.1]) (by omega)
  | readPet id => exact Or.inl ⟨rfl, h⟩
  | updatePet id updates now => exact Or.inl ⟨rfl, counterIs_updatePet h _ _ _⟩
  | deletePet id => exact Or.inl ⟨rfl, counterIs_deletePet h _⟩
  | recordTransaction petId type amount txId txTime =>
    exact Or.inl ⟨rfl, counterIs_recordTransaction h _ _ _ _ _⟩
  | saveToStorage => exact Or.inl ⟨rfl, counterIs_saveToStorage h.1 h.2.1⟩
  | loadFromStorage => exact Or.inl ⟨rfl, counterIs_loadFromStorage h⟩
  | feedPet id clk =>
    refine Or.inl ⟨rfl, ?_⟩
    show CounterIs n (feedPet db id clk)
    unfold feedPet
    cases db.readPet id with
    | none => exact h
    | some petData => exact counterIs_feed h _ _
  | playWithPet id clk =>
    refine Or.inl ⟨rfl, ?_⟩
    show CounterIs n (playWithPet db id clk)
    unfold playWithPet
    cases db.readPet id with
    | none => exact h
    | some petData => exact counterIs_play h _ _
  | sellPet id clk =>
    refine Or.inl ⟨rfl, ?_⟩
    show CounterIs n (sellPet db id clk)
    unfold sellPet
    cases db.readPet id with
    | none => exact h
    | some petData => exact counterIs_sell h _ _
  | removePet id =>
    refine Or.inl ⟨rfl, ?_⟩
    show CounterIs n (deletePet db id)
    unfold deletePet
    cases db.readPet id with
    | none => exact h
    | some petData => exact counterIs_deletePet h _
  | simulateTimePassage draws =>
    refine Or.inl ⟨rfl, ?_⟩
    show CounterIs n (simulateTimePassage db draws)
    exact counterIs_simulateLoop _ _ _ _ h

theorem createdIds_eq_range (ops : List Op) :
    ∀ (n : Nat) (db : PetShopDB), CounterIs n db →
      createdIds db ops = List.range' n (createdIds db ops).length := by
  induction ops with
  | nil => intro n db _; simp [createdIds]
  | cons op rest ih =>
    intro n db h
    rcases counterIs_run h op with ⟨h1, h2⟩ | ⟨h1, h2⟩
    · have e : createdIds db (op :: rest) = createdIds (op.run db).2 rest := by
        simp [createdIds, h1]
      rw [e]
      exact ih n _ h2
    · have e : createdIds db (op :: rest) = n :: createdIds (op.run db).2 rest := by
        simp [createdIds, h1]
      rw [e, List.length_cons, List.range'_succ]
      congr 1
      exact ih (n + 1) _ h2

/-! ## Creation -/

/-- C1: for every store and every creation input, `createPet` returns and stores (under the
returned id) a record with happiness 50, hunger 30, `isSold = false` and the given name, type,
age and price; and for every sequence of calls on a store that starts empty and uses neither
`clearAll` nor `importData`, the ids returned by the `createPet` calls are 1, 2, 3, ... in call
order, so each is strictly greater than every id returned earlier. -/
theorem createPet_defaults_and_increasing_ids :
    (∀ (db : PetShopDB) (petData : PetData) (createdAt updatedAt : Nat),
      (db.createPet petData createdAt updatedAt).1.happiness = 50 ∧
      (db.createPet petData createdAt updatedAt).1.hunger = 30 ∧
      (db.createPet petData createdAt updatedAt).1.isSold = false ∧
      (db.createPet petData createdAt updatedAt).1.name = petData.name ∧
      (db.createPet petData createdAt updatedAt).1.type = petData.type ∧
      (db.createPet petData createdAt updatedAt).1.age = petData.age ∧
      (db.createPet petData createdAt updatedAt).1.price = petData.price ∧
      (db.createPet petData createdAt updatedAt).2.readPet
          (db.createPet petData createdAt updatedAt).1.id =
        some (db.createPet petData createdAt updatedAt).1) ∧
    (∀ ops : List Op,
      createdIds PetShopDB.empty ops =
        List.range' 1 (createdIds PetShopDB.empty ops).length ∧
      List.Pairwise (fun earlier later => earlier < later) (createdIds PetShopDB.empty ops)) := by
  refine ⟨?_, ?_⟩
  · intro db petData createdAt updatedAt
    refine ⟨rfl, rfl, rfl, rfl, rfl, rfl, rfl, ?_⟩
    simp [PetShopDB.createPet, PetShopDB.readPet, mapGet_mapSet_self]
  · intro ops
    have h := createdIds_eq_range ops 1 PetShopDB.empty counterIs_empty
    refine ⟨h, ?_⟩
    rw [h]
    exact List.pairwise_lt_range' 1 _

/-! ## Feeding, playing, selling: effect on the store -/

theorem feed_readPet (db : PetShopDB) (r : Pet) (clk : Clock)
    (hstored : db.readPet r.id = some r) (havail : r.isSold = false) :
    (r.feed db clk).2.readPet r.id =
      some { r with hunger := max 0 (r.hunger - 20), happiness := min 100 (r.happiness + 10),
                    updatedAt := clk.updatedAt } := by
  simp [Pet.feed, havail, PetShopDB.updatePet_readPet_self, hstored, PetUpdates.assignTo]

theorem feed_transactions (db : PetShopDB) (r : Pet) (clk : Clock) (havail : r.isSold = false) :
    (r.feed db clk).2.transactions =
      db.transactions ++ [{ id := clk.txId, petId := r.id, type := "feed", amount := 0,
                            timestamp := clk.txTime }] := by
  simp [Pet.feed, havail, PetShopDB.recordTransaction_transactions,
    PetShopDB.updatePet_transactions]

theorem play_readPet (db : PetShopDB) (r : Pet) (clk : Clock)
    (hstored : db.readPet r.id = some r) (havail : r.isSold = false) :
    (r.play db clk).2.readPet r.id =
      some { r with happiness := min 100 (r.happiness + 50), hunger := min 100 (r.hunger + 5),
                    updatedAt := clk.updatedAt } := by
  simp [Pet.play, havail, PetShopDB.updatePet_readPet_self, hstored, PetUpdates.assignTo]

theorem play_transactions (db : PetShopDB) (r : Pet) (clk : Clock) (havail : r.isSold = false) :
    (r.play db clk).2.transactions =
      db.transactions ++ [{ id := clk.txId, petId := r.id, type := "play", amount := 0,
                            timestamp := clk.txTime }] := by
  simp [Pet.play, havail, PetShopDB.recordTransaction_transactions,
    PetShopDB.updatePet_transactions]

theorem sell_readPet (db : PetShopDB) (r : Pet) (clk : Clock)
    (hstored : db.readPet r.id = some r) (havail : r.isSold = false) :
    (r.sell db clk).2.2.readPet r.id =
      some { r with isSold := true, updatedAt := clk.updatedAt } := by
  simp [Pet.sell, havail, PetShopDB.updatePet_readPet_self, hstored, PetUpdates.assignTo]

theorem sell_transactions (db : PetShopDB) (r : Pet) (clk : Clock) (havail : r.isSold = false) :
    (r.sell db clk).2.2.transactions =
      db.transactions ++ [{ id := clk.txId, petId := r.id, type := "sale", amount := r.price,
                            timestamp := clk.txTime }] := by
  simp [Pet.sell, havail, PetShopDB.recordTransaction_transactions,
    PetShopDB.updatePet_transactions]

theorem sell_result (db : PetShopDB) (r : Pet) (clk : Clock) :
    (r.sell db clk).1 = !r.isSold := by
  unfold Pet.sell
  cases r.isSold <;> rfl

/-- C2: for every record stored under its id that is available, `feedPet` on that id leaves
the stored record with hunger `max(0, h - 20)` and happiness `min(100, p + 10)` (every other
property but `updatedAt` as before) and appends exactly one ledger entry, of type feed, for
that pet id, with amount 0. -/
theorem feedPet_available_effect (db : PetShopDB) (r : Pet) (clk : Clock)
    (hstored : db.readPet r.id = some r) (havail : r.isSold = false) :
    (feedPet db r.id clk).readPet r.id =
      some { r with hunger := max 0 (r.hunger - 20), happiness := min 100 (r.happiness + 10),
                    updatedAt := clk.updatedAt } ∧
    (feedPet db r.id clk).transactions =
      db.transactions ++ [{ id := clk.txId, petId := r.id, type := "feed", amount := 0,
                            timestamp := clk.txTime }] := by
  have e : feedPet db r.id clk = (r.feed db clk).2 := by simp [feedPet, hstored]
  rw [e]
  exact ⟨feed_readPet db r clk hstored havail, feed_transactions db r clk havail⟩

/-- C2 at the scenario: Rex with hunger 30 and happiness 50 is fed and has hunger 10 and
happiness 60, and the ledger holds the one feed entry. -/
theorem feedPet_available_effect_witness :
    (feedPet rexStore 1 (clockAt 2000)).readPet 1 =
      some { rex with hunger := 10, happiness := 60, updatedAt := 2000 } ∧
    (feedPet rexStore 1 (clockAt 2000)).transactions =
      [{ id := 2000, petId := 1, type := "feed", amount := 0, timestamp := 2000 }] := by
  have h := feedPet_available_effect rexStore rex (clockAt 2000) rfl rfl
  have e1 : max 0 (rex.hunger - 20) = 10 := by norm_num [rex]
  have e2 : min 100 (rex.happiness + 10) = 60 := by norm_num [rex]
  rw [e1, e2] at h
  exact h

/-! ## The scenario stores -/

theorem rexFedStore_readPet : rexFedStore.readPet 1 = some rexFed := by
  have h := feed_readPet rexStore rex (clockAt 2000) rfl rfl
  have e1 : max 0 (rex.hunger - 20) = 10 := by norm_num [rex]
  have e2 : min 100 (rex.happiness + 10) = 60 := by norm_num [rex]
  rw [e1, e2] at h
  exact h

theorem rexFedStore_transactions :
    rexFedStore.transactions =
      [{ id := 2000, petId := 1, type := "feed", amount := 0, timestamp := 2000 }] :=
  feed_transactions rexStore rex (clockAt 2000) rfl

theorem rexPlayedStore_eq : rexPlayedStore = (rexFed.play rexFedStore (clockAt 3000)).2 := by
  simp [rexPlayedStore, playWithPet, rexFedStore_readPet]

theorem rexPlayedStore_readPet : rexPlayedStore.readPet 1 = some rexPlayed := by
  rw [rexPlayedStore_eq]
  have h := play_readPet rexFedStore rexFed (clockAt 3000) rexFedStore_readPet rfl
  have e1 : min 100 (rexFed.happiness + 50) = 100 := by norm_num [rexFed]
  have e2 : min 100 (rexFed.hunger + 5) = 15 := by norm_num [rexFed]
  rw [e1, e2] at h
  exact h

theorem rexPlayedStore_transactions :
    rexPlayedStore.transactions =
      [{ id := 2000, petId := 1, type := "feed", amount := 0, timestamp := 2000 },
       { id := 3000, petId := 1, type := "play", amount := 0, timestamp := 3000 }] := by
  rw [rexPlayedStore_eq, play_transactions rexFedStore rexFed (clockAt 3000) rfl,
    rexFedStore_transactions]
  rfl

theorem overfedStore_readPet :
    overfedStore.readPet 1 = some { rex with hunger := 130, happiness := 150, updatedAt := 1500 } :=
  rfl

/-! ## Feed keeps the values in range only from values in range -/

/-- C3, as stated, fails: `updatePet(1, {hunger: 130, happiness: 150})` stores the values
unclamped, and feeding that record gives hunger 110, outside [0,100], and lowers happiness from
150 to 100. -/
theorem feedPet_out_of_range_counterexample :
    overfedStore.readPet 1 =
      some { rex with hunger := 130, happiness := 150, updatedAt := 1500 } ∧
    (feedPet overfedStore 1 (clockAt 2000)).readPet 1 =
      some { rex with hunger := 110, happiness := 100, updatedAt := 2000 } ∧
    ¬ ((110 : ℚ) ≤ 100) ∧ ¬ ((150 : ℚ) ≤ 100) := by
  refine ⟨rfl, ?_, by norm_num, by norm_num⟩
  have h := feed_readPet overfedStore
    { rex with hunger := 130, happiness := 150, updatedAt := 1500 } (clockAt 2000) rfl rfl
  have e : feedPet overfedStore 1 (clockAt 2000) =
      (Pet.feed { rex with hunger := 130, happiness := 150, updatedAt := 1500 } overfedStore
        (clockAt 2000)).2 := by
    simp [feedPet, overfedStore_readPet]
  rw [e]
  have e1 : max 0 ((130 : ℚ) - 20) = 110 := by norm_num
  have e2 : min 100 ((150 : ℚ) + 10) = 100 := by norm_num
  simp only [e1, e2] at h
  exact h

/-- C3, amended: for every record stored under its id whose hunger and happiness lie in
[0,100], sold or not, `feedPet` on that id leaves a stored record whose hunger is not larger,
whose happiness is not smaller, and whose hunger and happiness lie in [0,100]. -/
theorem feedPet_monotone_within_range (db : PetShopDB) (r : Pet) (clk : Clock)
    (hstored : db.readPet r.id = some r)
    (hhunger : 0 ≤ r.hunger ∧ r.hunger ≤ 100)
    (hhappy : 0 ≤ r.happiness ∧ r.happiness ≤ 100) :
    ∃ r1, (feedPet db r.id clk).readPet r.id = some r1 ∧
      r1.hunger ≤ r.hunger ∧ r.happiness ≤ r1.happiness ∧
      0 ≤ r1.hunger ∧ r1.hunger ≤ 100 ∧ 0 ≤ r1.happiness ∧ r1.happiness ≤ 100 := by
  have e : feedPet db r.id clk = (r.feed db clk).2 := by simp [feedPet, hstored]
  rw [e]
  cases havail : r.isSold with
  | true =>
    refine ⟨r, ?_, le_refl _, le_refl _, hhunger.1, hhunger.2, hhappy.1, hhappy.2⟩
    simp [Pet.feed, havail, hstored]
  | false =>
    refine ⟨_, feed_readPet db r clk hstored havail, ?_, ?_, ?_, ?_, ?_, ?_⟩
    · show max 0 (r.hunger - 20) ≤ r.hunger
      exact max_le hhunger.1 (by linarith)
    · show r.happiness ≤ min 100 (r.happiness + 10)
      exact le_min hhappy.2 (by linarith)
    · show 0 ≤ max 0 (r.hunger - 20)
      exact le_max_left _ _
    · show max 0 (r.hunger - 20) ≤ 100
      exact max_le (by norm_num) (by linarith [hhunger.2])
    · show 0 ≤ min 100 (r.happiness + 10)
      exact le_min (by norm_num) (by linarith [hhappy.1])
    · show min 100 (r.happiness + 10) ≤ 100
      exact min_le_left _ _

/-- C3 amended, at the scenario: Rex (hunger 30, happiness 50) is fed. -/
theorem feedPet_monotone_within_range_witness :
    ∃ r1, (feedPet rexStore rex.id (clockAt 2000)).readPet rex.id = some r1 ∧
      r1.hunger ≤ rex.hunger ∧ rex.happiness ≤ r1.happiness ∧
      0 ≤ r1.hunger ∧ r1.hunger ≤ 100 ∧ 0 ≤ r1.happiness ∧ r1.happiness ≤ 100 :=
  feedPet_monotone_within_range rexStore rex (clockAt 2000) rfl
    (by norm_num [rex]) (by norm_num [rex])

/-! ## Play and sell on an available record -/

/-- C4: for every record stored under its id that is available, `playWithPet` on that id
leaves the stored record with happiness `min(100, p + 50)` and hunger `min(100, h + 5)` (every
other property but `updatedAt` as before) and appends exactly one ledger entry, of type play,
for that pet id, with amount 0. -/
theorem playWithPet_available_effect (db : PetShopDB) (r : Pet) (clk : Clock)
    (hstored : db.readPet r.id = some r) (havail : r.isSold = false) :
    (playWithPet db r.id clk).readPet r.id =
      some { r with happiness := min 100 (r.happiness + 50), hunger := min 100 (r.hunger + 5),
                    updatedAt := clk.updatedAt } ∧
    (playWithPet db r.id clk).transactions =
      db.transactions ++ [{ id := clk.txId, petId := r.id, type := "play", amount := 0,
                            timestamp := clk.txTime }] := by
  have e : playWithPet db r.id clk = (r.play db clk).2 := by simp [playWithPet, hstored]
  rw [e]
  exact ⟨play_readPet db r clk hstored havail, play_transactions db r clk havail⟩

/-- C4 at the scenario: Rex with hunger 10 and happiness 60 is played with and has hunger 15
and happiness 100 (clamped), and the play entry follows the feed entry in the ledger. -/
theorem playWithPet_available_effect_witness :
    (playWithPet rexFedStore 1 (clockAt 3000)).readPet 1 =
      some { rexFed with happiness := 100, hunger := 15, updatedAt := 3000 } ∧
    (playWithPet rexFedStore 1 (clockAt 3000)).transactions =
      rexFedStore.transactions ++
        [{ id := 3000, petId := 1, type := "play", amount := 0, timestamp := 3000 }] := by
  have h := playWithPet_available_effect rexFedStore rexFed (clockAt 3000)
    rexFedStore_readPet rfl
  have e1 : min 100 (rexFed.happiness + 50) = 100 := by norm_num [rexFed]
  have e2 : min 100 (rexFed.hunger + 5) = 15 := by norm_num [rexFed]
  rw [e1, e2] at h
  exact h

/-- C5: for every record stored under its id that is available, `Pet.sell` on the freshly
read record (which is what `sellPet` runs) returns true, the stored record afterwards is the
old one with `isSold = true` (name, type, age, price, happiness and hunger as before), and
exactly one ledger entry is appended, of type sale, for that pet id, with the record's price
as amount. -/
theorem sellPet_available_effect (db : PetShopDB) (r : Pet) (clk : Clock)
    (hstored : db.readPet r.id = some r) (havail : r.isSold = false) :
    (r.sell db clk).1 = true ∧
    sellPet db r.id clk = (r.sell db clk).2.2 ∧
    (sellPet db r.id clk).readPet r.id =
      some { r with isSold := true, updatedAt := clk.updatedAt } ∧
    (sellPet db r.id clk).transactions =
      db.transactions ++ [{ id := clk.txId, petId := r.id, type := "sale", amount := r.price,
                            timestamp := clk.txTime }] := by
  have e : sellPet db r.id clk = (r.sell db clk).2.2 := by simp [sellPet, hstored]
  refine ⟨?_, e, ?_, ?_⟩
  · rw [sell_result, havail]
    rfl
  · rw [e]
    exact sell_readPet db r clk hstored havail
  · rw [e]
    exact sell_transactions db r clk havail

/-- C5 at the scenario: Rex (price 200) is sold after the feed and the play. -/
theorem sellPet_available_effect_witness :
    (rexPlayed.sell rexPlayedStore (clockAt 4000)).1 = true ∧
    sellPet rexPlayedStore 1 (clockAt 4000) = (rexPlayed.sell rexPlayedStore (clockAt 4000)).2.2 ∧
    (sellPet rexPlayedStore 1 (clockAt 4000)).readPet 1 = some rexSold ∧
    (sellPet rexPlayedStore 1 (clockAt 4000)).transactions =
      rexPlayedStore.transactions ++
        [{ id := 4000, petId := 1, type := "sale", amount := 200, timestamp := 4000 }] :=
  sellPet_available_effect rexPlayedStore rexPlayed (clockAt 4000) rexPlayedStore_readPet rfl

/-! ## Sold records stay sold under the behaviour operations -/

theorem soldAt_updatePet {db : PetShopDB} {key : Nat} (h : SoldAt db key) (id : Nat)
    (u : PetUpdates) (now : Nat) (hu : u.isSold ≠ some false) :
    SoldAt (db.updatePet id u now).2 key := by
  obtain ⟨r, hr, hs⟩ := h
  by_cases hk : key = id
  · subst hk
    refine ⟨{ u.assignTo r with updatedAt := now }, ?_, ?_⟩
    · rw [PetShopDB.updatePet_readPet_self, hr]
      rfl
    · show u.isSold.getD r.isSold = true
      cases hb : u.isSold with
      | none => simpa using hs
      | some b =>
        cases b with
        | true => rfl
        | false => exact absurd hb hu
  · exact ⟨r, by rw [PetShopDB.updatePet_readPet_of_ne _ _ _ _ _ hk]; exact hr, hs⟩

theorem soldAt_recordTransaction {db : PetShopDB} {key : Nat} (h : SoldAt db key) (petId : Nat)
    (type : String) (amount : ℚ) (txId txTime : Nat) :
    SoldAt (db.recordTransaction petId type amount txId txTime).2 key :=
  h

theorem soldAt_feed {db : PetShopDB} {key : Nat} (h : SoldAt db key) (this : Pet)
    (clk : Clock) : SoldAt (this.feed db clk).2 key := by
  unfold Pet.feed
  split
  · exact h
  · exact soldAt_recordTransaction (soldAt_updatePet h _ _ _ (by simp)) _ _ _ _ _

theorem soldAt_play {db : PetShopDB} {key : Nat} (h : SoldAt db key) (this : Pet)
    (clk : Clock) : SoldAt (this.play db clk).2 key := by
  unfold Pet.play
  split
  · exact h
  · exact soldAt_recordTransaction (soldAt_updatePet h _ _ _ (by simp)) _ _ _ _ _

theorem soldAt_sell {db : PetShopDB} {key : Nat} (h : SoldAt db key) (this : Pet)
    (clk : Clock) : SoldAt (this.sell db clk).2.2 key := by
  unfold Pet.sell
  split
  · exact h
  · exact soldAt_recordTransaction (soldAt_updatePet h _ _ _ (by simp)) _ _ _ _ _

theorem soldAt_petSimulate {db : PetShopDB} {key : Nat} (h : SoldAt db key) (this : Pet)
    (d : Draw) : SoldAt (this.simulateTimePassage db d).2 key := by
  unfold Pet.simulateTimePassage
  split
  · exact h
  · exact soldAt_updatePet h _ _ _ (by simp)

theorem soldAt_simulateLoop {key : Nat} (keys : List Nat) (draws : Nat → Draw) :
    ∀ (i : Nat) (db : PetShopDB), SoldAt db key → SoldAt (simulateLoop keys i draws db) key := by
  induction keys with
  | nil => intro i db h; exact h
  | cons k rest ih =>
    intro i db h
    unfold simulateLoop
    cases db.readPet k with
    | none => exact ih _ _ h
    | some petData => exact ih _ _ (soldAt_petSimulate h _ _)

theorem soldAt_run {db : PetShopDB} {key : Nat} (h : SoldAt db key) (op : Op)
    (hop : op.isBehaviour = true) : SoldAt (op.run db).2 key := by
  cases op with
  | feedPet id clk =>
    show SoldAt (feedPet db id clk) key
    unfold feedPet
    cases db.readPet id with
    | none => exact h
    | some petData => exact soldAt_feed h _ _
  | playWithPet id clk =>
    show SoldAt (playWithPet db id clk) key
    unfold playWithPet
    cases db.readPet id with
    | none => exact h
    | some petData => exact soldAt_play h _ _
  | sellPet id clk =>
    show SoldAt (sellPet db id clk) key
    unfold sellPet
    cases db.readPet id with
    | none => exact h
    | some petData => exact soldAt_sell h _ _
  | simulateTimePassage draws =>
    show SoldAt (simulateTimePassage db draws) key
    exact soldAt_simulateLoop _ _ _ _ h
  | createPet _ _ _ => simp [Op.isBehaviour] at hop
  | readPet _ => simp [Op.isBehaviour] at hop
  | updatePet _ _ _ => simp [Op.isBehaviour] at hop
  | deletePet _ => simp [Op.isBehaviour] at hop
  | recordTransaction _ _ _ _ _ => simp [Op.isBehaviour] at hop
  | saveToStorage => simp [Op.isBehaviour] at hop
  | loadFromStorage => simp [Op.isBehaviour] at hop
  | removePet _ => simp [Op.isBehaviour] at hop

theorem soldAt_runOps {key : Nat} (ops : List Op) :
    ∀ db : PetShopDB, SoldAt db key → (∀ op ∈ ops, op.isBehaviour = true) →
      SoldAt (runOps db ops) key := by
  induction ops with
  | nil => intro db h _; exact h
  | cons op rest ih =>
    intro db h hops
    exact ih _ (soldAt_run h op (hops op (List.mem_cons_self _ _)))
      (fun o ho => hops o (List.mem_cons_of_mem _ ho))

theorem sellPet_of_sold (db : PetShopDB) (key : Nat) (r : Pet) (clk : Clock)
    (hread : db.readPet key = some r) (hsold : r.isSold = true) :
    r.sell db clk = (false, r, db) ∧ sellPet db key clk = db := by
  have e : r.sell db clk = (false, r, db) := by simp [Pet.sell, hsold]
  exact ⟨e, by simp [sellPet, hread, e]⟩

theorem rexSoldStore_eq : rexSoldStore = (rexPlayed.sell rexPlayedStore (clockAt 4000)).2.2 := by
  simp [rexSoldStore, sellPet, rexPlayedStore_readPet]

theorem rexSoldStore_readPet : rexSoldStore.readPet 1 = some rexSold := by
  rw [rexSoldStore_eq]
  exact sell_readPet rexPlayedStore rexPlayed (clockAt 4000) rexPlayedStore_readPet rfl

/-! ## Selling twice -/

/-- C6: after `Pet.sell` on an available record stored under its id has returned true, every
later sell on that id, directly after it or after any further feed, play, sell and
time-passage calls on any pets, returns false and leaves the whole store as it is (records,
ledger, counter, persisted snapshot), so `getTotalSales` stays the same. -/
theorem sellPet_again_is_noop (db : PetShopDB) (r : Pet) (clk : Clock)
    (hstored : db.readPet r.id = some r) (havail : r.isSold = false)
    (ops : List Op) (hops : ∀ op ∈ ops, op.isBehaviour = true) (clk2 : Clock) :
    (r.sell db clk).1 = true ∧
    ∃ r2, (runOps (sellPet db r.id clk) ops).readPet r.id = some r2 ∧
      (r2.sell (runOps (sellPet db r.id clk) ops) clk2).1 = false ∧
      sellPet (runOps (sellPet db r.id clk) ops) r.id clk2 = runOps (sellPet db r.id clk) ops ∧
      (sellPet (runOps (sellPet db r.id clk) ops) r.id clk2).getTotalSales =
        (runOps (sellPet db r.id clk) ops).getTotalSales := by
  have e : sellPet db r.id clk = (r.sell db clk).2.2 := by simp [sellPet, hstored]
  have hsold : SoldAt (sellPet db r.id clk) r.id :=
    ⟨_, by rw [e]; exact sell_readPet db r clk hstored havail, rfl⟩
  obtain ⟨r2, hr2, hs2⟩ := soldAt_runOps ops _ hsold hops
  obtain ⟨h1, h2⟩ := sellPet_of_sold _ r.id r2 clk2 hr2 hs2
  refine ⟨by rw [sell_result, havail]; rfl, r2, hr2, by rw [h1], h2, by rw [h2]⟩

/-- C6 at the scenario: Rex is sold, fed and sold once more in between, and sold again. -/
theorem sellPet_again_is_noop_witness :
    (rexPlayed.sell rexPlayedStore (clockAt 4000)).1 = true ∧
    ∃ r2, (runOps (sellPet rexPlayedStore 1 (clockAt 4000))
        [Op.feedPet 1 (clockAt 4500), Op.sellPet 1 (clockAt 4600)]).readPet 1 = some r2 ∧
      (r2.sell (runOps (sellPet rexPlayedStore 1 (clockAt 4000))
        [Op.feedPet 1 (clockAt 4500), Op.sellPet 1 (clockAt 4600)]) (clockAt 5000)).1 = false ∧
      sellPet (runOps (sellPet rexPlayedStore 1 (clockAt 4000))
        [Op.feedPet 1 (clockAt 4500), Op.sellPet 1 (clockAt 4600)]) 1 (clockAt 5000) =
        runOps (sellPet rexPlayedStore 1 (clockAt 4000))
          [Op.feedPet 1 (clockAt 4500), Op.sellPet 1 (clockAt 4600)] ∧
      (sellPet (runOps (sellPet rexPlayedStore 1 (clockAt 4000))
        [Op.feedPet 1 (clockAt 4500), Op.sellPet 1 (clockAt 4600)]) 1
          (clockAt 5000)).getTotalSales =
        (runOps (sellPet rexPlayedStore 1 (clockAt 4000))
          [Op.feedPet 1 (clockAt 4500), Op.sellPet 1 (clockAt 4600)]).getTotalSales :=
  sellPet_again_is_noop rexPlayedStore rexPlayed (clockAt 4000) rexPlayedStore_readPet rfl
    [Op.feedPet 1 (clockAt 4500), Op.sellPet 1 (clockAt 4600)] (by decide) (clockAt 5000)

/-! ## Sold records: feed, play and time passage do nothing -/

/-- C8: on a record whose `isSold` is true, `Pet.feed`, `Pet.play` and
`Pet.simulateTimePassage` return with the wrapper and the whole store as they were (every
record, the ledger, the counter and the persisted snapshot), and so do the handlers `feedPet`
and `playWithPet` on the key of a stored sold record. -/
theorem sold_record_operations_are_noops (db : PetShopDB) (key : Nat) (r : Pet) (clk : Clock)
    (d : Draw) (hread : db.readPet key = some r) (hsold : r.isSold = true) :
    r.feed db clk = (r, db) ∧ r.play db clk = (r, db) ∧ r.simulateTimePassage db d = (r, db) ∧
    feedPet db key clk = db ∧ playWithPet db key clk = db := by
  have e1 : r.feed db clk = (r, db) := by simp [Pet.feed, hsold]
  have e2 : r.play db clk = (r, db) := by simp [Pet.play, hsold]
  have e3 : r.simulateTimePassage db d = (r, db) := by simp [Pet.simulateTimePassage, hsold]
  exact ⟨e1, e2, e3, by simp [feedPet, hread, e1], by simp [playWithPet, hread, e2]⟩

/-- C8 at the scenario: Rex after the sale. -/
theorem sold_record_operations_are_noops_witness :
    rexSold.feed rexSoldStore (clockAt 5000) = (rexSold, rexSoldStore) ∧
    rexSold.play rexSoldStore (clockAt 5000) = (rexSold, rexSoldStore) ∧
    rexSold.simulateTimePassage rexSoldStore
      { happinessRandom := 1 / 2, hungerRandom := 1 / 2, updatedAt := 5000 } =
      (rexSold, rexSoldStore) ∧
    feedPet rexSoldStore 1 (clockAt 5000) = rexSoldStore ∧
    playWithPet rexSoldStore 1 (clockAt 5000) = rexSoldStore :=
  sold_record_operations_are_noops rexSoldStore 1 rexSold (clockAt 5000)
    { happinessRandom := 1 / 2, hungerRandom := 1 / 2, updatedAt := 5000 }
    rexSoldStore_readPet rfl

/-! ## Total sales -/

theorem foldl_add_amount (l : List Transaction) :
    ∀ init : ℚ, l.foldl (fun total t => total + t.amount) init =
      init + (l.map (fun t => t.amount)).sum := by
  induction l with
  | nil => intro init; simp
  | cons t rest ih =>
    intro init
    simp [ih, add_assoc]

theorem getTotalSales_eq_sum (db : PetShopDB) :
    db.getTotalSales =
      ((db.transactions.filter (fun t => t.type == "sale")).map (fun t => t.amount)).sum := by
  unfold PetShopDB.getTotalSales
  rw [foldl_add_amount, zero_add]

theorem getTotalSales_congr {db db1 : PetShopDB} (h : db1.transactions = db.transactions) :
    db1.getTotalSales = db.getTotalSales := by
  rw [getTotalSales_eq_sum, getTotalSales_eq_sum, h]

theorem getTotalSales_append {db db1 : PetShopDB} (t : Transaction)
    (h : db1.transactions = db.transactions ++ [t]) :
    db1.getTotalSales = db.getTotalSales + (if t.type = "sale" then t.amount else 0) := by
  rw [getTotalSales_eq_sum, getTotalSales_eq_sum, h, List.filter_append, List.map_append,
    List.sum_append]
  by_cases ht : t.type = "sale"
  · simp [List.filter_cons, ht]
  · simp [List.filter_cons, ht]

theorem getTotalSales_of_empty {db : PetShopDB} (h : db.transactions = []) :
    db.getTotalSales = 0 := by
  rw [getTotalSales_eq_sum, h]
  rfl

theorem saleFacts_updatePet (db : PetShopDB) (id : Nat) (u : PetUpdates) (now : Nat)
    (hid : u.id = none) (hprice : u.price = none) (hsold : u.isSold = none) (k : Nat) :
    ((db.updatePet id u now).2.readPet k).map saleFacts = (db.readPet k).map saleFacts := by
  by_cases hk : k = id
  · subst hk
    rw [PetShopDB.updatePet_readPet_self]
    cases db.readPet k with
    | none => rfl
    | some r => simp [saleFacts, PetUpdates.assignTo, hid, hprice, hsold]
  · rw [PetShopDB.updatePet_readPet_of_ne _ _ _ _ _ hk]

theorem feed_keeps_sales (this : Pet) (db : PetShopDB) (clk : Clock) :
    (this.feed db clk).2.getTotalSales = db.getTotalSales ∧
    ∀ k, ((this.feed db clk).2.readPet k).map saleFacts = (db.readPet k).map saleFacts := by
  cases hs : this.isSold with
  | true => simp [Pet.feed, hs]
  | false =>
    refine ⟨?_, ?_⟩
    · rw [getTotalSales_append _ (feed_transactions db this clk hs)]
      simp
    · intro k
      simp only [Pet.feed, hs, PetShopDB.recordTransaction_readPet]
      exact saleFacts_updatePet _ _ _ _ rfl rfl rfl k

theorem play_keeps_sales (this : Pet) (db : PetShopDB) (clk : Clock) :
    (this.play db clk).2.getTotalSales = db.getTotalSales ∧
    ∀ k, ((this.play db clk).2.readPet k).map saleFacts = (db.readPet k).map saleFacts := by
  cases hs : this.isSold with
  | true => simp [Pet.play, hs]
  | false =>
    refine ⟨?_, ?_⟩
    · rw [getTotalSales_append _ (play_transactions db this clk hs)]
      simp
    · intro k
      simp only [Pet.play, hs, PetShopDB.recordTransaction_readPet]
      exact saleFacts_updatePet _ _ _ _ rfl rfl rfl k

theorem feedOrPlay_run_keeps_sales (op : Op) (hop : op.isFeedOrPlay = true) (db : PetShopDB) :
    (op.run db).2.getTotalSales = db.getTotalSales ∧
    ∀ k, ((op.run db).2.readPet k).map saleFacts = (db.readPet k).map saleFacts := by
  cases op with
  | feedPet id clk =>
    show (feedPet db id clk).getTotalSales = _ ∧ ∀ k, ((feedPet db id clk).readPet k).map _ = _
    unfold feedPet
    cases db.readPet id with
    | none => exact ⟨rfl, fun _ => rfl⟩
    | some petData => exact feed_keeps_sales _ _ _
  | playWithPet id clk =>
    show (playWithPet db id clk).getTotalSales = _ ∧
      ∀ k, ((playWithPet db id clk).readPet k).map _ = _
    unfold playWithPet
    cases db.readPet id with
    | none => exact ⟨rfl, fun _ => rfl⟩
    | some petData => exact play_keeps_sales _ _ _
  | sellPet _ _ => simp [Op.isFeedOrPlay] at hop
  | simulateTimePassage _ => simp [Op.isFeedOrPlay] at hop
  | createPet _ _ _ => simp [Op.isFeedOrPlay] at hop
  | readPet _ => simp [Op.isFeedOrPlay] at hop
  | updatePet _ _ _ => simp [Op.isFeedOrPlay] at hop
  | deletePet _ => simp [Op.isFeedOrPlay] at hop
  | recordTransaction _ _ _ _ _ => simp [Op.isFeedOrPlay] at hop
  | saveToStorage => simp [Op.isFeedOrPlay] at hop
  | loadFromStorage => simp [Op.isFeedOrPlay] at hop
  | removePet _ => simp [Op.isFeedOrPlay] at hop

theorem feedOrPlay_runOps_keeps_sales (ops : List Op) :
    ∀ db : PetShopDB, (∀ op ∈ ops, op.isFeedOrPlay = true) →
      (runOps db ops).getTotalSales = db.getTotalSales ∧
      ∀ k, ((runOps db ops).readPet k).map saleFacts = (db.readPet k).map saleFacts := by
  induction ops with
  | nil => intro db _; exact ⟨rfl, fun _ => rfl⟩
  | cons op rest ih =>
    intro db hops
    obtain ⟨h1, h2⟩ := feedOrPlay_run_keeps_sales op (hops op (List.mem_cons_self _ _)) db
    obtain ⟨h3, h4⟩ := ih (op.run db).2 (fun o ho => hops o (List.mem_cons_of_mem _ ho))
    exact ⟨by show (runOps (op.run db).2 rest).getTotalSales = _; rw [h3, h1],
      fun k => by show ((runOps (op.run db).2 rest).readPet k).map _ = _; rw [h4, h2]⟩

theorem exists_of_saleFacts {db : PetShopDB} {k : Nat} {r : Pet}
    (h : (db.readPet k).map saleFacts = some (saleFacts r)) :
    ∃ r1, db.readPet k = some r1 ∧ r1.id = r.id ∧ r1.price = r.price ∧ r1.isSold = r.isSold := by
  cases hr : db.readPet k with
  | none => simp [hr] at h
  | some r1 =>
    refine ⟨r1, rfl, ?_⟩
    simpa [hr, saleFacts] using h

theorem sellPet_total (db : PetShopDB) (key : Nat) (r : Pet) (clk : Clock)
    (hread : db.readPet key = some r) (havail : r.isSold = false) :
    (sellPet db key clk).getTotalSales = db.getTotalSales + r.price := by
  have e : sellPet db key clk = (r.sell db clk).2.2 := by simp [sellPet, hread]
  rw [e, getTotalSales_append _ (sell_transactions db r clk havail)]
  simp

theorem sellPet_readPet_of_ne (db : PetShopDB) (key other : Nat) (r : Pet) (clk : Clock)
    (hread : db.readPet key = some r) (hne : other ≠ r.id) :
    (sellPet db key clk).readPet other = db.readPet other := by
  have e : sellPet db key clk = (r.sell db clk).2.2 := by simp [sellPet, hread]
  rw [e]
  unfold Pet.sell
  split
  · rfl
  · simp only [PetShopDB.recordTransaction_readPet]
    exact PetShopDB.updatePet_readPet_of_ne _ _ _ _ _ hne

theorem twoPetStore_readPet_buddy : twoPetStore.readPet 1 = some buddy := rfl

theorem twoPetStore_readPet_whiskers : twoPetStore.readPet 2 = some whiskers := rfl

/-- C7: `getTotalSales` of any store `d` is the sum of the amounts of exactly its ledger
entries of type sale, and recording a feed or play entry leaves it as it is; starting from a
store with an empty ledger, after selling one available pet the total is its price, and after
selling two distinct available pets, with any `feedPet` and `playWithPet` calls before, between
and after the two sales, the total is the sum of the two prices. -/
theorem getTotalSales_sums_sales (d : PetShopDB) (petId txId txTime : Nat) (amount : ℚ)
    (db : PetShopDB) (a b : Pet) (clkA clkB : Clock) (ops1 ops2 ops3 : List Op)
    (hledger : db.transactions = [])
    (ha : db.readPet a.id = some a) (hb : db.readPet b.id = some b) (hne : a.id ≠ b.id)
    (haa : a.isSold = false) (hba : b.isSold = false)
    (h1 : ∀ op ∈ ops1, op.isFeedOrPlay = true) (h2 : ∀ op ∈ ops2, op.isFeedOrPlay = true)
    (h3 : ∀ op ∈ ops3, op.isFeedOrPlay = true) :
    d.getTotalSales =
      ((d.transactions.filter (fun t => t.type == "sale")).map (fun t => t.amount)).sum ∧
    (d.recordTransaction petId "feed" amount txId txTime).2.getTotalSales = d.getTotalSales ∧
    (d.recordTransaction petId "play" amount txId txTime).2.getTotalSales = d.getTotalSales ∧
    (sellPet db a.id clkA).getTotalSales = a.price ∧
    (runOps (sellPet (runOps (sellPet (runOps db ops1) a.id clkA) ops2) b.id clkB)
      ops3).getTotalSales = a.price + b.price := by
  refine ⟨getTotalSales_eq_sum d, ?_, ?_, ?_, ?_⟩
  · rw [getTotalSales_append _ (PetShopDB.recordTransaction_transactions d petId "feed" amount
      txId txTime)]
    simp
  · rw [getTotalSales_append _ (PetShopDB.recordTransaction_transactions d petId "play" amount
      txId txTime)]
    simp
  · rw [sellPet_total db a.id a clkA ha haa, getTotalSales_of_empty hledger, zero_add]
  · obtain ⟨t1, f1⟩ := feedOrPlay_runOps_keeps_sales ops1 db h1
    obtain ⟨a1, ha1, ha1id, ha1price, ha1sold⟩ :=
      exists_of_saleFacts (r := a) (by rw [f1 a.id, ha]; rfl)
    have hb1 : ((runOps db ops1).readPet b.id).map saleFacts = some (saleFacts b) := by
      rw [f1 b.id, hb]
      rfl
    have t2 := sellPet_total (runOps db ops1) a.id a1 clkA ha1 (by rw [ha1sold, haa])
    have hb2 : ((sellPet (runOps db ops1) a.id clkA).readPet b.id).map saleFacts =
        some (saleFacts b) := by
      rw [sellPet_readPet_of_ne _ a.id b.id a1 clkA ha1 (by rw [ha1id]; exact Ne.symm hne)]
      exact hb1
    obtain ⟨t3, f3⟩ := feedOrPlay_runOps_keeps_sales ops2 (sellPet (runOps db ops1) a.id clkA) h2
    obtain ⟨b3, hb3, _, hb3price, hb3sold⟩ :=
      exists_of_saleFacts (r := b) (by rw [f3 b.id]; exact hb2)
    have t4 := sellPet_total _ b.id b3 clkB hb3 (by rw [hb3sold, hba])
    obtain ⟨t5, _⟩ := feedOrPlay_runOps_keeps_sales ops3
      (sellPet (runOps (sellPet (runOps db ops1) a.id clkA) ops2) b.id clkB) h3
    rw [t5, t4, t3, t2, t1, getTotalSales_of_empty hledger, ha1price, hb3price, zero_add]

/-- C7 at a concrete store: Buddy (250) and Whiskers (150) are sold with feeds and plays in
between; the total is 250 after the first sale alone and 250 + 150 at the end. -/
theorem getTotalSales_sums_sales_witness :
    (sellPet twoPetStore 1 (clockAt 2000)).getTotalSales = 250 ∧
    (runOps (sellPet (runOps (sellPet (runOps twoPetStore [Op.feedPet 1 (clockAt 1500)]) 1
        (clockAt 2000)) [Op.playWithPet 2 (clockAt 2500), Op.feedPet 1 (clockAt 2600)]) 2
        (clockAt 3000)) [Op.playWithPet 1 (clockAt 3500)]).getTotalSales = 250 + 150 :=
  (getTotalSales_sums_sales twoPetStore 1 1200 1200 0 twoPetStore buddy whiskers (clockAt 2000)
    (clockAt 3000) [Op.feedPet 1 (clockAt 1500)]
    [Op.playWithPet 2 (clockAt 2500), Op.feedPet 1 (clockAt 2600)]
    [Op.playWithPet 1 (clockAt 3500)] rfl twoPetStore_readPet_buddy twoPetStore_readPet_whiskers
    (by decide) rfl rfl (by decide) (by decide) (by decide)).2.2.2

/-! ## The well-being score -/

theorem getWellBeingScore_eq_floor (this : Pet) (hh : this.hunger ≤ 100) :
    this.getWellBeingScore =
      ⌊this.happiness * (6 / 10) + (100 - this.hunger) * (4 / 10) + 1 / 2⌋ := by
  unfold Pet.getWellBeingScore mathRound
  rw [max_eq_right (by linarith : (0 : ℚ) ≤ 100 - this.hunger)]
  norm_num

theorem mathRound_mono {x y : ℚ} (h : x ≤ y) : mathRound x ≤ mathRound y := by
  unfold mathRound
  exact Int.floor_mono (by linarith)

/-- The rounding in the score is insensitive to a small evaluation error: for integer happiness
and hunger the weighted sum is a multiple of 1/5, so it stays at distance at least 1/10 from
every rounding boundary, and any error below 1/10 in the sum (such as that of binary
floating-point evaluation of the products and the sum) leaves `Math.round` of it unchanged. -/
theorem mathRound_weighted_sum_stable (p h : ℤ) (err : ℚ) (herr : |err| < 1 / 10) :
    mathRound ((p : ℚ) * (6 / 10) + ((100 : ℚ) - h) * (4 / 10) + err) =
      mathRound ((p : ℚ) * (6 / 10) + ((100 : ℚ) - h) * (4 / 10)) := by
  obtain ⟨hlo, hhi⟩ := abs_lt.mp herr
  have hdiv : 6 * p + 4 * (100 - h) + 5 =
      10 * ((6 * p + 4 * (100 - h) + 5) / 10) + (6 * p + 4 * (100 - h) + 5) % 10 := by omega
  have hr1 : 1 ≤ (6 * p + 4 * (100 - h) + 5) % 10 := by omega
  have hr9 : (6 * p + 4 * (100 - h) + 5) % 10 ≤ 9 := by omega
  generalize (6 * p + 4 * (100 - h) + 5) / 10 = q at hdiv
  generalize (6 * p + 4 * (100 - h) + 5) % 10 = r at hdiv hr1 hr9
  have hq : (6 * (p : ℚ) + 4 * (100 - (h : ℚ)) + 5) = 10 * (q : ℚ) + (r : ℚ) := by
    exact_mod_cast hdiv
  have qr1 : (1 : ℚ) ≤ (r : ℚ) := by exact_mod_cast hr1
  have qr9 : (r : ℚ) ≤ 9 := by exact_mod_cast hr9
  have e1 : mathRound ((p : ℚ) * (6 / 10) + ((100 : ℚ) - h) * (4 / 10) + err) = q := by
    unfold mathRound
    rw [Int.floor_eq_iff]
    constructor <;> linarith
  have e2 : mathRound ((p : ℚ) * (6 / 10) + ((100 : ℚ) - h) * (4 / 10)) = q := by
    unfold mathRound
    rw [Int.floor_eq_iff]
    constructor <;> linarith
  rw [e1, e2]

/-- C9: for every record whose happiness and hunger are integers in [0,100],
`getWellBeingScore` equals the specification's `round(happiness*0.6 + (100 - hunger)*0.4)` in
exact arithmetic, lies in [0,100] (it is an integer by its type), is 100 at happiness 100 and
hunger 0, and is 0 at happiness 0 and hunger 100. -/
theorem getWellBeingScore_eq_spec (this : Pet) (p h : ℤ)
    (hp : this.happiness = (p : ℚ)) (hh : this.hunger = (h : ℚ))
    (hp0 : 0 ≤ p) (hp1 : p ≤ 100) (hh0 : 0 ≤ h) (hh1 : h ≤ 100) :
    this.getWellBeingScore = specWellBeingScore this.happiness this.hunger ∧
    0 ≤ this.getWellBeingScore ∧ this.getWellBeingScore ≤ 100 ∧
    (p = 100 → h = 0 → this.getWellBeingScore = 100) ∧
    (p = 0 → h = 100 → this.getWellBeingScore = 0) := by
  have qp0 : (0 : ℚ) ≤ this.happiness := by rw [hp]; exact_mod_cast hp0
  have qp1 : this.happiness ≤ 100 := by rw [hp]; exact_mod_cast hp1
  have qh0 : (0 : ℚ) ≤ this.hunger := by rw [hh]; exact_mod_cast hh0
  have qh1 : this.hunger ≤ 100 := by rw [hh]; exact_mod_cast hh1
  have e := getWellBeingScore_eq_floor this qh1
  refine ⟨?_, ?_, ?_, ?_, ?_⟩
  · rw [e]
    unfold specWellBeingScore
    rw [round_eq]
    congr 1
    norm_num
  · rw [e]
    apply Int.floor_nonneg.mpr
    nlinarith
  · rw [e]
    have hlt : ⌊this.happiness * (6 / 10) + (100 - this.hunger) * (4 / 10) + 1 / 2⌋ < 101 := by
      apply Int.floor_lt.mpr
      push_cast
      linarith
    omega
  · intro h100 h0
    rw [e, hp, hh, h100, h0]
    norm_num [Int.floor_eq_iff]
  · intro h0 h100
    rw [e, hp, hh, h0, h100]
    norm_num [Int.floor_eq_iff]

/-- C9 at concrete records: the best record scores 100, the worst scores 0, and Rex as created
(happiness 50, hunger 30) has the specification's score, within [0,100]. -/
theorem getWellBeingScore_eq_spec_witness :
    (petWith 100 0).getWellBeingScore = 100 ∧ (petWith 0 100).getWellBeingScore = 0 ∧
    rex.getWellBeingScore = specWellBeingScore rex.happiness rex.hunger ∧
    0 ≤ rex.getWellBeingScore ∧ rex.getWellBeingScore ≤ 100 :=
  ⟨(getWellBeingScore_eq_spec (petWith 100 0) 100 0 (by norm_num [petWith])
      (by norm_num [petWith]) (by decide) (by decide) (by decide) (by decide)).2.2.2.1 rfl rfl,
   (getWellBeingScore_eq_spec (petWith 0 100) 0 100 (by norm_num [petWith])
      (by norm_num [petWith]) (by decide) (by decide) (by decide) (by decide)).2.2.2.2 rfl rfl,
   (getWellBeingScore_eq_spec rex 50 30 (by norm_num [rex]) (by norm_num [rex])
      (by decide) (by decide) (by decide) (by decide)).1,
   (getWellBeingScore_eq_spec rex 50 30 (by norm_num [rex]) (by norm_num [rex])
      (by decide) (by decide) (by decide) (by decide)).2.1,
   (getWellBeingScore_eq_spec rex 50 30 (by norm_num [rex]) (by norm_num [rex])
      (by decide) (by decide) (by decide) (by decide)).2.2.1⟩

/-- C10: `getWellBeingScore` is monotone: of two records with equal hunger the one with the
larger-or-equal happiness has the larger-or-equal score, and of two records with equal
happiness the one with the larger-or-equal hunger has the smaller-or-equal score. -/
theorem getWellBeingScore_monotone (r1 r2 : Pet) :
    (r1.hunger = r2.hunger → r1.happiness ≤ r2.happiness →
      r1.getWellBeingScore ≤ r2.getWellBeingScore) ∧
    (r1.happiness = r2.happiness → r1.hunger ≤ r2.hunger →
      r2.getWellBeingScore ≤ r1.getWellBeingScore) := by
  refine ⟨?_, ?_⟩
  · intro hh hp
    unfold Pet.getWellBeingScore
    apply mathRound_mono
    rw [hh]
    linarith
  · intro hp hh
    unfold Pet.getWellBeingScore
    apply mathRound_mono
    rw [hp]
    have hm : max 0 (100 - r2.hunger) ≤ max 0 (100 - r1.hunger) :=
      max_le_max (le_refl 0) (by linarith)
    linarith

/-- C10 at concrete records: raising happiness from 50 to 60 at hunger 30 does not lower the
score, and raising hunger from 30 to 45 at happiness 50 does not raise it. -/
theorem getWellBeingScore_monotone_witness :
    (petWith 50 30).getWellBeingScore ≤ (petWith 60 30).getWellBeingScore ∧
    (petWith 50 45).getWellBeingScore ≤ (petWith 50 30).getWellBeingScore :=
  ⟨(getWellBeingScore_monotone (petWith 50 30) (petWith 60 30)).1 rfl (by norm_num [petWith]),
   (getWellBeingScore_monotone (petWith 50 30) (petWith 50 45)).2 rfl (by norm_num [petWith])⟩

/-! ## Attention flag -/

/-- C11: for every record, `needsAttention` returns true exactly when hunger > 80 or
happiness < 30; a record with hunger 80 and happiness 30 does not need attention; and the
`needsAttention` property of `getStatus()` agrees with `needsAttention()`. -/
theorem needsAttention_iff (this : Pet) :
    (this.needsAttention = true ↔ this.hunger > 80 ∨ this.happiness < 30) ∧
    (this.hunger = 80 → this.happiness = 30 → this.needsAttention = false) ∧
    this.getStatus.needsAttention = this.needsAttention := by
  refine ⟨?_, ?_, rfl⟩
  · simp [Pet.needsAttention]
  · intro hh hp
    simp [Pet.needsAttention, hh, hp]

/-- C11 at the boundary: hunger 80 and happiness 30 do not trigger the flag, hunger 81 does. -/
theorem needsAttention_iff_witness :
    (petWith 30 80).needsAttention = false ∧ (petWith 30 81).needsAttention = true ∧
    (petWith 30 80).getStatus.needsAttention = (petWith 30 80).needsAttention :=
  ⟨(needsAttention_iff (petWith 30 80)).2.1 rfl rfl,
   (needsAttention_iff (petWith 30 81)).1.mpr (Or.inl (by norm_num [petWith])),
   (needsAttention_iff (petWith 30 80)).2.2⟩

/-! ## `updatePet` -/

/-- C15: for every store and every id under which no record is stored, `updatePet` returns
the absent value and the same store: every record and their number, the ledger, the counter
and the persisted snapshot are as before. -/
theorem updatePet_unknown_id (db : PetShopDB) (id : Nat) (updates : PetUpdates) (now : Nat)
    (habsent : db.readPet id = none) :
    db.updatePet id updates now = (none, db) ∧
    (db.updatePet id updates now).2.getAllPets.length = db.getAllPets.length ∧
    (db.updatePet id updates now).2.nextId = db.nextId := by
  have e : db.updatePet id updates now = (none, db) := by
    unfold PetShopDB.updatePet
    unfold PetShopDB.readPet at habsent
    rw [habsent]
  rw [e]
  exact ⟨rfl, rfl, rfl⟩

/-- C15 at the scenario: the store holds Rex under id 1 only; updating id 7 does nothing. -/
theorem updatePet_unknown_id_witness :
    rexStore.updatePet 7 { hunger := some 5, isSold := some true } 1500 = (none, rexStore) ∧
    (rexStore.updatePet 7 { hunger := some 5, isSold := some true } 1500).2.getAllPets.length =
      rexStore.getAllPets.length ∧
    (rexStore.updatePet 7 { hunger := some 5, isSold := some true } 1500).2.nextId =
      rexStore.nextId :=
  updatePet_unknown_id rexStore 7 { hunger := some 5, isSold := some true } 1500 rfl

/-- C16, as stated, fails: `updatePet(1, {hunger: 130, happiness: -20})` on the store holding
Rex returns and stores hunger 130 and happiness -20, not 100 and 0. -/
theorem updatePet_no_clamp_counterexample :
    (rexStore.updatePet 1 { hunger := some 130, happiness := some (-20) } 1500).2.readPet 1 =
      some { rex with hunger := 130, happiness := -20, updatedAt := 1500 } ∧
    ¬ ((130 : ℚ) ≤ 100) ∧ ¬ ((0 : ℚ) ≤ -20) := by
  refine ⟨rfl, by norm_num, by norm_num⟩

/-- C16, amended: for every existing record and every partial-field set, `updatePet` returns
and stores the record with each given property exactly as given, happiness and hunger
included (no clamping), and `updatedAt` set to the clock reading; so the stored happiness and
hunger lie in [0,100] when the given values do, or, for a value not given, when the old one
does. -/
theorem updatePet_stores_given_values (db : PetShopDB) (id : Nat) (r : Pet)
    (updates : PetUpdates) (now : Nat) (hread : db.readPet id = some r) :
    (db.updatePet id updates now).1 = some { updates.assignTo r with updatedAt := now } ∧
    (db.updatePet id updates now).2.readPet id =
      some { updates.assignTo r with updatedAt := now } ∧
    (updates.assignTo r).happiness = updates.happiness.getD r.happiness ∧
    (updates.assignTo r).hunger = updates.hunger.getD r.hunger ∧
    ((0 ≤ updates.happiness.getD r.happiness ∧ updates.happiness.getD r.happiness ≤ 100) →
      (0 ≤ updates.hunger.getD r.hunger ∧ updates.hunger.getD r.hunger ≤ 100) →
      ∃ r1, (db.updatePet id updates now).2.readPet id = some r1 ∧
        0 ≤ r1.happiness ∧ r1.happiness ≤ 100 ∧ 0 ≤ r1.hunger ∧ r1.hunger ≤ 100) := by
  have hstored : (db.updatePet id updates now).2.readPet id =
      some { updates.assignTo r with updatedAt := now } := by
    rw [PetShopDB.updatePet_readPet_self, hread]
    rfl
  refine ⟨?_, hstored, rfl, rfl, ?_⟩
  · unfold PetShopDB.updatePet
    unfold PetShopDB.readPet at hread
    rw [hread]
  · intro hp hh
    exact ⟨_, hstored, hp.1, hp.2, hh.1, hh.2⟩

/-- C16 amended, at the scenario: the values 130 and -20 are stored as given. -/
theorem updatePet_stores_given_values_witness :
    (rexStore.updatePet 1 { hunger := some 130, happiness := some (-20) } 1500).2.readPet 1 =
      some { PetUpdates.assignTo { hunger := some 130, happiness := some (-20) } rex with
             updatedAt := 1500 } ∧
    (PetUpdates.assignTo { hunger := some 130, happiness := some (-20) } rex).happiness =
      -20 ∧
    (PetUpdates.assignTo { hunger := some 130, happiness := some (-20) } rex).hunger = 130 :=
  ⟨(updatePet_stores_given_values rexStore 1 rex
      { hunger := some 130, happiness := some (-20) } 1500 rfl).2.1,
   (updatePet_stores_given_values rexStore 1 rex
      { hunger := some 130, happiness := some (-20) } 1500 rfl).2.2.1,
   (updatePet_stores_given_values rexStore 1 rex
      { hunger := some 130, happiness := some (-20) } 1500 rfl).2.2.2.1⟩

/-! ## Time passage on an available record -/

theorem petSimulate_readPet (db : PetShopDB) (r : Pet) (d : Draw)
    (hstored : db.readPet r.id = some r) (havail : r.isSold = false) :
    (r.simulateTimePassage db d).2.readPet r.id =
      some { r with happiness := max 0 (r.happiness - d.happinessRandom * 5),
                    hunger := min 100 (r.hunger + d.hungerRandom * 3),
                    updatedAt := d.updatedAt } := by
  simp [Pet.simulateTimePassage, havail, PetShopDB.updatePet_readPet_self, hstored,
    PetUpdates.assignTo]

theorem petSimulate_transactions (db : PetShopDB) (this : Pet) (d : Draw) :
    (this.simulateTimePassage db d).2.transactions = db.transactions := by
  unfold Pet.simulateTimePassage
  split
  · rfl
  · exact PetShopDB.updatePet_transactions _ _ _ _

theorem simulateLoop_transactions (keys : List Nat) (draws : Nat → Draw) :
    ∀ (i : Nat) (db : PetShopDB), (simulateLoop keys i draws db).transactions = db.transactions := by
  induction keys with
  | nil => intro i db; rfl
  | cons k rest ih =>
    intro i db
    unfold simulateLoop
    cases db.readPet k with
    | none => exact ih _ _
    | some petData => rw [ih, petSimulate_transactions]

/-- C20: for every available record stored under its id with happiness `p` and hunger `h` in
[0,100], and `Math.random()` results in [0,1), so that the decay `d` lies in [0,5) and the
increase `i` in [0,3): `Pet.simulateTimePassage` leaves the stored record with happiness
`max(0, p - d)` and hunger `min(100, h + i)`, both in [0,100], happiness not increased and
hunger not decreased, and the ledger as it was; the periodic `simulateTimePassage` of app.js
leaves the ledger of any store as it was. -/
theorem petSimulate_available_effect (db : PetShopDB) (r : Pet) (d : Draw)
    (draws : Nat → Draw)
    (hstored : db.readPet r.id = some r) (havail : r.isSold = false)
    (hp : 0 ≤ r.happiness ∧ r.happiness ≤ 100) (hh : 0 ≤ r.hunger ∧ r.hunger ≤ 100)
    (hd : 0 ≤ d.happinessRandom ∧ d.happinessRandom < 1)
    (hi : 0 ≤ d.hungerRandom ∧ d.hungerRandom < 1) :
    (0 ≤ d.happinessRandom * 5 ∧ d.happinessRandom * 5 < 5) ∧
    (0 ≤ d.hungerRandom * 3 ∧ d.hungerRandom * 3 < 3) ∧
    (r.simulateTimePassage db d).2.readPet r.id =
      some { r with happiness := max 0 (r.happiness - d.happinessRandom * 5),
                    hunger := min 100 (r.hunger + d.hungerRandom * 3),
                    updatedAt := d.updatedAt } ∧
    (0 ≤ max 0 (r.happiness - d.happinessRandom * 5) ∧
      max 0 (r.happiness - d.happinessRandom * 5) ≤ 100) ∧
    (0 ≤ min 100 (r.hunger + d.hungerRandom * 3) ∧
      min 100 (r.hunger + d.hungerRandom * 3) ≤ 100) ∧
    max 0 (r.happiness - d.happinessRandom * 5) ≤ r.happiness ∧
    r.hunger ≤ min 100 (r.hunger + d.hungerRandom * 3) ∧
    (r.simulateTimePassage db d).2.transactions = db.transactions ∧
    (simulateTimePassage db draws).transactions = db.transactions := by
  refine ⟨⟨by linarith [hd.1], by linarith [hd.2]⟩, ⟨by linarith [hi.1], by linarith [hi.2]⟩,
    petSimulate_readPet db r d hstored havail, ⟨le_max_left _ _, ?_⟩, ⟨?_, min_le_left _ _⟩,
    ?_, ?_, petSimulate_transactions db r d, simulateLoop_transactions _ _ _ _⟩
  · exact max_le (by norm_num) (by linarith [hd.1, hp.2])
  · exact le_min (by norm_num) (by linarith [hi.1, hh.1])
  · exact max_le hp.1 (by linarith [hd.1])
  · exact le_min hh.2 (by linarith [hi.1])

/-- C20 at the scenario: Rex (happiness 50, hunger 30) with both random results 1/2. -/
theorem petSimulate_available_effect_witness :
    (rex.simulateTimePassage rexStore (halfDraw 2000)).2.readPet 1 =
      some { rex with happiness := max 0 (rex.happiness - (halfDraw 2000).happinessRandom * 5),
                      hunger := min 100 (rex.hunger + (halfDraw 2000).hungerRandom * 3),
                      updatedAt := 2000 } ∧
    (rex.simulateTimePassage rexStore (halfDraw 2000)).2.transactions = rexStore.transactions :=
  ⟨(petSimulate_available_effect rexStore rex (halfDraw 2000) halfDraw rfl rfl
      (by norm_num [rex]) (by norm_num [rex]) (by norm_num [halfDraw])
      (by norm_num [halfDraw])).2.2.1,
   (petSimulate_available_effect rexStore rex (halfDraw 2000) halfDraw rfl rfl
      (by norm_num [rex]) (by norm_num [rex]) (by norm_num [halfDraw])
      (by norm_num [halfDraw])).2.2.2.2.2.2.2.1⟩

/-! ## The sold flag: which operations keep it -/

theorem soldAt_createPet {db : PetShopDB} {key : Nat} (h : SoldAt db key) (petData : PetData)
    (createdAt updatedAt : Nat) (hkey : key ≠ db.nextId) :
    SoldAt (db.createPet petData createdAt updatedAt).2 key := by
  obtain ⟨r, hr, hs⟩ := h
  refine ⟨r, ?_, hs⟩
  show mapGet (mapSet db.pets db.nextId _) key = some r
  rw [mapGet_mapSet_of_ne _ _ _ _ hkey]
  exact hr

theorem availableAt_updatePet {db : PetShopDB} {key : Nat} (h : AvailableAt db key) (id : Nat)
    (u : PetUpdates) (now : Nat) (hu : u.isSold ≠ some true) :
    AvailableAt (db.updatePet id u now).2 key := by
  obtain ⟨r, hr, hs⟩ := h
  by_cases hk : key = id
  · subst hk
    refine ⟨{ u.assignTo r with updatedAt := now }, ?_, ?_⟩
    · rw [PetShopDB.updatePet_readPet_self, hr]
      rfl
    · show u.isSold.getD r.isSold = false
      cases hb : u.isSold with
      | none => simpa using hs
      | some b =>
        cases b with
        | false => rfl
        | true => exact absurd hb hu
  · exact ⟨r, by rw [PetShopDB.updatePet_readPet_of_ne _ _ _ _ _ hk]; exact hr, hs⟩

theorem availableAt_feed {db : PetShopDB} {key : Nat} (h : AvailableAt db key) (this : Pet)
    (clk : Clock) : AvailableAt (this.feed db clk).2 key := by
  unfold Pet.feed
  split
  · exact h
  · exact availableAt_updatePet h _ _ _ (by simp)

theorem availableAt_play {db : PetShopDB} {key : Nat} (h : AvailableAt db key) (this : Pet)
    (clk : Clock) : AvailableAt (this.play db clk).2 key := by
  unfold Pet.play
  split
  · exact h
  · exact availableAt_updatePet h _ _ _ (by simp)

theorem availableAt_petSimulate {db : PetShopDB} {key : Nat} (h : AvailableAt db key)
    (this : Pet) (d : Draw) : AvailableAt (this.simulateTimePassage db d).2 key := by
  unfold Pet.simulateTimePassage
  split
  · exact h
  · exact availableAt_updatePet h _ _ _ (by simp)

theorem availableAt_simulateLoop {key : Nat} (keys : List Nat) (draws : Nat → Draw) :
    ∀ (i : Nat) (db : PetShopDB), AvailableAt db key →
      AvailableAt (simulateLoop keys i draws db) key := by
  induction keys with
  | nil => intro i db h; exact h
  | cons k rest ih =>
    intro i db h
    unfold simulateLoop
    cases db.readPet k with
    | none => exact ih _ _ h
    | some petData => exact ih _ _ (availableAt_petSimulate h _ _)

theorem availableAt_createPet {db : PetShopDB} {key : Nat} (h : AvailableAt db key)
    (petData : PetData) (createdAt updatedAt : Nat) (hkey : key ≠ db.nextId) :
    AvailableAt (db.createPet petData createdAt updatedAt).2 key := by
  obtain ⟨r, hr, hs⟩ := h
  refine ⟨r, ?_, hs⟩
  show mapGet (mapSet db.pets db.nextId _) key = some r
  rw [mapGet_mapSet_of_ne _ _ _ _ hkey]
  exact hr

/-- C19, as stated, fails: `updatePet(1, {isSold: false})` on the store in which Rex is sold
leaves Rex stored with `isSold = false`; and `updatePet(1, {isSold: true})` on the store in
which Rex is available marks it sold with no sale recorded. -/
theorem isSold_reverted_by_update_counterexample :
    rexSoldStore.readPet 1 = some rexSold ∧ rexSold.isSold = true ∧
    (rexSoldStore.updatePet 1 { isSold := some false } 5000).2.readPet 1 =
      some { rexSold with isSold := false, updatedAt := 5000 } ∧
    rexStore.readPet 1 = some rex ∧ rex.isSold = false ∧
    (rexStore.updatePet 1 { isSold := some true } 1500).2.readPet 1 =
      some { rex with isSold := true, updatedAt := 1500 } ∧
    (rexStore.updatePet 1 { isSold := some true } 1500).2.transactions = [] := by
  refine ⟨rexSoldStore_readPet, rfl, ?_, rfl, rfl, rfl, rfl⟩
  rw [PetShopDB.updatePet_readPet_self, rexSoldStore_readPet]
  rfl

/-- C19, amended: a stored sold record stays stored and sold under `updatePet` with any fields
that do not contain `isSold: false`, under `feedPet`, `playWithPet`, `sellPet` and the periodic
`simulateTimePassage` on any pets, under `recordTransaction`, and under `createPet` when the
counter is not the record's key; and a stored available record stays stored and available under
`updatePet` with any fields that do not contain `isSold: true`, under `feedPet`, `playWithPet`,
`simulateTimePassage`, `recordTransaction`, and `createPet` when the counter is not its key: of
the listed operations only `sellPet` and an update carrying `isSold` change the flag. -/
theorem isSold_kept_except_by_sell_and_update (db : PetShopDB) (soldKey availKey : Nat)
    (hsold : SoldAt db soldKey) (havail : AvailableAt db availKey) :
    ((∀ id u now, u.isSold ≠ some false → SoldAt (db.updatePet id u now).2 soldKey) ∧
     (∀ id clk, SoldAt (feedPet db id clk) soldKey) ∧
     (∀ id clk, SoldAt (playWithPet db id clk) soldKey) ∧
     (∀ id clk, SoldAt (sellPet db id clk) soldKey) ∧
     (∀ draws, SoldAt (simulateTimePassage db draws) soldKey) ∧
     (∀ petId type amount txId txTime,
        SoldAt (db.recordTransaction petId type amount txId txTime).2 soldKey) ∧
     (∀ petData createdAt updatedAt, soldKey ≠ db.nextId →
        SoldAt (db.createPet petData createdAt updatedAt).2 soldKey)) ∧
    ((∀ id u now, u.isSold ≠ some true → AvailableAt (db.updatePet id u now).2 availKey) ∧
     (∀ id clk, AvailableAt (feedPet db id clk) availKey) ∧
     (∀ id clk, AvailableAt (playWithPet db id clk) availKey) ∧
     (∀ draws, AvailableAt (simulateTimePassage db draws) availKey) ∧
     (∀ petId type amount txId txTime,
        AvailableAt (db.recordTransaction petId type amount txId txTime).2 availKey) ∧
     (∀ petData createdAt updatedAt, availKey ≠ db.nextId →
        AvailableAt (db.createPet petData createdAt updatedAt).2 availKey)) := by
  refine ⟨⟨fun id u now hu => soldAt_updatePet hsold id u now hu,
      fun id clk => soldAt_run hsold (.feedPet id clk) rfl,
      fun id clk => soldAt_run hsold (.playWithPet id clk) rfl,
      fun id clk => soldAt_run hsold (.sellPet id clk) rfl,
      fun draws => soldAt_run hsold (.simulateTimePassage draws) rfl,
      fun _ _ _ _ _ => hsold,
      fun petData c u hk => soldAt_createPet hsold petData c u hk⟩,
    ⟨fun id u now hu => availableAt_updatePet havail id u now hu, ?_, ?_,
      fun draws => availableAt_simulateLoop _ _ _ _ havail,
      fun _ _ _ _ _ => havail,
      fun petData c u hk => availableAt_createPet havail petData c u hk⟩⟩
  · intro id clk
    unfold feedPet
    cases db.readPet id with
    | none => exact havail
    | some petData => exact availableAt_feed havail _ _
  · intro id clk
    unfold playWithPet
    cases db.readPet id with
    | none => exact havail
    | some petData => exact availableAt_play havail _ _

theorem oneSoldStore_soldAt : SoldAt oneSoldStore 1 := by
  have e : oneSoldStore = (buddy.sell twoPetStore (clockAt 2000)).2.2 := by
    simp [oneSoldStore, sellPet, twoPetStore_readPet_buddy]
  exact ⟨_, by rw [e]; exact sell_readPet twoPetStore buddy (clockAt 2000) rfl rfl, rfl⟩

theorem oneSoldStore_availableAt : AvailableAt oneSoldStore 2 :=
  ⟨whiskers, by
    rw [oneSoldStore, sellPet_readPet_of_ne twoPetStore 1 2 buddy (clockAt 2000)
      twoPetStore_readPet_buddy (by decide)]
    rfl, rfl⟩

/-- C19 amended, at a concrete store: with Buddy sold and Whiskers available, feeding Buddy
keeps Buddy sold, an update of Buddy's price keeps Buddy sold, and feeding Whiskers keeps
Whiskers available. -/
theorem isSold_kept_except_by_sell_and_update_witness :
    SoldAt (feedPet oneSoldStore 1 (clockAt 3000)) 1 ∧
    SoldAt (oneSoldStore.updatePet 1 { price := some 99 } 3000).2 1 ∧
    AvailableAt (feedPet oneSoldStore 2 (clockAt 3000)) 2 :=
  ⟨(isSold_kept_except_by_sell_and_update oneSoldStore 1 2 oneSoldStore_soldAt
      oneSoldStore_availableAt).1.2.1 1 (clockAt 3000),
   (isSold_kept_except_by_sell_and_update oneSoldStore 1 2 oneSoldStore_soldAt
      oneSoldStore_availableAt).1.1 1 { price := some 99 } 3000 (by simp),
   (isSold_kept_except_by_sell_and_update oneSoldStore 1 2 oneSoldStore_soldAt
      oneSoldStore_availableAt).2.2.1 2 (clockAt 3000)⟩

/-! ## The clamp invariant along the record lifecycle -/

theorem mem_of_mapGet {m : List (Nat × Pet)} {key : Nat} {value : Pet}
    (h : mapGet m key = some value) : (key, value) ∈ m := by
  induction m with
  | nil => simp [mapGet] at h
  | cons e rest ih =>
    obtain ⟨k, v⟩ := e
    by_cases hk : k = key
    · subst hk
      simp only [mapGet, if_true, Option.some.injEq] at h
      subst h
      exact List.mem_cons_self _ _
    · simp only [mapGet, hk, if_false] at h
      exact List.mem_cons_of_mem _ (ih h)

theorem mem_mapSet {m : List (Nat × Pet)} {key : Nat} {value : Pet} {e : Nat × Pet}
    (h : e ∈ mapSet m key value) : e ∈ m ∨ e = (key, value) := by
  induction m with
  | nil =>
    simp only [mapSet, List.mem_singleton] at h
    exact Or.inr h
  | cons e1 rest ih =>
    obtain ⟨k, v⟩ := e1
    by_cases hk : k = key
    · simp only [mapSet, hk, if_true, List.mem_cons] at h
      rcases h with h | h
      · exact Or.inr h
      · exact Or.inl (List.mem_cons_of_mem _ h)
    · simp only [mapSet, hk, if_false, List.mem_cons] at h
      rcases h with h | h
      · exact Or.inl (h ▸ List.mem_cons_self _ _)
      · rcases ih h with h1 | h1
        · exact Or.inl (List.mem_cons_of_mem _ h1)
        · exact Or.inr h1

theorem mem_mapDelete {m : List (Nat × Pet)} {key : Nat} {e : Nat × Pet}
    (h : e ∈ mapDelete m key) : e ∈ m := by
  induction m with
  | nil => simp [mapDelete] at h
  | cons e1 rest ih =>
    obtain ⟨k, v⟩ := e1
    by_cases hk : k = key
    · simp only [mapDelete, hk, if_true] at h
      exact List.mem_cons_of_mem _ h
    · simp only [mapDelete, hk, if_false, List.mem_cons] at h
      rcases h with h | h
      · exact h ▸ List.mem_cons_self _ _
      · exact List.mem_cons_of_mem _ (ih h)

theorem allInRange_updatePet {db : PetShopDB} (h : ∀ e ∈ db.pets, e.2.InRange) (id : Nat)
    (u : PetUpdates) (now : Nat)
    (hu : ∀ r : Pet, r.InRange → (u.assignTo r).InRange) :
    ∀ e ∈ (db.updatePet id u now).2.pets, e.2.InRange := by
  unfold PetShopDB.updatePet
  cases hg : mapGet db.pets id with
  | none => exact h
  | some pet =>
    intro e he
    rcases mem_mapSet he with h1 | h1
    · exact h e h1
    · rw [h1]
      exact hu pet (h _ (mem_of_mapGet hg))

theorem allInRange_feed {db : PetShopDB} (h : ∀ e ∈ db.pets, e.2.InRange) (this : Pet)
    (hthis : this.InRange) (clk : Clock) : ∀ e ∈ (this.feed db clk).2.pets, e.2.InRange := by
  unfold Pet.feed
  split
  · exact h
  · refine allInRange_updatePet h _ _ _ ?_
    intro r _
    obtain ⟨h1, h2, h3, h4⟩ := hthis
    refine ⟨le_min (by norm_num) (by linarith), min_le_left _ _, le_max_left _ _,
      max_le (by norm_num) (by linarith)⟩

theorem allInRange_play {db : PetShopDB} (h : ∀ e ∈ db.pets, e.2.InRange) (this : Pet)
    (hthis : this.InRange) (clk : Clock) : ∀ e ∈ (this.play db clk).2.pets, e.2.InRange := by
  unfold Pet.play
  split
  · exact h
  · refine allInRange_updatePet h _ _ _ ?_
    intro r _
    obtain ⟨h1, h2, h3, h4⟩ := hthis
    refine ⟨le_min (by norm_num) (by linarith), min_le_left _ _,
      le_min (by norm_num) (by linarith), min_le_left _ _⟩

theorem allInRange_sell {db : PetShopDB} (h : ∀ e ∈ db.pets, e.2.InRange) (this : Pet)
    (clk : Clock) : ∀ e ∈ (this.sell db clk).2.2.pets, e.2.InRange := by
  unfold Pet.sell
  split
  · exact h
  · exact allInRange_updatePet h _ _ _ (fun r hr => hr)

theorem allInRange_petSimulate {db : PetShopDB} (h : ∀ e ∈ db.pets, e.2.InRange) (this : Pet)
    (hthis : this.InRange) (d : Draw) (hd : d.Valid) :
    ∀ e ∈ (this.simulateTimePassage db d).2.pets, e.2.InRange := by
  unfold Pet.simulateTimePassage
  split
  · exact h
  · refine allInRange_updatePet h _ _ _ ?_
    intro r _
    obtain ⟨h1, h2, h3, h4⟩ := hthis
    obtain ⟨d1, d2, d3, d4⟩ := hd
    refine ⟨le_max_left _ _, max_le (by norm_num) (by linarith),
      le_min (by norm_num) (by linarith), min_le_left _ _⟩

theorem allInRange_simulateLoop (keys : List Nat) (draws : Nat → Draw)
    (hdraws : ∀ i, (draws i).Valid) :
    ∀ (i : Nat) (db : PetShopDB), (∀ e ∈ db.pets, e.2.InRange) →
      ∀ e ∈ (simulateLoop keys i draws db).pets, e.2.InRange := by
  induction keys with
  | nil => intro i db h; exact h
  | cons k rest ih =>
    intro i db h
    unfold simulateLoop
    cases hr : db.readPet k with
    | none => exact ih _ _ h
    | some petData =>
      exact ih _ _ (allInRange_petSimulate h _ (h _ (mem_of_mapGet hr)) _ (hdraws i))

theorem allInRange_run {db : PetShopDB} (h : ∀ e ∈ db.pets, e.2.InRange) (op : Op)
    (hop : op.IsLifecycle) : ∀ e ∈ (op.run db).2.pets, e.2.InRange := by
  cases op with
  | createPet petData createdAt updatedAt =>
    intro e he
    rcases mem_mapSet (show e ∈ mapSet db.pets db.nextId _ from he) with h1 | h1
    · exact h e h1
    · rw [h1]
      refine ⟨?_, ?_, ?_, ?_⟩ <;> norm_num
  | feedPet id clk =>
    show ∀ e ∈ (feedPet db id clk).pets, e.2.InRange
    unfold feedPet
    cases hr : db.readPet id with
    | none => exact h
    | some petData => exact allInRange_feed h _ (h _ (mem_of_mapGet hr)) _
  | playWithPet id clk =>
    show ∀ e ∈ (playWithPet db id clk).pets, e.2.InRange
    unfold playWithPet
    cases hr : db.readPet id with
    | none => exact h
    | some petData => exact allInRange_play h _ (h _ (mem_of_mapGet hr)) _
  | sellPet id clk =>
    show ∀ e ∈ (sellPet db id clk).pets, e.2.InRange
    unfold sellPet
    cases db.readPet id with
    | none => exact h
    | some petData => exact allInRange_sell h _ _
  | simulateTimePassage draws =>
    show ∀ e ∈ (simulateTimePassage db draws).pets, e.2.InRange
    exact allInRange_simulateLoop _ _ hop _ _ h
  | deletePet id =>
    show ∀ e ∈ (db.deletePet id).2.pets, e.2.InRange
    unfold PetShopDB.deletePet
    split
    · intro e he
      exact h e (mem_mapDelete he)
    · exact h
  | removePet id =>
    show ∀ e ∈ (deletePet db id).pets, e.2.InRange
    unfold deletePet Pet.delete PetShopDB.deletePet
    cases db.readPet id with
    | none => exact h
    | some petData =>
      simp only
      split
      · intro e he
        exact h e (mem_mapDelete he)
      · exact h
  | readPet _ => exact hop.elim
  | updatePet _ _ _ => exact hop.elim
  | recordTransaction _ _ _ _ _ => exact hop.elim
  | saveToStorage => exact hop.elim
  | loadFromStorage => exact hop.elim

theorem allInRange_runOps (ops : List Op) :
    ∀ db : PetShopDB, (∀ e ∈ db.pets, e.2.InRange) → (∀ op ∈ ops, op.IsLifecycle) →
      ∀ e ∈ (runOps db ops).pets, e.2.InRange := by
  induction ops with
  | nil => intro db h _; exact h
  | cons op rest ih =>
    intro db h hops
    exact ih _ (allInRange_run h op (hops op (List.mem_cons_self _ _)))
      (fun o ho => hops o (List.mem_cons_of_mem _ ho))

/-- C18: in every store reached from the empty store by any sequence of `createPet`, `feedPet`,
`playWithPet`, `sellPet`, the periodic `simulateTimePassage` (every `Math.random()` result in
[0,1), so decay in [0,5) and increase in [0,3)) and deletion, every stored record, whether read
by key or listed by `getAllPets`, has happiness in [0,100] and hunger in [0,100]. -/
theorem clamp_invariant (ops : List Op) (hops : ∀ op ∈ ops, op.IsLifecycle) :
    (∀ key r, (runOps PetShopDB.empty ops).readPet key = some r →
      0 ≤ r.happiness ∧ r.happiness ≤ 100 ∧ 0 ≤ r.hunger ∧ r.hunger ≤ 100) ∧
    (∀ r ∈ (runOps PetShopDB.empty ops).getAllPets,
      0 ≤ r.happiness ∧ r.happiness ≤ 100 ∧ 0 ≤ r.hunger ∧ r.hunger ≤ 100) := by
  have h := allInRange_runOps ops PetShopDB.empty (by simp [PetShopDB.empty]) hops
  refine ⟨fun key r hr => h _ (mem_of_mapGet hr), ?_⟩
  intro r hr
  obtain ⟨e, he, rfl⟩ := List.mem_map.mp hr
  exact h e he

theorem lifecycleOps_isLifecycle : ∀ op ∈ lifecycleOps, op.IsLifecycle := by
  intro op hop
  simp only [lifecycleOps, List.mem_cons, List.mem_singleton, List.not_mem_nil, or_false] at hop
  rcases hop with rfl | rfl | rfl | rfl | rfl | rfl
  · trivial
  · trivial
  · trivial
  · trivial
  · intro i
    refine ⟨?_, ?_, ?_, ?_⟩ <;> norm_num [halfDraw]
  · trivial

theorem lifecycleOps_readPet :
    (runOps PetShopDB.empty lifecycleOps).readPet 1 =
      some { rex with happiness := 195 / 2, hunger := 83 / 2, updatedAt := 0 } := by
  simp [lifecycleOps, runOps, Op.run, playWithPet, Pet.play, simulateTimePassage, simulateLoop,
    Pet.simulateTimePassage, PetShopDB.createPet, PetShopDB.readPet, PetShopDB.updatePet,
    PetShopDB.deletePet, PetShopDB.recordTransaction, PetShopDB.saveToStorage, PetShopDB.empty,
    PetUpdates.assignTo, mapGet, mapSet, mapDelete, halfDraw, clockAt, rex]
  norm_num

/-- C18 at a concrete sequence: after `lifecycleOps` Rex is stored with happiness 97.5 and
hunger 41.5, and the invariant gives the bounds for it. -/
theorem clamp_invariant_witness :
    (runOps PetShopDB.empty lifecycleOps).readPet 1 =
      some { rex with happiness := 195 / 2, hunger := 83 / 2, updatedAt := 0 } ∧
    (0 : ℚ) ≤ 195 / 2 ∧ (195 / 2 : ℚ) ≤ 100 ∧ (0 : ℚ) ≤ 83 / 2 ∧ (83 / 2 : ℚ) ≤ 100 :=
  ⟨lifecycleOps_readPet,
   (clamp_invariant lifecycleOps lifecycleOps_isLifecycle).1 1 _ lifecycleOps_readPet⟩

/-! ## Validation -/

theorem jsTrim_rex : jsTrim "Rex" = "Rex" := by decide

theorem jsTrim_eq_empty_iff (name : String) :
    (name = "" ∨ (jsTrim name).length = 0) ↔ jsTrim name = "" := by
  constructor
  · rintro (h | h)
    · subst h
      decide
    · exact String.ext (List.eq_nil_of_length_eq_zero h)
  · intro h
    right
    rw [h]
    rfl

theorem validatePetData_isValid_iff (petData : PetData) :
    (PetUtils.validatePetData petData).isValid = true ↔
      jsTrim petData.name ≠ "" ∧ petData.type ≠ "" ∧ 0 < petData.age ∧ petData.age ≤ 20 ∧
        0 < petData.price := by
  have hn := jsTrim_eq_empty_iff petData.name
  have ha : (petData.age = 0 ∨ petData.age < 0 ∨ petData.age > 20) ↔
      ¬ (0 < petData.age ∧ petData.age ≤ 20) := by
    constructor
    · rintro (h | h | h) ⟨h1, h2⟩ <;> linarith
    · intro h
      by_cases h0 : petData.age = 0
      · exact Or.inl h0
      · by_cases h1 : petData.age < 0
        · exact Or.inr (Or.inl h1)
        · right; right
          have hpos : 0 < petData.age := lt_of_le_of_ne (not_lt.mp h1) (Ne.symm h0)
          by_contra h2
          exact h ⟨hpos, not_lt.mp h2⟩
  have hp : (petData.price = 0 ∨ petData.price < 0) ↔ ¬ 0 < petData.price := by
    constructor
    · rintro (h | h) h1 <;> linarith
    · intro h
      rcases lt_trichotomy petData.price 0 with h1 | h1 | h1
      · exact Or.inr h1
      · exact Or.inl h1
      · exact absurd h1 h
  unfold PetUtils.validatePetData
  by_cases c1 : petData.name = "" ∨ (jsTrim petData.name).length = 0 <;>
  by_cases c2 : petData.type = "" <;>
  by_cases c3 : petData.age = 0 ∨ petData.age < 0 ∨ petData.age > 20 <;>
  by_cases c4 : petData.price = 0 ∨ petData.price < 0 <;>
  have d1 := c1 <;> have d3 := c3 <;> have d4 := c4 <;>
  rw [hn] at d1 <;> rw [ha] at d3 <;> rw [hp] at d4 <;>
  simp only [if_pos, if_neg, c1, c2, c3, c4, not_false_eq_true] <;>
  simp_all

theorem ite_append_singleton (c : Prop) [Decidable c] (prev : List String) (m : String) :
    (if c then prev ++ [m] else prev) = prev ++ (if c then [m] else []) := by
  split <;> simp

theorem ite_singleton_of_iff_not {P Q : Prop} [Decidable P] [Decidable Q] (h : P ↔ ¬ Q)
    (m : String) : (if P then [m] else []) = (if Q then [] else [m]) := by
  by_cases hq : Q
  · rw [if_pos hq, if_neg (fun hP => (h.mp hP) hq)]
  · rw [if_neg hq, if_pos (h.mpr hq)]

theorem validatePetData_errors (petData : PetData) :
    (PetUtils.validatePetData petData).errors =
      (if jsTrim petData.name = "" then ["Pet name is required"] else []) ++
      (if petData.type = "" then ["Pet type is required"] else []) ++
      (if 0 < petData.age ∧ petData.age ≤ 20 then []
        else ["Pet age must be between 0 and 20 years"]) ++
      (if 0 < petData.price then [] else ["Pet price must be a positive number"]) ∧
    ((PetUtils.validatePetData petData).isValid = true ↔
      (PetUtils.validatePetData petData).errors = []) := by
  have hn := jsTrim_eq_empty_iff petData.name
  have ha : (petData.age = 0 ∨ petData.age < 0 ∨ petData.age > 20) ↔
      ¬ (0 < petData.age ∧ petData.age ≤ 20) := by
    constructor
    · rintro (h | h | h) ⟨h1, h2⟩ <;> linarith
    · intro h
      by_cases h0 : petData.age = 0
      · exact Or.inl h0
      · by_cases h1 : petData.age < 0
        · exact Or.inr (Or.inl h1)
        · right; right
          have hpos : 0 < petData.age := lt_of_le_of_ne (not_lt.mp h1) (Ne.symm h0)
          by_contra h2
          exact h ⟨hpos, not_lt.mp h2⟩
  have hp : (petData.price = 0 ∨ petData.price < 0) ↔ ¬ 0 < petData.price := by
    constructor
    · rintro (h | h) h1 <;> linarith
    · intro h
      rcases lt_trichotomy petData.price 0 with h1 | h1 | h1
      · exact Or.inr h1
      · exact Or.inl h1
      · exact absurd h1 h
  refine ⟨?_, ?_⟩
  · show (if petData.price = 0 ∨ petData.price < 0 then
        (if petData.age = 0 ∨ petData.age < 0 ∨ petData.age > 20 then
          (if petData.type = "" then
            (if petData.name = "" ∨ (jsTrim petData.name).length = 0 then
              [] ++ ["Pet name is required"] else []) ++ ["Pet type is required"]
            else (if petData.name = "" ∨ (jsTrim petData.name).length = 0 then
              [] ++ ["Pet name is required"] else [])) ++
            ["Pet age must be between 0 and 20 years"]
          else (if petData.type = "" then
            (if petData.name = "" ∨ (jsTrim petData.name).length = 0 then
              [] ++ ["Pet name is required"] else []) ++ ["Pet type is required"]
            else (if petData.name = "" ∨ (jsTrim petData.name).length = 0 then
              [] ++ ["Pet name is required"] else []))) ++
          ["Pet price must be a positive number"]
        else (if petData.age = 0 ∨ petData.age < 0 ∨ petData.age > 20 then
          (if petData.type = "" then
            (if petData.name = "" ∨ (jsTrim petData.name).length = 0 then
              [] ++ ["Pet name is required"] else []) ++ ["Pet type is required"]
            else (if petData.name = "" ∨ (jsTrim petData.name).length = 0 then
              [] ++ ["Pet name is required"] else [])) ++
            ["Pet age must be between 0 and 20 years"]
          else (if petData.type = "" then
            (if petData.name = "" ∨ (jsTrim petData.name).length = 0 then
              [] ++ ["Pet name is required"] else []) ++ ["Pet type is required"]
            else (if petData.name = "" ∨ (jsTrim petData.name).length = 0 then
              [] ++ ["Pet name is required"] else [])))) = _
    rw [ite_append_singleton, ite_append_singleton, ite_append_singleton, ite_append_singleton,
      if_congr hn rfl rfl, ite_singleton_of_iff_not ha, ite_singleton_of_iff_not hp,
      List.nil_append]
  · show ((PetUtils.validatePetData petData).errors.length == 0) = true ↔ _
    rw [beq_iff_eq, List.length_eq_zero]

/-- C17 on the code: `validatePetData({name: "Rex", type: "Dog", age: 0, price: 200})` returns
`isValid = false` with the one message "Pet age must be between 0 and 20 years", although age 0
lies in [0,20]; age 20 is accepted. For every input `isValid` is true exactly when the name is
non-empty after trimming, the type is present, 0 < age <= 20 and price > 0. -/
theorem validatePetData_rejects_age_zero :
    PetUtils.validatePetData { name := "Rex", type := "Dog", age := 0, price := 200 } =
      { isValid := false, errors := ["Pet age must be between 0 and 20 years"] } ∧
    PetUtils.validatePetData { name := "Rex", type := "Dog", age := 20, price := 200 } =
      { isValid := true, errors := [] } ∧
    (∀ petData : PetData, (PetUtils.validatePetData petData).isValid = true ↔
      jsTrim petData.name ≠ "" ∧ petData.type ≠ "" ∧ 0 < petData.age ∧ petData.age ≤ 20 ∧
        0 < petData.price) := by
  have h1 : ¬ (jsTrim "Rex" = "") := by decide
  have h2 : ¬ (("Dog" : String) = "") := by decide
  have shape : ∀ petData : PetData, PetUtils.validatePetData petData =
      { isValid := (PetUtils.validatePetData petData).errors.length == 0,
        errors := (PetUtils.validatePetData petData).errors } := fun _ => rfl
  refine ⟨?_, ?_, validatePetData_isValid_iff⟩
  · have he : (PetUtils.validatePetData
        { name := "Rex", type := "Dog", age := 0, price := 200 }).errors =
        ["Pet age must be between 0 and 20 years"] := by
      rw [(validatePetData_errors _).1]
      norm_num [h1, h2]
    rw [shape, he]
    rfl
  · have he : (PetUtils.validatePetData
        { name := "Rex", type := "Dog", age := 20, price := 200 }).errors = [] := by
      rw [(validatePetData_errors _).1]
      norm_num [h1, h2]
    rw [shape, he]
    rfl

/-! ## Import and export -/

theorem entryOfItem_isSome (item : Json) : (entryOfItem item).isSome = isEntryObject item := by
  cases item <;> rfl

theorem addEntries_isSome (items : List Json) :
    ∀ m, (addEntries items m).isSome = items.all isEntryObject := by
  induction items with
  | nil => intro m; rfl
  | cons item rest ih =>
    intro m
    unfold addEntries
    cases h : entryOfItem item with
    | none =>
      have h1 := entryOfItem_isSome item
      rw [h] at h1
      simp [← h1]
    | some e =>
      have h1 := entryOfItem_isSome item
      rw [h] at h1
      obtain ⟨key, value⟩ := e
      simp [ih, ← h1]

theorem newMap_isSome (iterable : Option Json) :
    (newMap iterable).isSome = isEntrySequence iterable := by
  cases iterable with
  | none => rfl
  | some v =>
    cases v with
    | null => rfl
    | bool b => rfl
    | num q => rfl
    | str s =>
      by_cases h : s = "" <;> simp [newMap, isEntrySequence, h]
    | arr items => exact addEntries_isSome items []
    | obj props => rfl

theorem getProperty_ok_of_ok {data : Json} {name : String} {v : Option Json}
    (h : getProperty data name = .ok v) (other : String) :
    ∃ w, getProperty data other = .ok w := by
  cases data with
  | null => simp [getProperty] at h
  | bool b => exact ⟨none, rfl⟩
  | num q => exact ⟨none, rfl⟩
  | str s => exact ⟨none, rfl⟩
  | arr items => exact ⟨none, rfl⟩
  | obj props => exact ⟨_, rfl⟩

/-- The result of `importData` by the three places at which the `try` block can throw. -/
theorem importData_cases (json : JSONBuiltin) (db : RawDB) (jsonData : String) :
    (RawDB.importData json db jsonData = (false, db) ∧
      (json.parse jsonData = none ∨
        (∃ data, json.parse jsonData = some data ∧ getProperty data "pets" = .error ()) ∨
        (∃ data petsValue, json.parse jsonData = some data ∧
          getProperty data "pets" = .ok petsValue ∧ newMap petsValue = none))) ∨
    (∃ data petsValue pets transactionsValue nextIdValue,
      json.parse jsonData = some data ∧ getProperty data "pets" = .ok petsValue ∧
      newMap petsValue = some pets ∧
      getProperty data "transactions" = .ok transactionsValue ∧
      getProperty data "nextId" = .ok nextIdValue ∧
      RawDB.importData json db jsonData =
        (true, RawDB.saveToStorage
          { db with pets := pets, transactions := jsOr transactionsValue (.arr []),
                    nextId := jsOr nextIdValue (.num 1) })) := by
  cases hparse : json.parse jsonData with
  | none =>
    exact Or.inl ⟨by simp [RawDB.importData, RawDB.importTry, hparse], Or.inl rfl⟩
  | some data =>
    cases hpets : getProperty data "pets" with
    | error u =>
      exact Or.inl ⟨by simp [RawDB.importData, RawDB.importTry, hparse, hpets],
        Or.inr (Or.inl ⟨data, rfl, hpets⟩)⟩
    | ok petsValue =>
      cases hmap : newMap petsValue with
      | none =>
        exact Or.inl ⟨by simp [RawDB.importData, RawDB.importTry, hparse, hpets, hmap],
          Or.inr (Or.inr ⟨data, petsValue, rfl, hpets, hmap⟩)⟩
      | some pets =>
        obtain ⟨tv, htv⟩ := getProperty_ok_of_ok hpets "transactions"
        obtain ⟨nv, hnv⟩ := getProperty_ok_of_ok hpets "nextId"
        refine Or.inr ⟨data, petsValue, pets, tv, nv, rfl, hpets, hmap, htv, hnv, ?_⟩
        simp [RawDB.importData, RawDB.importTry, hparse, hpets, hmap, htv, hnv]

theorem getProperty_error_iff (data : Json) (name : String) :
    getProperty data name = .error () ↔ data = .null := by
  cases data <;> simp [getProperty]

/-- C14: for every store (with whatever contents) and every input text, when `importData`
returns false the store is exactly what it was before the call: the map, the ledger, the
counter and the persisted snapshot. -/
theorem importData_false_leaves_store (json : JSONBuiltin) (db : RawDB) (jsonData : String)
    (hfalse : (RawDB.importData json db jsonData).1 = false) :
    (RawDB.importData json db jsonData).2 = db ∧
    (RawDB.importData json db jsonData).2.pets = db.pets ∧
    (RawDB.importData json db jsonData).2.transactions = db.transactions ∧
    (RawDB.importData json db jsonData).2.nextId = db.nextId := by
  have e : (RawDB.importData json db jsonData).2 = db := by
    rcases importData_cases json db jsonData with ⟨h1, _⟩ | ⟨_, _, _, _, _, _, _, _, _, _, h1⟩
    · rw [h1]
    · rw [h1] at hfalse
      exact absurd hfalse (by simp)
  rw [e]
  exact ⟨rfl, rfl, rfl, rfl⟩

/-- C14 at the scenario: the text `null` is valid JSON, reading `data.pets` throws, `importData`
returns false, and the store holding Rex is as it was. -/
theorem importData_false_leaves_store_witness :
    (RawDB.importData (tableJSON [("null", Json.null)] "") rexStore.toRaw "null").1 = false ∧
    (RawDB.importData (tableJSON [("null", Json.null)] "") rexStore.toRaw "null").2 =
      rexStore.toRaw :=
  ⟨rfl, (importData_false_leaves_store (tableJSON [("null", Json.null)] "") rexStore.toRaw
    "null" rfl).1⟩

/-- C13, as stated, fails: the text `{}` is valid JSON with no `pets` field, and `importData`
on the store holding Rex returns true and replaces the store by an empty one with counter 1. -/
theorem importData_accepts_empty_object_counterexample :
    (tableJSON [("\x7b\x7d", Json.obj [])] "").parse "\x7b\x7d" = some (Json.obj []) ∧
    (RawDB.importData (tableJSON [("\x7b\x7d", Json.obj [])] "") rexStore.toRaw "\x7b\x7d").1 =
      true ∧
    (RawDB.importData (tableJSON [("\x7b\x7d", Json.obj [])] "") rexStore.toRaw
      "\x7b\x7d").2.pets = [] ∧
    (RawDB.importData (tableJSON [("\x7b\x7d", Json.obj [])] "") rexStore.toRaw
      "\x7b\x7d").2.transactions = Json.arr [] ∧
    (RawDB.importData (tableJSON [("\x7b\x7d", Json.obj [])] "") rexStore.toRaw
      "\x7b\x7d").2.nextId = Json.num 1 :=
  ⟨rfl, rfl, rfl, rfl, rfl⟩

/-- C13, amended: `importData` returns false exactly when the text is not valid JSON, or
parses to `null`, or parses to a value whose `pets` property is not accepted by `new Map`:
it is neither absent, nor `null`, nor the empty string, nor an array whose items are all arrays
or objects. Every other valid JSON text is accepted; an object with no `pets` field gives an
empty map, a missing or falsy `transactions` gives an empty ledger and a missing or falsy
`nextId` gives the counter 1. -/
theorem importData_false_iff (json : JSONBuiltin) (db : RawDB) (jsonData : String) :
    ((RawDB.importData json db jsonData).1 = false ↔
      (json.parse jsonData = none ∨ json.parse jsonData = some Json.null ∨
        ∃ data petsValue, json.parse jsonData = some data ∧
          getProperty data "pets" = .ok petsValue ∧ isEntrySequence petsValue = false)) ∧
    (∀ props, json.parse jsonData = some (Json.obj props) → props.lookup "pets" = none →
      (RawDB.importData json db jsonData).1 = true ∧
      (RawDB.importData json db jsonData).2.pets = [] ∧
      (RawDB.importData json db jsonData).2.transactions =
        jsOr (props.lookup "transactions") (Json.arr []) ∧
      (RawDB.importData json db jsonData).2.nextId =
        jsOr (props.lookup "nextId") (Json.num 1)) := by
  refine ⟨?_, ?_⟩
  · rcases importData_cases json db jsonData with
      ⟨h1, h2⟩ | ⟨data, petsValue, pets, _, _, hparse, hpets, hmap, _, _, h1⟩
    · rw [h1]
      refine ⟨fun _ => ?_, fun _ => rfl⟩
      rcases h2 with h | ⟨data, hparse, hpets⟩ | ⟨data, petsValue, hparse, hpets, hmap⟩
      · exact Or.inl h
      · rw [getProperty_error_iff] at hpets
        rw [hpets] at hparse
        exact Or.inr (Or.inl hparse)
      · refine Or.inr (Or.inr ⟨data, petsValue, hparse, hpets, ?_⟩)
        rw [← newMap_isSome, hmap]
        rfl
    · rw [h1]
      refine ⟨fun h => absurd h (by simp), ?_⟩
      rintro (h | h | ⟨data1, petsValue1, hparse1, hpets1, hseq⟩)
      · rw [h] at hparse
        exact absurd hparse (by simp)
      · rw [h] at hparse
        injection hparse with hd
        rw [← hd] at hpets
        simp [getProperty] at hpets
      · rw [hparse1] at hparse
        injection hparse with hd
        rw [hd] at hpets1
        rw [hpets1] at hpets
        injection hpets with hv
        rw [hv, ← newMap_isSome, hmap] at hseq
        simp at hseq
  · intro props hparse hnone
    simp [RawDB.importData, RawDB.importTry, hparse, getProperty, hnone, newMap,
      RawDB.saveToStorage]

/-! ## Export followed by import -/

theorem rawMapSet_of_fresh (m : List (Option Json × Option Json)) (key value : Option Json)
    (h : ∀ a ∈ m, sameValueZero a.1 key = false) : rawMapSet m key value = m ++ [(key, value)] := by
  induction m with
  | nil => rfl
  | cons e rest ih =>
    obtain ⟨k, v⟩ := e
    have hk : sameValueZero k key = false := h (k, v) (List.mem_cons_self _ _)
    simp only [rawMapSet, hk, Bool.false_eq_true, if_false, List.cons_append]
    rw [ih (fun a ha => h a (List.mem_cons_of_mem _ ha))]

theorem addEntries_exported (es : List (Option Json × Option Json))
    (hdef : ∀ e ∈ es, e.1 ≠ none ∧ e.2 ≠ none)
    (hkeys : es.Pairwise (fun a b => sameValueZero a.1 b.1 = false)) :
    ∀ acc : List (Option Json × Option Json),
      (∀ a ∈ acc, ∀ e ∈ es, sameValueZero a.1 e.1 = false) →
      addEntries (es.map (fun e => Json.arr [e.1.getD Json.null, e.2.getD Json.null])) acc =
        some (acc ++ es) := by
  induction es with
  | nil => intro acc _; simp [addEntries]
  | cons e rest ih =>
    intro acc hacc
    obtain ⟨k, v⟩ := e
    obtain ⟨hk, hv⟩ := hdef (k, v) (List.mem_cons_self _ _)
    obtain ⟨kv, rfl⟩ := Option.ne_none_iff_exists'.mp hk
    obtain ⟨vv, rfl⟩ := Option.ne_none_iff_exists'.mp hv
    rw [List.pairwise_cons] at hkeys
    have hfresh : rawMapSet acc (some kv) (some vv) = acc ++ [(some kv, some vv)] :=
      rawMapSet_of_fresh acc _ _ (fun a ha => hacc a ha _ (List.mem_cons_self _ _))
    have hnext : ∀ a ∈ acc ++ [(some kv, some vv)], ∀ e ∈ rest,
        sameValueZero a.1 e.1 = false := by
      intro a ha e he
      rcases List.mem_append.mp ha with h1 | h1
      · exact hacc a h1 e (List.mem_cons_of_mem _ he)
      · rw [List.mem_singleton] at h1
        rw [h1]
        exact hkeys.1 e he
    have hrec := ih (fun e he => hdef e (List.mem_cons_of_mem _ he)) hkeys.2 _ hnext
    simp only [List.map_cons, addEntries, entryOfItem, Option.getD_some, List.getElem?_cons_zero,
      List.getElem?_cons_succ, hfresh]
    rw [hrec]
    simp

theorem rawPets_defined (pets : List (Nat × Pet)) :
    ∀ e ∈ rawPets pets, e.1 ≠ none ∧ e.2 ≠ none := by
  intro e he
  obtain ⟨p, _, rfl⟩ := List.mem_map.mp he
  exact ⟨by simp, by simp⟩

theorem rawPets_pairwise (pets : List (Nat × Pet)) (hkeys : (pets.map Prod.fst).Nodup) :
    (rawPets pets).Pairwise (fun a b => sameValueZero a.1 b.1 = false) := by
  unfold rawPets
  rw [List.pairwise_map]
  rw [List.Nodup, List.pairwise_map] at hkeys
  refine hkeys.imp ?_
  intro a b hab
  simp [sameValueZero, hab]

/-- Export followed by import on a store whose map holds no `undefined` key or value and whose
ledger and counter are truthy. -/
theorem importData_exportData_raw (json : JSONBuiltin) (s before : RawDB) (exportDate : Nat)
    (hjson : json.parse (s.exportData json exportDate) = some (s.exportValue exportDate))
    (hdef : ∀ e ∈ s.pets, e.1 ≠ none ∧ e.2 ≠ none)
    (hkeys : s.pets.Pairwise (fun a b => sameValueZero a.1 b.1 = false))
    (hledger : toBoolean (some s.transactions) = true)
    (hcounter : toBoolean (some s.nextId) = true) :
    RawDB.importData json before (s.exportData json exportDate) =
      (true, RawDB.saveToStorage
        { before with pets := s.pets, transactions := s.transactions, nextId := s.nextId }) := by
  have hmap : newMap (some (Json.arr
      (s.pets.map (fun e => Json.arr [e.1.getD Json.null, e.2.getD Json.null])))) =
      some s.pets := by
    have h := addEntries_exported s.pets hdef hkeys [] (fun a ha => absurd ha (List.not_mem_nil a))
    simpa [newMap] using h
  have h1 : getProperty (s.exportValue exportDate) "pets" =
      .ok (some (Json.arr
        (s.pets.map (fun e => Json.arr [e.1.getD Json.null, e.2.getD Json.null])))) := rfl
  have h2 : getProperty (s.exportValue exportDate) "transactions" =
      .ok (some s.transactions) := rfl
  have h3 : getProperty (s.exportValue exportDate) "nextId" = .ok (some s.nextId) := rfl
  have h4 : jsOr (some s.transactions) (Json.arr []) = s.transactions := by
    simp [jsOr, hledger]
  have h5 : jsOr (some s.nextId) (Json.num 1) = s.nextId := by
    simp [jsOr, hcounter]
  simp only [RawDB.importData, RawDB.importTry, hjson, h1, h2, h3, hmap, h4, h5]

/-- Export followed by import on a `PetShopDB` state with a non-zero counter: the importing
store ends with the map, the ledger and the counter of the exported one. -/
theorem importData_exportData_typed (json : JSONBuiltin) (s : PetShopDB) (before : RawDB)
    (exportDate : Nat)
    (hjson : json.parse (s.exportData json exportDate) = some (s.toRaw.exportValue exportDate))
    (hkeys : (s.pets.map Prod.fst).Nodup) (hcounter : s.nextId ≠ 0) :
    RawDB.importData json before (s.exportData json exportDate) =
      (true, RawDB.saveToStorage
        { before with pets := rawPets s.pets, transactions := rawTransactions s.transactions,
                      nextId := Json.num s.nextId }) :=
  importData_exportData_raw json s.toRaw before exportDate hjson (rawPets_defined s.pets)
    (rawPets_pairwise s.pets hkeys) rfl (by simp [PetShopDB.toRaw, toBoolean, hcounter])

/-- After export and import the importing store is the exported `PetShopDB` state, saved. -/
theorem importData_exportData_toRaw (json : JSONBuiltin) (s : PetShopDB) (before : RawDB)
    (exportDate : Nat)
    (hjson : json.parse (s.exportData json exportDate) = some (s.toRaw.exportValue exportDate))
    (hkeys : (s.pets.map Prod.fst).Nodup) (hcounter : s.nextId ≠ 0) :
    RawDB.importData json before (s.exportData json exportDate) =
      (true, (PetShopDB.saveToStorage s).toRaw) := by
  rw [importData_exportData_typed json s before exportDate hjson hkeys hcounter]
  rfl

/-- C12, as stated, fails: after `importData('{"pets":[[]]}')` on the fresh store (which
returns true) the map holds the one entry `undefined -> undefined`; `exportData` writes it as
`[null,null]`, and importing that text gives the entry `null -> null`, a different pair. -/
theorem roundtrip_undefined_entry_counterexample :
    (RawDB.importData scenarioJSON rawEmpty "\x7b\"pets\":[[]]\x7d").1 = true ∧
    undefinedEntryStore.pets = [(none, none)] ∧
    scenarioJSON.parse (undefinedEntryStore.exportData scenarioJSON 0) =
      some (undefinedEntryStore.exportValue 0) ∧
    (RawDB.importData scenarioJSON rawEmpty
      (undefinedEntryStore.exportData scenarioJSON 0)).1 = true ∧
    (RawDB.importData scenarioJSON rawEmpty
      (undefinedEntryStore.exportData scenarioJSON 0)).2.pets =
      [(some Json.null, some Json.null)] ∧
    (RawDB.importData scenarioJSON rawEmpty
      (undefinedEntryStore.exportData scenarioJSON 0)).2.pets ≠ undefinedEntryStore.pets := by
  refine ⟨rfl, rfl, rfl, rfl, rfl, ?_⟩
  show [(some Json.null, some Json.null)] ≠ [((none : Option Json), (none : Option Json))]
  simp

/-- C12, amended: for every store state `s` whose map holds no `undefined` key or value (its
keys pairwise distinct, as in every `Map`) and whose ledger and counter are truthy values,
whatever state `before` the importing store is in, and with `JSON.parse` reading back the value
`JSON.stringify` wrote: `importData` applied to `exportData(s)` returns true and leaves the
importing store with the map of `s` (same pairs, same order), the ledger of `s` and the counter
of `s`. -/
theorem exportData_importData_roundtrip (json : JSONBuiltin) (s before : RawDB)
    (exportDate : Nat)
    (hjson : json.parse (s.exportData json exportDate) = some (s.exportValue exportDate))
    (hdef : ∀ e ∈ s.pets, e.1 ≠ none ∧ e.2 ≠ none)
    (hkeys : s.pets.Pairwise (fun a b => sameValueZero a.1 b.1 = false))
    (hledger : toBoolean (some s.transactions) = true)
    (hcounter : toBoolean (some s.nextId) = true) :
    (RawDB.importData json before (s.exportData json exportDate)).1 = true ∧
    (RawDB.importData json before (s.exportData json exportDate)).2.pets = s.pets ∧
    (RawDB.importData json before (s.exportData json exportDate)).2.transactions =
      s.transactions ∧
    (RawDB.importData json before (s.exportData json exportDate)).2.nextId = s.nextId := by
  rw [importData_exportData_raw json s before exportDate hjson hdef hkeys hledger hcounter]
  exact ⟨rfl, rfl, rfl, rfl⟩

/-- C12 amended, at the scenario: the store holding Rex is exported and imported into the store
in which Rex was sold; the importing store ends with the map, ledger and counter of the
exported one. -/
theorem exportData_importData_roundtrip_witness :
    (RawDB.importData rexJSON rexSoldStore.toRaw (rexStore.exportData rexJSON 9000)).1 = true ∧
    (RawDB.importData rexJSON rexSoldStore.toRaw (rexStore.exportData rexJSON 9000)).2.pets =
      rawPets rexStore.pets ∧
    (RawDB.importData rexJSON rexSoldStore.toRaw
      (rexStore.exportData rexJSON 9000)).2.transactions = rawTransactions rexStore.transactions ∧
    (RawDB.importData rexJSON rexSoldStore.toRaw (rexStore.exportData rexJSON 9000)).2.nextId =
      Json.num rexStore.nextId :=
  exportData_importData_roundtrip rexJSON rexStore.toRaw rexSoldStore.toRaw 9000 rfl
    (rawPets_defined rexStore.pets) (rawPets_pairwise rexStore.pets (by decide)) rfl
    (by simp [PetShopDB.toRaw, toBoolean, rexStore, PetShopDB.createPet, PetShopDB.saveToStorage,
      PetShopDB.empty])

/-! ## Listing the records -/

/-- C24: for every store, `getAvailablePets` is `getAllPets` filtered to `isSold = false` and
`getSoldPets` is `getAllPets` filtered to `isSold = true`; no record is in both, the two lists
together are a rearrangement of `getAllPets` (every stored record exactly once), and their
lengths sum to the record count. -/
theorem available_and_sold_partition (db : PetShopDB) :
    db.getAvailablePets = db.getAllPets.filter (fun pet => !pet.isSold) ∧
    db.getSoldPets = db.getAllPets.filter (fun pet => pet.isSold) ∧
    (∀ r, r ∈ db.getAvailablePets ↔ r ∈ db.getAllPets ∧ r.isSold = false) ∧
    (∀ r, r ∈ db.getSoldPets ↔ r ∈ db.getAllPets ∧ r.isSold = true) ∧
    (∀ r, r ∈ db.getAvailablePets → r ∉ db.getSoldPets) ∧
    (db.getAvailablePets ++ db.getSoldPets).Perm db.getAllPets ∧
    db.getAvailablePets.length + db.getSoldPets.length = db.getAllPets.length := by
  have hsa : (db.getSoldPets ++ db.getAvailablePets).Perm db.getAllPets :=
    List.filter_append_perm (fun pet : Pet => pet.isSold) db.getAllPets
  have hperm : (db.getAvailablePets ++ db.getSoldPets).Perm db.getAllPets :=
    List.perm_append_comm.trans hsa
  refine ⟨rfl, rfl, ?_, ?_, ?_, hperm, ?_⟩
  · intro r
    simp [PetShopDB.getAvailablePets]
  · intro r
    simp [PetShopDB.getSoldPets]
  · intro r hr hs
    simp only [PetShopDB.getAvailablePets, List.mem_filter] at hr
    simp only [PetShopDB.getSoldPets, List.mem_filter] at hs
    simp [hs.2] at hr
  · rw [← List.length_append]
    exact hperm.length_eq

/-! ## Mood and hunger bands -/

/-- C27: `getMood` and `getHungerStatus` put every value into exactly one band, with the
boundary values in the upper mood band and the lower hunger band: each label is returned
exactly on its interval, and the intervals partition the numbers. -/
theorem mood_and_hunger_bands (this : Pet) :
    ((this.getMood = "Very Happy" ↔ 80 ≤ this.happiness) ∧
     (this.getMood = "Happy" ↔ 60 ≤ this.happiness ∧ this.happiness < 80) ∧
     (this.getMood = "Content" ↔ 40 ≤ this.happiness ∧ this.happiness < 60) ∧
     (this.getMood = "Sad" ↔ 20 ≤ this.happiness ∧ this.happiness < 40) ∧
     (this.getMood = "Very Sad" ↔ this.happiness < 20)) ∧
    ((this.getHungerStatus = "Well Fed" ↔ this.hunger ≤ 20) ∧
     (this.getHungerStatus = "Satisfied" ↔ 20 < this.hunger ∧ this.hunger ≤ 40) ∧
     (this.getHungerStatus = "Peckish" ↔ 40 < this.hunger ∧ this.hunger ≤ 60) ∧
     (this.getHungerStatus = "Hungry" ↔ 60 < this.hunger ∧ this.hunger ≤ 80) ∧
     (this.getHungerStatus = "Starving" ↔ 80 < this.hunger)) := by
  constructor
  · unfold Pet.getMood
    split_ifs with h1 h2 h3 h4
    · refine ⟨?_, ?_, ?_, ?_, ?_⟩ <;> simp <;> first | linarith | (intros; linarith)
    · refine ⟨?_, ?_, ?_, ?_, ?_⟩ <;> simp <;>
        first | linarith | (constructor <;> linarith) | (intros; linarith)
    · refine ⟨?_, ?_, ?_, ?_, ?_⟩ <;> simp <;>
        first | linarith | (constructor <;> linarith) | (intros; linarith)
    · refine ⟨?_, ?_, ?_, ?_, ?_⟩ <;> simp <;>
        first | linarith | (constructor <;> linarith) | (intros; linarith)
    · refine ⟨?_, ?_, ?_, ?_, ?_⟩ <;> simp <;> first | linarith | (intros; linarith)
  · unfold Pet.getHungerStatus
    split_ifs with h1 h2 h3 h4
    · refine ⟨?_, ?_, ?_, ?_, ?_⟩ <;> simp <;> first | linarith | (intros; linarith)
    · refine ⟨?_, ?_, ?_, ?_, ?_⟩ <;> simp <;>
        first | linarith | (constructor <;> linarith) | (intros; linarith)
    · refine ⟨?_, ?_, ?_, ?_, ?_⟩ <;> simp <;>
        first | linarith | (constructor <;> linarith) | (intros; linarith)
    · refine ⟨?_, ?_, ?_, ?_, ?_⟩ <;> simp <;>
        first | linarith | (constructor <;> linarith) | (intros; linarith)
    · refine ⟨?_, ?_, ?_, ?_, ?_⟩ <;> simp <;> first | linarith | (intros; linarith)

/-! ## Keys of the map -/

theorem mapGet_eq_none_iff (m : List (Nat × Pet)) (key : Nat) :
    mapGet m key = none ↔ key ∉ m.map Prod.fst := by
  induction m with
  | nil => simp [mapGet]
  | cons e rest ih =>
    obtain ⟨k, v⟩ := e
    by_cases hk : k = key
    · simp [mapGet, hk]
    · simp [mapGet, hk, ih, Ne.symm hk]

theorem keys_mapSet_of_mapGet {m : List (Nat × Pet)} {key : Nat} {old : Pet} (value : Pet)
    (h : mapGet m key = some old) :
    (mapSet m key value).map Prod.fst = m.map Prod.fst := by
  induction m with
  | nil => simp [mapGet] at h
  | cons e rest ih =>
    obtain ⟨k, v⟩ := e
    by_cases hk : k = key
    · simp [mapSet, hk]
    · simp only [mapGet, hk, if_false] at h
      simp [mapSet, hk, ih h]

theorem mapSet_of_mapGet_none {m : List (Nat × Pet)} {key : Nat} (value : Pet)
    (h : mapGet m key = none) : mapSet m key value = m ++ [(key, value)] := by
  induction m with
  | nil => rfl
  | cons e rest ih =>
    obtain ⟨k, v⟩ := e
    by_cases hk : k = key
    · simp [mapGet, hk] at h
    · simp only [mapGet, hk, if_false] at h
      simp [mapSet, hk, ih h]

theorem keys_mapDelete_sublist (m : List (Nat × Pet)) (key : Nat) :
    ((mapDelete m key).map Prod.fst).Sublist (m.map Prod.fst) := by
  induction m with
  | nil => simp [mapDelete]
  | cons e rest ih =>
    obtain ⟨k, v⟩ := e
    by_cases hk : k = key
    · simp [mapDelete, hk]
    · simp only [mapDelete, hk, if_false, List.map_cons]
      exact ih.cons₂ _

theorem mapGet_mapDelete_self (m : List (Nat × Pet)) (key : Nat)
    (hkeys : (m.map Prod.fst).Nodup) : mapGet (mapDelete m key) key = none := by
  induction m with
  | nil => rfl
  | cons e rest ih =>
    obtain ⟨k, v⟩ := e
    rw [List.map_cons, List.nodup_cons] at hkeys
    by_cases hk : k = key
    · subst hk
      simp only [mapDelete, if_true]
      exact (mapGet_eq_none_iff rest k).mpr hkeys.1
    · simp only [mapDelete, hk, if_false, mapGet]
      exact ih hkeys.2

theorem mapGet_mapDelete_of_ne (m : List (Nat × Pet)) (key other : Nat) (h : other ≠ key) :
    mapGet (mapDelete m key) other = mapGet m other := by
  induction m with
  | nil => rfl
  | cons e rest ih =>
    obtain ⟨k, v⟩ := e
    by_cases hk : k = key
    · subst hk
      simp [mapDelete, mapGet, Ne.symm h]
    · by_cases ho : k = other
      · subst ho
        simp [mapDelete, mapGet, hk]
      · simp [mapDelete, mapGet, hk, ho, ih]

/-! ## Clearing, deleting, and the ledger -/

/-- C22: for every store, after `clearAll` the store has no records, an empty ledger and
counter 1, so the next `createPet` returns id 1; `window.petShopData` is unset, so reloading the
cleared store with `loadFromStorage` leaves it empty with counter 1, and a store constructed
afterwards is empty with counter 1. -/
theorem clearAll_resets (db : PetShopDB) (petData : PetData) (createdAt updatedAt : Nat) :
    db.clearAll.pets = [] ∧ db.clearAll.getAllPets = [] ∧ db.clearAll.transactions = [] ∧
    db.clearAll.nextId = 1 ∧
    (db.clearAll.createPet petData createdAt updatedAt).1.id = 1 ∧
    db.clearAll.storage = none ∧
    db.clearAll.loadFromStorage = db.clearAll ∧
    db.clearAll.loadFromStorage.pets = [] ∧ db.clearAll.loadFromStorage.transactions = [] ∧
    db.clearAll.loadFromStorage.nextId = 1 ∧
    PetShopDB.new db.clearAll.storage = PetShopDB.empty ∧
    (PetShopDB.new db.clearAll.storage).pets = [] ∧
    (PetShopDB.new db.clearAll.storage).transactions = [] ∧
    (PetShopDB.new db.clearAll.storage).nextId = 1 :=
  ⟨rfl, rfl, rfl, rfl, rfl, rfl, rfl, rfl, rfl, rfl, rfl, rfl, rfl, rfl⟩

/-- C23: for every store (its keys distinct, as in every `Map`) and every id, `deletePet`
returns true exactly when a record is stored under the id, whatever its `isSold`; afterwards
`readPet(id)` is absent, every other record is as before, and the ledger and the counter are
as before; when it returns false the store is unchanged. `Pet.delete` is `deletePet` on the
record's id. -/
theorem deletePet_effect (db : PetShopDB) (id : Nat) (hkeys : db.KeysDistinct) :
    ((db.deletePet id).1 = true ↔ ∃ r, db.readPet id = some r) ∧
    (∀ r, db.readPet id = some r → (db.deletePet id).1 = true ∧
      (r.id = id → Pet.delete r db = db.deletePet id)) ∧
    (db.deletePet id).2.readPet id = none ∧
    (∀ other, other ≠ id → (db.deletePet id).2.readPet other = db.readPet other) ∧
    (db.deletePet id).2.transactions = db.transactions ∧
    (db.deletePet id).2.nextId = db.nextId ∧
    ((db.deletePet id).1 = false → (db.deletePet id).2 = db) := by
  cases hget : mapGet db.pets id with
  | none =>
    have e : db.deletePet id = (false, db) := by simp [PetShopDB.deletePet, hget]
    have hr : db.readPet id = none := hget
    rw [e, hr]
    exact ⟨by simp, by simp, rfl, fun _ _ => rfl, rfl, rfl, fun _ => rfl⟩
  | some r =>
    have e : db.deletePet id =
        (true, PetShopDB.saveToStorage { db with pets := mapDelete db.pets id }) := by
      simp [PetShopDB.deletePet, hget]
    have hr : db.readPet id = some r := hget
    rw [e, hr]
    refine ⟨by simp, ?_, ?_, ?_, rfl, rfl, by simp⟩
    · intro r1 _
      refine ⟨rfl, ?_⟩
      intro hid
      rw [Pet.delete, hid, e]
    · exact mapGet_mapDelete_self db.pets id hkeys
    · intro other hne
      exact mapGet_mapDelete_of_ne db.pets id other hne

/-- C23 at the scenario: in the store where Rex was sold, `deletePet(1)` returns true and
removes the sold record; `deletePet(7)` returns false. -/
theorem deletePet_effect_witness :
    (rexSoldStore.deletePet 1).1 = true ∧ (rexSoldStore.deletePet 1).2.readPet 1 = none ∧
    (rexSoldStore.deletePet 1).2.transactions = rexSoldStore.transactions ∧
    (rexSoldStore.deletePet 7).1 = false :=
  ⟨((deletePet_effect rexSoldStore 1 (by decide)).2.1 rexSold rexSoldStore_readPet).1,
   (deletePet_effect rexSoldStore 1 (by decide)).2.2.1,
   (deletePet_effect rexSoldStore 1 (by decide)).2.2.2.2.1,
   by
     have h := (deletePet_effect rexSoldStore 7 (by decide)).1
     cases hb : (rexSoldStore.deletePet 7).1 with
     | false => rfl
     | true =>
       obtain ⟨r, hr⟩ := h.mp hb
       have hn : rexSoldStore.readPet 7 = none := rfl
       rw [hn] at hr
       cases hr⟩

theorem feed_ledger (this : Pet) (db : PetShopDB) (clk : Clock) :
    ∃ added, (this.feed db clk).2.transactions = db.transactions ++ added := by
  cases hs : this.isSold with
  | true => exact ⟨[], by simp [Pet.feed, hs]⟩
  | false => exact ⟨_, feed_transactions db this clk hs⟩

theorem play_ledger (this : Pet) (db : PetShopDB) (clk : Clock) :
    ∃ added, (this.play db clk).2.transactions = db.transactions ++ added := by
  cases hs : this.isSold with
  | true => exact ⟨[], by simp [Pet.play, hs]⟩
  | false => exact ⟨_, play_transactions db this clk hs⟩

theorem sell_ledger (this : Pet) (db : PetShopDB) (clk : Clock) :
    ∃ added, (this.sell db clk).2.2.transactions = db.transactions ++ added := by
  cases hs : this.isSold with
  | true => exact ⟨[], by simp [Pet.sell, hs]⟩
  | false => exact ⟨_, sell_transactions db this clk hs⟩

theorem deletePet_transactions (db : PetShopDB) (id : Nat) :
    (db.deletePet id).2.transactions = db.transactions := by
  unfold PetShopDB.deletePet
  split <;> rfl

/-- C25: for every store and every call other than `clearAll`, `importData` and
`loadFromStorage` (`createPet`, `updatePet`, `deletePet`, `recordTransaction`, `feedPet`,
`playWithPet`, `sellPet`, the periodic `simulateTimePassage`, `readPet`, `saveToStorage`), the
ledger after the call is the ledger before it followed by the entries the call added: no
existing entry is changed, removed or reordered. Deleting a pet leaves the ledger exactly as it
was, entries of that pet included. -/
theorem ledger_append_only (db : PetShopDB) (op : Op) (hop : op.loadsStorage = false) :
    (∃ added, (op.run db).2.transactions = db.transactions ++ added) ∧
    (∀ id, (db.deletePet id).2.transactions = db.transactions) ∧
    (∀ id, (deletePet db id).transactions = db.transactions) := by
  have hremove : ∀ id, (deletePet db id).transactions = db.transactions := by
    intro id
    unfold deletePet
    cases db.readPet id with
    | none => rfl
    | some petData => exact deletePet_transactions db _
  refine ⟨?_, deletePet_transactions db, hremove⟩
  cases op with
  | createPet petData createdAt updatedAt => exact ⟨[], by simp [Op.run, PetShopDB.createPet]⟩
  | readPet id => exact ⟨[], by simp [Op.run]⟩
  | updatePet id updates now =>
    exact ⟨[], by simp [Op.run, PetShopDB.updatePet_transactions]⟩
  | deletePet id => exact ⟨[], by simp [Op.run, deletePet_transactions]⟩
  | recordTransaction petId type amount txId txTime =>
    exact ⟨_, PetShopDB.recordTransaction_transactions db petId type amount txId txTime⟩
  | saveToStorage => exact ⟨[], by simp [Op.run]⟩
  | loadFromStorage => simp [Op.loadsStorage] at hop
  | feedPet id clk =>
    show ∃ added, (feedPet db id clk).transactions = db.transactions ++ added
    unfold feedPet
    cases db.readPet id with
    | none => exact ⟨[], by simp⟩
    | some petData => exact feed_ledger _ _ _
  | playWithPet id clk =>
    show ∃ added, (playWithPet db id clk).transactions = db.transactions ++ added
    unfold playWithPet
    cases db.readPet id with
    | none => exact ⟨[], by simp⟩
    | some petData => exact play_ledger _ _ _
  | sellPet id clk =>
    show ∃ added, (sellPet db id clk).transactions = db.transactions ++ added
    unfold sellPet
    cases db.readPet id with
    | none => exact ⟨[], by simp⟩
    | some petData => exact sell_ledger _ _ _
  | removePet id => exact ⟨[], by simp [Op.run, hremove]⟩
  | simulateTimePassage draws =>
    exact ⟨[], by simp [Op.run, simulateTimePassage, simulateLoop_transactions]⟩

/-- C25 at the scenario: selling Rex appends the sale entry to the feed and play entries, and
deleting Rex afterwards leaves all three entries. -/
theorem ledger_append_only_witness :
    (∃ added, ((Op.sellPet 1 (clockAt 4000)).run rexPlayedStore).2.transactions =
      rexPlayedStore.transactions ++ added) ∧
    (rexSoldStore.deletePet 1).2.transactions = rexSoldStore.transactions :=
  ⟨(ledger_append_only rexPlayedStore (Op.sellPet 1 (clockAt 4000)) rfl).1,
   (ledger_append_only rexSoldStore (Op.readPet 1) rfl).2.1 1⟩

/-! ## Frame of the behaviour operations -/

theorem updatePet_keys (db : PetShopDB) (id : Nat) (u : PetUpdates) (now : Nat) :
    (db.updatePet id u now).2.pets.map Prod.fst = db.pets.map Prod.fst := by
  unfold PetShopDB.updatePet
  cases h : mapGet db.pets id with
  | none => rfl
  | some pet => exact keys_mapSet_of_mapGet _ h

theorem getAllPets_length_of_keys {db db1 : PetShopDB}
    (h : db1.pets.map Prod.fst = db.pets.map Prod.fst) :
    db1.getAllPets.length = db.getAllPets.length := by
  have h1 := congrArg List.length h
  simpa [PetShopDB.getAllPets] using h1

theorem framedAt_refl {db : PetShopDB} {i : Nat} {r : Pet} (hread : db.readPet i = some r) :
    FramedAt db db i r :=
  ⟨fun _ _ => rfl, rfl, rfl, r, hread, rfl, rfl, rfl, rfl, rfl, rfl⟩

theorem framedAt_updatePet {db : PetShopDB} {i : Nat} {r : Pet} (hread : db.readPet i = some r)
    (u : PetUpdates) (now : Nat) (hid : u.id = none) (hname : u.name = none)
    (htype : u.type = none) (hage : u.age = none) (hprice : u.price = none)
    (hcreated : u.createdAt = none) : FramedAt db (db.updatePet i u now).2 i r := by
  refine ⟨fun key hk => PetShopDB.updatePet_readPet_of_ne db i key u now hk,
    getAllPets_length_of_keys (updatePet_keys db i u now), PetShopDB.updatePet_nextId db i u now,
    { u.assignTo r with updatedAt := now }, ?_, ?_⟩
  · rw [PetShopDB.updatePet_readPet_self, hread]
    rfl
  · simp [PetUpdates.assignTo, hid, hname, htype, hage, hprice, hcreated]

theorem framedAt_recordTransaction {db db1 : PetShopDB} {i : Nat} {r : Pet}
    (h : FramedAt db db1 i r) (petId : Nat) (type : String) (amount : ℚ) (txId txTime : Nat) :
    FramedAt db (db1.recordTransaction petId type amount txId txTime).2 i r :=
  h

theorem keepsSoldFlagAt_updatePet (db : PetShopDB) (i id : Nat) (u : PetUpdates) (now : Nat)
    (hsold : u.isSold = none) : KeepsSoldFlagAt db (db.updatePet id u now).2 i := by
  unfold KeepsSoldFlagAt
  by_cases hk : i = id
  · subst hk
    rw [PetShopDB.updatePet_readPet_self]
    cases db.readPet i with
    | none => rfl
    | some r => simp [PetUpdates.assignTo, hsold]
  · rw [PetShopDB.updatePet_readPet_of_ne _ _ _ _ _ hk]

theorem feed_framed {db : PetShopDB} {r : Pet} (hread : db.readPet r.id = some r)
    (clk : Clock) :
    FramedAt db (r.feed db clk).2 r.id r ∧ KeepsSoldFlagAt db (r.feed db clk).2 r.id := by
  unfold Pet.feed
  split
  · exact ⟨framedAt_refl hread, rfl⟩
  · exact ⟨framedAt_recordTransaction
      (framedAt_updatePet hread _ _ rfl rfl rfl rfl rfl rfl) _ _ _ _ _,
      keepsSoldFlagAt_updatePet db _ _ _ _ rfl⟩

theorem play_framed {db : PetShopDB} {r : Pet} (hread : db.readPet r.id = some r)
    (clk : Clock) :
    FramedAt db (r.play db clk).2 r.id r ∧ KeepsSoldFlagAt db (r.play db clk).2 r.id := by
  unfold Pet.play
  split
  · exact ⟨framedAt_refl hread, rfl⟩
  · exact ⟨framedAt_recordTransaction
      (framedAt_updatePet hread _ _ rfl rfl rfl rfl rfl rfl) _ _ _ _ _,
      keepsSoldFlagAt_updatePet db _ _ _ _ rfl⟩

theorem sell_framed {db : PetShopDB} {r : Pet} (hread : db.readPet r.id = some r)
    (clk : Clock) : FramedAt db (r.sell db clk).2.2 r.id r := by
  unfold Pet.sell
  split
  · exact framedAt_refl hread
  · exact framedAt_recordTransaction
      (framedAt_updatePet hread _ _ rfl rfl rfl rfl rfl rfl) _ _ _ _ _

theorem petSimulate_framed {db : PetShopDB} {r : Pet} (hread : db.readPet r.id = some r)
    (d : Draw) :
    FramedAt db (r.simulateTimePassage db d).2 r.id r ∧
    KeepsSoldFlagAt db (r.simulateTimePassage db d).2 r.id := by
  unfold Pet.simulateTimePassage
  split
  · exact ⟨framedAt_refl hread, rfl⟩
  · exact ⟨framedAt_updatePet hread _ _ rfl rfl rfl rfl rfl rfl,
      keepsSoldFlagAt_updatePet db _ _ _ _ rfl⟩

/-- C29: for every store in which each record's `id` equals its key, and every record `r`
stored under key `i`: `feedPet`, `playWithPet` and `sellPet` on `i`, and
`Pet.simulateTimePassage` on the record read from `i`, leave every record under another key
unchanged, leave the number of records and the counter unchanged, and leave `id`, `name`,
`type`, `age`, `price` and `createdAt` of the record under `i` unchanged; feed, play and time
passage also leave its `isSold` unchanged. On a key with no record the handlers do nothing. -/
theorem behaviour_frame (db : PetShopDB) (i : Nat) (r : Pet) (clk : Clock) (d : Draw)
    (hwf : db.IdIsKey) (hread : db.readPet i = some r) :
    (FramedAt db (feedPet db i clk) i r ∧ KeepsSoldFlagAt db (feedPet db i clk) i) ∧
    (FramedAt db (playWithPet db i clk) i r ∧ KeepsSoldFlagAt db (playWithPet db i clk) i) ∧
    FramedAt db (sellPet db i clk) i r ∧
    (FramedAt db (r.simulateTimePassage db d).2 i r ∧
      KeepsSoldFlagAt db (r.simulateTimePassage db d).2 i) ∧
    (∀ absent, db.readPet absent = none →
      feedPet db absent clk = db ∧ playWithPet db absent clk = db ∧
      sellPet db absent clk = db) := by
  have hid : r.id = i := hwf i r hread
  subst hid
  refine ⟨?_, ?_, ?_, petSimulate_framed hread d, ?_⟩
  · have e : feedPet db r.id clk = (r.feed db clk).2 := by simp [feedPet, hread]
    rw [e]
    exact feed_framed hread clk
  · have e : playWithPet db r.id clk = (r.play db clk).2 := by simp [playWithPet, hread]
    rw [e]
    exact play_framed hread clk
  · have e : sellPet db r.id clk = (r.sell db clk).2.2 := by simp [sellPet, hread]
    rw [e]
    exact sell_framed hread clk
  · intro absent habsent
    simp [feedPet, playWithPet, sellPet, habsent]

theorem twoPetStore_idIsKey : twoPetStore.IdIsKey := by
  intro key r h
  have hp : twoPetStore.pets = [(1, buddy), (2, whiskers)] := rfl
  unfold PetShopDB.readPet at h
  rw [hp] at h
  simp only [mapGet] at h
  split_ifs at h with h1 h2
  · injection h with h
    rw [← h, ← h1]
    rfl
  · injection h with h
    rw [← h, ← h2]
    rfl

/-- C29 at a concrete store: Buddy (key 1) and Whiskers (key 2); feeding and selling Buddy
leave Whiskers, the record count and the counter as they were. -/
theorem behaviour_frame_witness :
    (FramedAt twoPetStore (feedPet twoPetStore 1 (clockAt 2000)) 1 buddy ∧
      KeepsSoldFlagAt twoPetStore (feedPet twoPetStore 1 (clockAt 2000)) 1) ∧
    FramedAt twoPetStore (sellPet twoPetStore 1 (clockAt 2000)) 1 buddy :=
  ⟨(behaviour_frame twoPetStore 1 buddy (clockAt 2000) (halfDraw 2000) twoPetStore_idIsKey
      twoPetStore_readPet_buddy).1,
   (behaviour_frame twoPetStore 1 buddy (clockAt 2000) (halfDraw 2000) twoPetStore_idIsKey
      twoPetStore_readPet_buddy).2.2.1⟩

/-! ## Every call is a sequence of elementary calls -/

theorem storeSteps_feed (allowed : Nat → PetUpdates → Prop)
    (hcare : ∀ id h p, allowed id { hunger := some h, happiness := some p })
    (this : Pet) (db : PetShopDB) (clk : Clock) :
    Relation.ReflTransGen (StoreStep allowed) db (this.feed db clk).2 := by
  unfold Pet.feed
  split
  · exact Relation.ReflTransGen.refl
  · exact (Relation.ReflTransGen.single (StoreStep.updatePet db _ _ _ (hcare _ _ _))).tail
      (StoreStep.recordTransaction _ _ _ _ _ _)

theorem storeSteps_play (allowed : Nat → PetUpdates → Prop)
    (hcare : ∀ id h p, allowed id { hunger := some h, happiness := some p })
    (this : Pet) (db : PetShopDB) (clk : Clock) :
    Relation.ReflTransGen (StoreStep allowed) db (this.play db clk).2 := by
  unfold Pet.play
  split
  · exact Relation.ReflTransGen.refl
  · exact (Relation.ReflTransGen.single (StoreStep.updatePet db _ _ _ (hcare _ _ _))).tail
      (StoreStep.recordTransaction _ _ _ _ _ _)

theorem storeSteps_sell (allowed : Nat → PetUpdates → Prop)
    (hsell : ∀ id, allowed id { isSold := some true })
    (this : Pet) (db : PetShopDB) (clk : Clock) :
    Relation.ReflTransGen (StoreStep allowed) db (this.sell db clk).2.2 := by
  unfold Pet.sell
  split
  · exact Relation.ReflTransGen.refl
  · exact (Relation.ReflTransGen.single (StoreStep.updatePet db _ _ _ (hsell _))).tail
      (StoreStep.recordTransaction _ _ _ _ _ _)

theorem storeSteps_petSimulate (allowed : Nat → PetUpdates → Prop)
    (hcare : ∀ id h p, allowed id { hunger := some h, happiness := some p })
    (this : Pet) (db : PetShopDB) (d : Draw) :
    Relation.ReflTransGen (StoreStep allowed) db (this.simulateTimePassage db d).2 := by
  unfold Pet.simulateTimePassage
  split
  · exact Relation.ReflTransGen.refl
  · exact Relation.ReflTransGen.single (StoreStep.updatePet db _ _ _ (hcare _ _ _))

theorem storeSteps_simulateLoop (allowed : Nat → PetUpdates → Prop)
    (hcare : ∀ id h p, allowed id { hunger := some h, happiness := some p })
    (keys : List Nat) (draws : Nat → Draw) :
    ∀ (i : Nat) (db : PetShopDB),
      Relation.ReflTransGen (StoreStep allowed) db (simulateLoop keys i draws db) := by
  induction keys with
  | nil => intro i db; exact Relation.ReflTransGen.refl
  | cons k rest ih =>
    intro i db
    unfold simulateLoop
    cases db.readPet k with
    | none => exact ih _ _
    | some petData => exact (storeSteps_petSimulate allowed hcare _ _ _).trans (ih _ _)

theorem storeSteps_run (allowed : Nat → PetUpdates → Prop)
    (hcare : ∀ id h p, allowed id { hunger := some h, happiness := some p })
    (hsell : ∀ id, allowed id { isSold := some true })
    (db : PetShopDB) (op : Op) (hop : op.UpdatesWithin allowed) :
    Relation.ReflTransGen (StoreStep allowed) db (op.run db).2 := by
  cases op with
  | createPet petData createdAt updatedAt =>
    exact Relation.ReflTransGen.single (StoreStep.createPet db petData createdAt updatedAt)
  | readPet id => exact Relation.ReflTransGen.refl
  | updatePet id updates now =>
    exact Relation.ReflTransGen.single (StoreStep.updatePet db id updates now hop)
  | deletePet id => exact Relation.ReflTransGen.single (StoreStep.deletePet db id)
  | recordTransaction petId type amount txId txTime =>
    exact Relation.ReflTransGen.single
      (StoreStep.recordTransaction db petId type amount txId txTime)
  | saveToStorage => exact Relation.ReflTransGen.single (StoreStep.saveToStorage db)
  | loadFromStorage => exact hop.elim
  | feedPet id clk =>
    show Relation.ReflTransGen (StoreStep allowed) db (feedPet db id clk)
    unfold feedPet
    cases db.readPet id with
    | none => exact Relation.ReflTransGen.refl
    | some petData => exact storeSteps_feed allowed hcare _ _ _
  | playWithPet id clk =>
    show Relation.ReflTransGen (StoreStep allowed) db (playWithPet db id clk)
    unfold playWithPet
    cases db.readPet id with
    | none => exact Relation.ReflTransGen.refl
    | some petData => exact storeSteps_play allowed hcare _ _ _
  | sellPet id clk =>
    show Relation.ReflTransGen (StoreStep allowed) db (sellPet db id clk)
    unfold sellPet
    cases db.readPet id with
    | none => exact Relation.ReflTransGen.refl
    | some petData => exact storeSteps_sell allowed hsell _ _ _
  | removePet id =>
    show Relation.ReflTransGen (StoreStep allowed) db (deletePet db id)
    unfold deletePet
    cases db.readPet id with
    | none => exact Relation.ReflTransGen.refl
    | some petData => exact Relation.ReflTransGen.single (StoreStep.deletePet db _)
  | simulateTimePassage draws =>
    show Relation.ReflTransGen (StoreStep allowed) db (simulateTimePassage db draws)
    exact storeSteps_simulateLoop allowed hcare _ _ _ _

theorem storeSteps_runOps (allowed : Nat → PetUpdates → Prop)
    (hcare : ∀ id h p, allowed id { hunger := some h, happiness := some p })
    (hsell : ∀ id, allowed id { isSold := some true }) (ops : List Op) :
    ∀ db : PetShopDB, (∀ op ∈ ops, op.UpdatesWithin allowed) →
      Relation.ReflTransGen (StoreStep allowed) db (runOps db ops) := by
  induction ops with
  | nil => intro db _; exact Relation.ReflTransGen.refl
  | cons op rest ih =>
    intro db hops
    exact (storeSteps_run allowed hcare hsell db op (hops op (List.mem_cons_self _ _))).trans
      (ih _ (fun o ho => hops o (List.mem_cons_of_mem _ ho)))

theorem storeSteps_runCalls (calls : List StoreCall) :
    ∀ db : PetShopDB, (∀ call ∈ calls, call.loadsStorage = false) →
      Relation.ReflTransGen (StoreStep (fun _ _ => True)) db (runCalls db calls) := by
  induction calls with
  | nil => intro db _; exact Relation.ReflTransGen.refl
  | cons call rest ih =>
    intro db hcalls
    have hrest := ih (call.run db) (fun c hc => hcalls c (List.mem_cons_of_mem _ hc))
    have hcall := hcalls call (List.mem_cons_self _ _)
    refine Relation.ReflTransGen.trans ?_ hrest
    cases call with
    | clearAll => exact Relation.ReflTransGen.single (StoreStep.clearAll db)
    | op o =>
      refine storeSteps_run _ (fun _ _ _ => trivial) (fun _ => trivial) db o ?_
      cases o <;> trivial

theorem invariant_of_storeSteps {allowed : Nat → PetUpdates → Prop} {I : PetShopDB → Prop}
    (hstep : ∀ a b, StoreStep allowed a b → I a → I b) {a b : PetShopDB}
    (h : Relation.ReflTransGen (StoreStep allowed) a b) (ha : I a) : I b := by
  induction h with
  | refl => exact ha
  | tail _ hlast ih => exact hstep _ _ hlast ih

/-! ## The id property and the key -/

theorem idIsKey_step {a b : PetShopDB} (h : StoreStep KeepsIdField a b)
    (ha : ∀ e ∈ a.pets, e.2.id = e.1) : ∀ e ∈ b.pets, e.2.id = e.1 := by
  cases h with
  | updatePet id u now hu =>
    unfold PetShopDB.updatePet
    cases hget : mapGet a.pets id with
    | none => exact ha
    | some pet =>
      intro e he
      rcases mem_mapSet he with h1 | h1
      · exact ha e h1
      · rw [h1]
        have hpet : pet.id = id := ha _ (mem_of_mapGet hget)
        show u.id.getD pet.id = id
        rcases hu with h2 | h2 <;> simp [h2, hpet]
  | recordTransaction petId type amount txId txTime => exact ha
  | createPet petData createdAt updatedAt =>
    intro e he
    rcases mem_mapSet (show e ∈ mapSet a.pets a.nextId _ from he) with h1 | h1
    · exact ha e h1
    · rw [h1]
  | deletePet id =>
    unfold PetShopDB.deletePet
    split
    · intro e he
      exact ha e (mem_mapDelete he)
    · exact ha
  | saveToStorage => exact ha
  | clearAll =>
    intro e he
    simp [PetShopDB.clearAll] at he

/-- C26, as stated, fails: on the store holding Rex under key 1 (the empty store after one
`createPet`), `updatePet(1, {id: 99})` leaves the record under key 1 with `id` 99. -/
theorem id_changed_by_update_counterexample :
    rexStore = runOps PetShopDB.empty
      [Op.createPet { name := "Rex", type := "Dog", age := 2, price := 200 } 1000 1000] ∧
    rexStore.readPet 1 = some rex ∧ rex.id = 1 ∧
    (rexStore.updatePet 1 { id := some 99 } 1500).2.readPet 1 =
      some { rex with id := 99, updatedAt := 1500 } ∧
    (99 : Nat) ≠ 1 :=
  ⟨rfl, rfl, rfl, rfl, by decide⟩

/-- C26, amended: in every store reached from the empty store by any sequence of `createPet`,
`updatePet` with partial fields that carry no `id` (or the key itself), `deletePet`, `feedPet`,
`playWithPet`, `sellPet`, the periodic `simulateTimePassage`, `recordTransaction`, `readPet` and
`saveToStorage`, every stored record's `id` equals the key under which the map holds it, which
is the id `createPet` stored it under. -/
theorem id_field_is_key (ops : List Op) (hops : ∀ op ∈ ops, op.UpdatesWithin KeepsIdField) :
    (runOps PetShopDB.empty ops).IdIsKey ∧
    (∀ e ∈ (runOps PetShopDB.empty ops).pets, e.2.id = e.1) ∧
    (∀ (db : PetShopDB) (petData : PetData) (createdAt updatedAt : Nat),
      (db.createPet petData createdAt updatedAt).1.id = db.nextId ∧
      (db.createPet petData createdAt updatedAt).2.readPet db.nextId =
        some (db.createPet petData createdAt updatedAt).1) := by
  have hsteps := storeSteps_runOps KeepsIdField (fun _ _ _ => Or.inl rfl) (fun _ => Or.inl rfl)
    ops PetShopDB.empty hops
  have hmem : ∀ e ∈ (runOps PetShopDB.empty ops).pets, e.2.id = e.1 :=
    invariant_of_storeSteps (I := fun db => ∀ e ∈ db.pets, e.2.id = e.1)
      (fun a b hab ha => idIsKey_step hab ha) hsteps (by simp [PetShopDB.empty])
  refine ⟨fun key r hr => hmem _ (mem_of_mapGet hr), hmem, ?_⟩
  intro db petData createdAt updatedAt
  exact ⟨rfl, mapGet_mapSet_self _ _ _⟩

theorem storeOps_updatesWithin : ∀ op ∈ storeOps, op.UpdatesWithin KeepsIdField := by
  intro op hop
  simp only [storeOps, List.mem_cons, List.mem_singleton, List.not_mem_nil, or_false] at hop
  rcases hop with rfl | rfl | rfl | rfl | rfl | rfl
  · trivial
  · exact Or.inl rfl
  · trivial
  · trivial
  · trivial
  · trivial

/-- C26 amended, at a concrete sequence with an update of the price. -/
theorem id_field_is_key_witness :
    (runOps PetShopDB.empty storeOps).IdIsKey ∧
    (∀ e ∈ (runOps PetShopDB.empty storeOps).pets, e.2.id = e.1) :=
  ⟨(id_field_is_key storeOps storeOps_updatesWithin).1,
   (id_field_is_key storeOps storeOps_updatesWithin).2.1⟩

/-! ## Fresh ids -/

theorem freshCounter_step {a b : PetShopDB} (h : StoreStep (fun _ _ => True) a b)
    (ha : ∀ e ∈ a.pets, e.1 < a.nextId) : ∀ e ∈ b.pets, e.1 < b.nextId := by
  cases h with
  | updatePet id u now hu =>
    unfold PetShopDB.updatePet
    cases hget : mapGet a.pets id with
    | none => exact ha
    | some pet =>
      intro e he
      rcases mem_mapSet he with h1 | h1
      · exact ha e h1
      · rw [h1]
        exact ha (id, pet) (mem_of_mapGet hget)
  | recordTransaction petId type amount txId txTime => exact ha
  | createPet petData createdAt updatedAt =>
    intro e he
    rcases mem_mapSet (show e ∈ mapSet a.pets a.nextId _ from he) with h1 | h1
    · exact Nat.lt_succ_of_lt (ha e h1)
    · rw [h1]
      exact Nat.lt_succ_self _
  | deletePet id =>
    unfold PetShopDB.deletePet
    split
    · intro e he
      exact ha e (mem_mapDelete he)
    · exact ha
  | saveToStorage => exact ha
  | clearAll =>
    intro e he
    simp [PetShopDB.clearAll] at he

theorem createPet_of_fresh (db : PetShopDB) (hfresh : db.readPet db.nextId = none)
    (petData : PetData) (createdAt updatedAt : Nat) :
    (db.createPet petData createdAt updatedAt).2.getAllPets.length = db.getAllPets.length + 1 ∧
    (∀ key r, db.readPet key = some r →
      (db.createPet petData createdAt updatedAt).2.readPet key = some r) := by
  constructor
  · show ((mapSet db.pets db.nextId _).map (fun e => e.2)).length = _
    rw [mapSet_of_mapGet_none _ hfresh]
    simp [PetShopDB.getAllPets]
  · intro key r hr
    have hne : key ≠ db.nextId := by
      intro h
      rw [h, hfresh] at hr
      cases hr
    show mapGet (mapSet db.pets db.nextId _) key = some r
    rw [mapGet_mapSet_of_ne _ _ _ _ hne]
    exact hr

/-- C21, as stated, fails: `importData` of a backup text that holds Rex under key 1 and no
`nextId` returns true on the fresh store and leaves the store holding Rex with counter 1; the
next `createPet` assigns id 1, replaces Rex, and the record count stays 1. -/
theorem createPet_after_import_counterexample :
    (RawDB.importData collidingJSON rawEmpty collidingText).1 = true ∧
    (RawDB.importData collidingJSON rawEmpty collidingText).2 = collidingStore.toRaw ∧
    collidingStore.readPet collidingStore.nextId = some rex ∧
    (collidingStore.createPet { name := "Max", type := "Dog", age := 3, price := 300 }
      2000 2000).1.id = 1 ∧
    (collidingStore.createPet { name := "Max", type := "Dog", age := 3, price := 300 }
      2000 2000).2.getAllPets.length = collidingStore.getAllPets.length ∧
    (collidingStore.createPet { name := "Max", type := "Dog", age := 3, price := 300 }
      2000 2000).2.readPet 1 =
      some { id := 1, name := "Max", type := "Dog", age := 3, price := 300, happiness := 50,
             hunger := 30, isSold := false, createdAt := 2000, updatedAt := 2000 } := by
  refine ⟨rfl, ?_, rfl, rfl, rfl, rfl⟩
  have e : (RawDB.importData collidingJSON rawEmpty collidingText).2 =
      RawDB.saveToStorage
        { pets := [(some (Json.num 1), some (Json.obj [("id", Json.num 1),
            ("name", Json.str "Rex"), ("type", Json.str "Dog"), ("age", Json.num 2),
            ("price", Json.num 200), ("happiness", Json.num 50), ("hunger", Json.num 30),
            ("isSold", Json.bool false), ("createdAt", Json.num 1000),
            ("updatedAt", Json.num 1000)]))],
          transactions := Json.arr [], nextId := Json.num 1, storage := none } := rfl
  rw [e]
  simp [collidingStore, PetShopDB.toRaw, PetShopDB.saveToStorage, RawDB.saveToStorage, rawPets,
    rawTransactions, Pet.toJson, rex]

/-- C21, amended: in every store reached from the empty store by any sequence of calls other
than `importData` and `loadFromStorage` (`createPet`, `updatePet`, `deletePet`,
`recordTransaction`, `clearAll`, the handlers, `saveToStorage`), no record is stored under the
counter, so `createPet` assigns a key that is not in the map, increases the record count by
exactly one and leaves every stored record in place. -/
theorem createPet_fresh_key (calls : List StoreCall)
    (hcalls : ∀ call ∈ calls, call.loadsStorage = false)
    (petData : PetData) (createdAt updatedAt : Nat) :
    (runCalls PetShopDB.empty calls).readPet (runCalls PetShopDB.empty calls).nextId = none ∧
    ((runCalls PetShopDB.empty calls).createPet petData createdAt updatedAt).1.id =
      (runCalls PetShopDB.empty calls).nextId ∧
    ((runCalls PetShopDB.empty calls).createPet petData createdAt
      updatedAt).2.getAllPets.length = (runCalls PetShopDB.empty calls).getAllPets.length + 1 ∧
    (∀ key r, (runCalls PetShopDB.empty calls).readPet key = some r →
      ((runCalls PetShopDB.empty calls).createPet petData createdAt updatedAt).2.readPet key =
        some r) := by
  have hmem : ∀ e ∈ (runCalls PetShopDB.empty calls).pets,
      e.1 < (runCalls PetShopDB.empty calls).nextId :=
    invariant_of_storeSteps (I := fun db => ∀ e ∈ db.pets, e.1 < db.nextId)
      (fun a b hab ha => freshCounter_step hab ha)
      (storeSteps_runCalls calls PetShopDB.empty hcalls) (by simp [PetShopDB.empty])
  have hfresh : (runCalls PetShopDB.empty calls).readPet
      (runCalls PetShopDB.empty calls).nextId = none := by
    cases hr : (runCalls PetShopDB.empty calls).readPet (runCalls PetShopDB.empty calls).nextId with
    | none => rfl
    | some r => exact absurd (hmem _ (mem_of_mapGet hr)) (Nat.lt_irrefl _)
  exact ⟨hfresh, rfl, (createPet_of_fresh _ hfresh petData createdAt updatedAt).1,
    (createPet_of_fresh _ hfresh petData createdAt updatedAt).2⟩

/-- C21 amended, at a concrete sequence with a `clearAll`: the next `createPet` takes a key
that is not in the map and adds one record. -/
theorem createPet_fresh_key_witness :
    (runCalls PetShopDB.empty storeCalls).readPet (runCalls PetShopDB.empty storeCalls).nextId =
      none ∧
    ((runCalls PetShopDB.empty storeCalls).createPet
      { name := "Tweety", type := "Bird", age := 1, price := 45 } 3000 3000).1.id =
      (runCalls PetShopDB.empty storeCalls).nextId ∧
    ((runCalls PetShopDB.empty storeCalls).createPet
      { name := "Tweety", type := "Bird", age := 1, price := 45 } 3000 3000).2.getAllPets.length =
      (runCalls PetShopDB.empty storeCalls).getAllPets.length + 1 :=
  ⟨(createPet_fresh_key storeCalls (by decide)
      { name := "Tweety", type := "Bird", age := 1, price := 45 } 3000 3000).1,
   (createPet_fresh_key storeCalls (by decide)
      { name := "Tweety", type := "Bird", age := 1, price := 45 } 3000 3000).2.1,
   (createPet_fresh_key storeCalls (by decide)
      { name := "Tweety", type := "Bird", age := 1, price := 45 } 3000 3000).2.2.1⟩

/-! ## A sale is recorded once -/

theorem salesOf_of_transactions {db db1 : PetShopDB} (h : db1.transactions = db.transactions)
    (petId : Nat) : db1.salesOf petId = db.salesOf petId := by
  unfold PetShopDB.salesOf
  rw [h]

theorem salesOf_append {db db1 : PetShopDB} (t : Transaction)
    (h : db1.transactions = db.transactions ++ [t]) (petId : Nat) :
    db1.salesOf petId =
      db.salesOf petId ++ (if t.type = "sale" ∧ t.petId = petId then [t] else []) := by
  unfold PetShopDB.salesOf
  rw [h, List.filter_append]
  congr 1
  by_cases hc : t.type = "sale" ∧ t.petId = petId
  · simp [List.filter_cons, hc.1, hc.2]
  · rw [if_neg hc]
    rw [not_and_or] at hc
    rcases hc with hc | hc <;> simp [List.filter_cons, hc]

theorem feed_keys (this : Pet) (db : PetShopDB) (clk : Clock) :
    (this.feed db clk).2.pets.map Prod.fst = db.pets.map Prod.fst := by
  unfold Pet.feed
  split
  · rfl
  · exact updatePet_keys _ _ _ _

theorem play_keys (this : Pet) (db : PetShopDB) (clk : Clock) :
    (this.play db clk).2.pets.map Prod.fst = db.pets.map Prod.fst := by
  unfold Pet.play
  split
  · rfl
  · exact updatePet_keys _ _ _ _

theorem sell_keys (this : Pet) (db : PetShopDB) (clk : Clock) :
    (this.sell db clk).2.2.pets.map Prod.fst = db.pets.map Prod.fst := by
  unfold Pet.sell
  split
  · rfl
  · exact updatePet_keys _ _ _ _

theorem petSimulate_keys (this : Pet) (db : PetShopDB) (d : Draw) :
    (this.simulateTimePassage db d).2.pets.map Prod.fst = db.pets.map Prod.fst := by
  unfold Pet.simulateTimePassage
  split
  · rfl
  · exact updatePet_keys _ _ _ _

theorem feed_salesOf (this : Pet) (db : PetShopDB) (clk : Clock) (petId : Nat) :
    (this.feed db clk).2.salesOf petId = db.salesOf petId := by
  cases hs : this.isSold with
  | true => simp [Pet.feed, hs]
  | false =>
    rw [salesOf_append _ (feed_transactions db this clk hs)]
    simp

theorem play_salesOf (this : Pet) (db : PetShopDB) (clk : Clock) (petId : Nat) :
    (this.play db clk).2.salesOf petId = db.salesOf petId := by
  cases hs : this.isSold with
  | true => simp [Pet.play, hs]
  | false =>
    rw [salesOf_append _ (play_transactions db this clk hs)]
    simp

/-- An operation that keeps the keys, the sale entries and the counter, and frames the record
under `i` with its sold flag, keeps the invariant. -/
theorem salesInvariant_of_frame {db db1 : PetShopDB} {i : Nat} {r : Pet}
    (h : SalesInvariant db) (hread : db.readPet i = some r) (hframe : FramedAt db db1 i r)
    (hflag : KeepsSoldFlagAt db db1 i)
    (hkeys : db1.pets.map Prod.fst = db.pets.map Prod.fst)
    (hsales : ∀ petId, db1.salesOf petId = db.salesOf petId) : SalesInvariant db1 := by
  obtain ⟨hK, hW, hF, h3, h1, h2⟩ := h
  obtain ⟨hother, _, hnext, r1, hr1, hid1, _, _, _, hprice1, _⟩ := hframe
  have hsold1 : r1.isSold = r.isSold := by
    unfold KeepsSoldFlagAt at hflag
    rw [hr1, hread] at hflag
    simpa using hflag
  have hri : r.id = i := hW i r hread
  refine ⟨?_, ?_, ?_, ?_, ?_, ?_⟩
  · unfold PetShopDB.KeysDistinct
    rw [hkeys]
    exact hK
  · intro key p hp
    by_cases hk : key = i
    · subst hk
      rw [hr1] at hp
      injection hp with hp
      rw [← hp, hid1, hri]
    · rw [hother key hk] at hp
      exact hW key p hp
  · intro key hkey
    rw [hnext] at hkey
    have hk : key ≠ i := by
      intro hk
      rw [hk] at hkey
      rw [(hF i hkey).1] at hread
      cases hread
    rw [hother key hk, hsales]
    exact hF key hkey
  · intro petId
    rw [hsales]
    exact h3 petId
  · intro key p hp hps
    rw [hsales]
    by_cases hk : key = i
    · subst hk
      rw [hr1] at hp
      injection hp with hp
      rw [← hp, hsold1] at hps
      exact h1 key r hread hps
    · rw [hother key hk] at hp
      exact h1 key p hp hps
  · intro key p hp hps
    rw [hsales]
    by_cases hk : key = i
    · subst hk
      rw [hr1] at hp
      injection hp with hp
      rw [← hp, hsold1] at hps
      obtain ⟨t, ht, hamount⟩ := h2 key r hread hps
      exact ⟨t, ht, by rw [hamount, ← hp, hprice1]⟩
    · rw [hother key hk] at hp
      exact h2 key p hp hps

theorem salesInvariant_feedPet {db : PetShopDB} (h : SalesInvariant db) (id : Nat)
    (clk : Clock) : SalesInvariant (feedPet db id clk) := by
  unfold feedPet
  cases hget : db.readPet id with
  | none => exact h
  | some r =>
    have hid : r.id = id := h.2.1 id r hget
    subst hid
    exact salesInvariant_of_frame h hget (feed_framed hget clk).1 (feed_framed hget clk).2
      (feed_keys r db clk) (feed_salesOf r db clk)

theorem salesInvariant_playWithPet {db : PetShopDB} (h : SalesInvariant db) (id : Nat)
    (clk : Clock) : SalesInvariant (playWithPet db id clk) := by
  unfold playWithPet
  cases hget : db.readPet id with
  | none => exact h
  | some r =>
    have hid : r.id = id := h.2.1 id r hget
    subst hid
    exact salesInvariant_of_frame h hget (play_framed hget clk).1 (play_framed hget clk).2
      (play_keys r db clk) (play_salesOf r db clk)

theorem salesInvariant_petSimulate {db : PetShopDB} (h : SalesInvariant db) {key : Nat}
    {r : Pet} (hget : db.readPet key = some r) (d : Draw) :
    SalesInvariant (r.simulateTimePassage db d).2 := by
  have hid : r.id = key := h.2.1 key r hget
  subst hid
  exact salesInvariant_of_frame h hget (petSimulate_framed hget d).1
    (petSimulate_framed hget d).2 (petSimulate_keys r db d)
    (fun petId => salesOf_of_transactions (petSimulate_transactions db r d) petId)

theorem salesInvariant_simulateLoop (keys : List Nat) (draws : Nat → Draw) :
    ∀ (i : Nat) (db : PetShopDB), SalesInvariant db →
      SalesInvariant (simulateLoop keys i draws db) := by
  induction keys with
  | nil => intro i db h; exact h
  | cons k rest ih =>
    intro i db h
    unfold simulateLoop
    cases hget : db.readPet k with
    | none => exact ih _ _ h
    | some petData => exact ih _ _ (salesInvariant_petSimulate h hget _)

/-- Selling an available record adds the one sale entry of its id. -/
theorem salesInvariant_sell {db : PetShopDB} (h : SalesInvariant db) {r : Pet}
    (hread : db.readPet r.id = some r) (havail : r.isSold = false) (clk : Clock) :
    SalesInvariant (r.sell db clk).2.2 := by
  obtain ⟨hK, hW, hF, h3, h1, h2⟩ := h
  obtain ⟨hother, _, hnext, _⟩ := sell_framed hread clk
  have hnew := sell_readPet db r clk hread havail
  have hsales : ∀ petId, (r.sell db clk).2.2.salesOf petId =
      db.salesOf petId ++ (if r.id = petId then
        [{ id := clk.txId, petId := r.id, type := "sale", amount := r.price,
           timestamp := clk.txTime }] else []) := by
    intro petId
    rw [salesOf_append _ (sell_transactions db r clk havail)]
    simp
  have hnone : db.salesOf r.id = [] := h1 r.id r hread havail
  refine ⟨?_, ?_, ?_, ?_, ?_, ?_⟩
  · unfold PetShopDB.KeysDistinct
    rw [sell_keys]
    exact hK
  · intro key p hp
    by_cases hk : key = r.id
    · subst hk
      rw [hnew] at hp
      injection hp with hp
      rw [← hp]
    · rw [hother key hk] at hp
      exact hW key p hp
  · intro key hkey
    rw [hnext] at hkey
    have hk : key ≠ r.id := by
      intro hk
      rw [hk] at hkey
      rw [(hF r.id hkey).1] at hread
      cases hread
    rw [hother key hk, hsales, if_neg (Ne.symm hk), List.append_nil]
    exact hF key hkey
  · intro petId
    rw [hsales]
    by_cases hk : r.id = petId
    · rw [if_pos hk, ← hk, hnone]
      simp
    · rw [if_neg hk, List.append_nil]
      exact h3 petId
  · intro key p hp hps
    by_cases hk : key = r.id
    · subst hk
      rw [hnew] at hp
      injection hp with hp
      rw [← hp] at hps
      cases hps
    · rw [hother key hk] at hp
      rw [hsales, if_neg (Ne.symm hk), List.append_nil]
      exact h1 key p hp hps
  · intro key p hp hps
    by_cases hk : key = r.id
    · subst hk
      rw [hnew] at hp
      injection hp with hp
      rw [hsales, if_pos rfl, hnone]
      exact ⟨_, rfl, by rw [← hp]⟩
    · rw [hother key hk] at hp
      rw [hsales, if_neg (Ne.symm hk), List.append_nil]
      exact h2 key p hp hps

theorem salesInvariant_sellPet {db : PetShopDB} (h : SalesInvariant db) (id : Nat)
    (clk : Clock) : SalesInvariant (sellPet db id clk) := by
  unfold sellPet
  cases hget : db.readPet id with
  | none => exact h
  | some r =>
    have hid : r.id = id := h.2.1 id r hget
    subst hid
    cases hs : r.isSold with
    | true =>
      have e : (r.sell db clk).2.2 = db := by simp [Pet.sell, hs]
      show SalesInvariant (r.sell db clk).2.2
      rw [e]
      exact h
    | false => exact salesInvariant_sell h hget hs clk

theorem salesInvariant_createPet {db : PetShopDB} (h : SalesInvariant db) (petData : PetData)
    (createdAt updatedAt : Nat) :
    SalesInvariant (db.createPet petData createdAt updatedAt).2 := by
  obtain ⟨hK, hW, hF, h3, h1, h2⟩ := h
  have hfresh : mapGet db.pets db.nextId = none := (hF db.nextId (Nat.le_refl _)).1
  have hself : (db.createPet petData createdAt updatedAt).2.readPet db.nextId =
      some (db.createPet petData createdAt updatedAt).1 :=
    mapGet_mapSet_self db.pets db.nextId _
  have hother : ∀ key, key ≠ db.nextId →
      (db.createPet petData createdAt updatedAt).2.readPet key = db.readPet key :=
    fun key hk => mapGet_mapSet_of_ne db.pets db.nextId key _ hk
  have hsales : ∀ petId, (db.createPet petData createdAt updatedAt).2.salesOf petId =
      db.salesOf petId := fun petId => rfl
  refine ⟨?_, ?_, ?_, ?_, ?_, ?_⟩
  · show ((mapSet db.pets db.nextId _).map Prod.fst).Nodup
    rw [mapSet_of_mapGet_none _ hfresh, List.map_append]
    refine List.Nodup.append hK (List.nodup_singleton _) ?_
    intro a ha hb
    simp only [List.map_cons, List.map_nil, List.mem_singleton] at hb
    rw [hb] at ha
    exact (mapGet_eq_none_iff db.pets db.nextId).mp hfresh ha
  · intro key p hp
    by_cases hk : key = db.nextId
    · rw [hk, hself] at hp
      injection hp with hp
      rw [← hp, hk]
      rfl
    · rw [hother key hk] at hp
      exact hW key p hp
  · intro key hkey
    have hkey1 : db.nextId + 1 ≤ key := hkey
    have hk : key ≠ db.nextId := by omega
    rw [hother key hk, hsales]
    exact hF key (by omega)
  · intro petId
    rw [hsales]
    exact h3 petId
  · intro key p hp hps
    rw [hsales]
    by_cases hk : key = db.nextId
    · rw [hk]
      exact (hF db.nextId (Nat.le_refl _)).2
    · rw [hother key hk] at hp
      exact h1 key p hp hps
  · intro key p hp hps
    rw [hsales]
    by_cases hk : key = db.nextId
    · rw [hk, hself] at hp
      injection hp with hp
      rw [← hp] at hps
      cases hps
    · rw [hother key hk] at hp
      exact h2 key p hp hps

theorem salesInvariant_deletePet {db : PetShopDB} (h : SalesInvariant db) (id : Nat) :
    SalesInvariant (db.deletePet id).2 := by
  cases hget : mapGet db.pets id with
  | none =>
    have e : db.deletePet id = (false, db) := by simp [PetShopDB.deletePet, hget]
    rw [e]
    exact h
  | some r =>
    have e : db.deletePet id =
        (true, PetShopDB.saveToStorage { db with pets := mapDelete db.pets id }) := by
      simp [PetShopDB.deletePet, hget]
    rw [e]
    obtain ⟨hK, hW, hF, h3, h1, h2⟩ := h
    have hread : ∀ key p,
        (PetShopDB.saveToStorage { db with pets := mapDelete db.pets id }).readPet key = some p →
        db.readPet key = some p := by
      intro key p hp
      by_cases hk : key = id
      · rw [hk] at hp
        have hn : mapGet (mapDelete db.pets id) id = none := mapGet_mapDelete_self db.pets id hK
        have hp1 : mapGet (mapDelete db.pets id) id = some p := hp
        rw [hn] at hp1
        cases hp1
      · have hp1 : mapGet (mapDelete db.pets id) key = some p := hp
        rw [mapGet_mapDelete_of_ne db.pets id key hk] at hp1
        exact hp1
    refine ⟨?_, ?_, ?_, h3, ?_, ?_⟩
    · exact List.Nodup.sublist (keys_mapDelete_sublist db.pets id) hK
    · intro key p hp
      exact hW key p (hread key p hp)
    · intro key hkey
      refine ⟨?_, (hF key hkey).2⟩
      cases hp : (PetShopDB.saveToStorage { db with pets := mapDelete db.pets id }).readPet key with
      | none => rfl
      | some p =>
        have := hread key p hp
        rw [(hF key hkey).1] at this
        cases this
    · intro key p hp hps
      exact h1 key p (hread key p hp) hps
    · intro key p hp hps
      exact h2 key p (hread key p hp) hps

theorem salesInvariant_empty : SalesInvariant PetShopDB.empty := by
  refine ⟨List.nodup_nil, ?_, ?_, ?_, ?_, ?_⟩
  · intro key r hr
    cases hr
  · intro key _
    exact ⟨rfl, rfl⟩
  · intro petId
    exact Nat.zero_le _
  · intro key r hr
    cases hr
  · intro key r hr
    cases hr

theorem salesInvariant_run {db : PetShopDB} (h : SalesInvariant db) (op : Op)
    (hop : op.isLifecycleCall = true) : SalesInvariant (op.run db).2 := by
  cases op with
  | createPet petData createdAt updatedAt => exact salesInvariant_createPet h _ _ _
  | feedPet id clk => exact salesInvariant_feedPet h id clk
  | playWithPet id clk => exact salesInvariant_playWithPet h id clk
  | sellPet id clk => exact salesInvariant_sellPet h id clk
  | simulateTimePassage draws => exact salesInvariant_simulateLoop _ _ _ _ h
  | deletePet id => exact salesInvariant_deletePet h id
  | removePet id =>
    show SalesInvariant (HappyPaws.deletePet db id)
    unfold HappyPaws.deletePet
    cases hget : db.readPet id with
    | none => exact h
    | some r => exact salesInvariant_deletePet h r.id
  | _ => cases hop

theorem salesInvariant_runOps (ops : List Op) :
    ∀ db : PetShopDB, SalesInvariant db → (∀ op ∈ ops, op.isLifecycleCall = true) →
      SalesInvariant (runOps db ops) := by
  induction ops with
  | nil => intro db h _; exact h
  | cons op rest ih =>
    intro db h hops
    exact ih _ (salesInvariant_run h op (hops op (List.mem_cons_self _ _)))
      (fun o ho => hops o (List.mem_cons_of_mem _ ho))

theorem mapGet_of_mem_nodup {m : List (Nat × Pet)} (hkeys : (m.map Prod.fst).Nodup)
    {key : Nat} {value : Pet} (h : (key, value) ∈ m) : mapGet m key = some value := by
  induction m with
  | nil => cases h
  | cons e rest ih =>
    obtain ⟨k, v⟩ := e
    rw [List.map_cons, List.nodup_cons] at hkeys
    rcases List.mem_cons.mp h with h1 | h1
    · injection h1 with hk hv
      simp [mapGet, hk, hv]
    · have hne : k ≠ key := by
        intro hk
        apply hkeys.1
        rw [hk]
        exact List.mem_map.mpr ⟨(key, value), h1, rfl⟩
      simp only [mapGet, hne, if_false]
      exact ih hkeys.2 h1

/-- C28: in every state reached from the empty store by `createPet`, `feedPet`, `playWithPet`,
`sellPet`, the periodic `simulateTimePassage` and deletions: every pet id has at most one
ledger entry of type sale; a stored record that is sold has exactly one, whose amount is the
record's price (under its key, which is its `id`; also for every record listed by
`getAllPets`); and a stored record that is available has none. -/
theorem sale_recorded_once (ops : List Op) (hops : ∀ op ∈ ops, op.isLifecycleCall = true) :
    (∀ petId, ((runOps PetShopDB.empty ops).salesOf petId).length ≤ 1) ∧
    (∀ key r, (runOps PetShopDB.empty ops).readPet key = some r → r.isSold = true →
      r.id = key ∧
      ∃ t, (runOps PetShopDB.empty ops).salesOf key = [t] ∧ t.amount = r.price) ∧
    (∀ r ∈ (runOps PetShopDB.empty ops).getAllPets, r.isSold = true →
      ∃ t, (runOps PetShopDB.empty ops).salesOf r.id = [t] ∧ t.amount = r.price) ∧
    (∀ key r, (runOps PetShopDB.empty ops).readPet key = some r → r.isSold = false →
      (runOps PetShopDB.empty ops).salesOf key = []) := by
  obtain ⟨hK, hW, _, h3, h1, h2⟩ := salesInvariant_runOps ops _ salesInvariant_empty hops
  refine ⟨h3, fun key r hr hs => ⟨hW key r hr, h2 key r hr hs⟩, ?_, h1⟩
  intro r hr hs
  obtain ⟨e, he, her⟩ := List.mem_map.mp hr
  obtain ⟨k, v⟩ := e
  have hv : v = r := her
  subst hv
  have hget : (runOps PetShopDB.empty ops).readPet k = some v := mapGet_of_mem_nodup hK he
  rw [hW k v hget]
  exact h2 k v hget hs

/-- C28 at the scenario: after Rex is sold twice and deleted and Whiskers is sold, each of
the ids 1 and 2 has at most one sale entry, and the sold Whiskers has exactly one, of 150. -/
theorem sale_recorded_once_witness :
    ((runOps PetShopDB.empty salesOps).salesOf 1).length ≤ 1 ∧
    ((runOps PetShopDB.empty salesOps).salesOf 2).length ≤ 1 ∧
    (∀ r ∈ (runOps PetShopDB.empty salesOps).getAllPets, r.isSold = true →
      ∃ t, (runOps PetShopDB.empty salesOps).salesOf r.id = [t] ∧ t.amount = r.price) :=
  ⟨(sale_recorded_once salesOps (by decide)).1 1,
   (sale_recorded_once salesOps (by decide)).1 2,
   (sale_recorded_once salesOps (by decide)).2.2.1⟩

/-! ## The console model: `updateInventory` -/

theorem getElem?_length_append (l r : List Legacy.Pet) (p : Legacy.Pet) :
    (l ++ p :: r)[l.length]? = some p := by
  induction l with
  | nil => simp
  | cons a l ih => simpa using ih

theorem eraseIdx_length_append (l r : List Legacy.Pet) (p : Legacy.Pet) :
    (l ++ p :: r).eraseIdx l.length = l ++ r := by
  induction l with
  | nil => rfl
  | cons a l ih => simpa using ih

/-- The loop over the first `l.length` indices of `l ++ r`: the sold pets of `l` go to
`soldPets` from the last to the first, their prices are added, and the others stay. -/
theorem updateInventoryLoop_append (l : List Legacy.Pet) :
    ∀ (r : List Legacy.Pet) (s : Legacy.PetShop), s.pets = l ++ r →
      Legacy.PetShop.updateInventoryLoop l.length s =
        some { s with
          pets := l.filter (fun p => !p.isSold) ++ r
          soldPets := s.soldPets ++ (l.filter (fun p => p.isSold)).reverse
          totalSales :=
            s.totalSales + (((l.filter (fun p => p.isSold)).reverse).map (fun p => p.price)).sum } := by
  induction l using List.reverseRecOn with
  | nil =>
    intro r s hs
    obtain ⟨n, ps, t, sp⟩ := s
    simp only [List.nil_append] at hs
    simp [Legacy.PetShop.updateInventoryLoop, hs]
  | append_singleton l p ih =>
    intro r s hs
    have hs1 : s.pets = l ++ p :: r := by rw [hs]; simp
    have hlen : (l ++ [p]).length = l.length + 1 := by simp
    rw [hlen]
    unfold Legacy.PetShop.updateInventoryLoop
    rw [hs1, getElem?_length_append]
    cases hp : p.isSold with
    | true =>
      simp only [if_true]
      rw [ih r _ (eraseIdx_length_append l r p)]
      simp [List.filter_append, hp, add_assoc]
    | false =>
      simp only [Bool.false_eq_true, if_false]
      rw [ih (p :: r) s hs1]
      simp [List.filter_append, hp]

theorem updateInventory_eq (s : Legacy.PetShop) :
    s.updateInventory =
      some { s with
        pets := s.pets.filter (fun p => !p.isSold)
        soldPets := s.soldPets ++ (s.pets.filter (fun p => p.isSold)).reverse
        totalSales :=
          s.totalSales +
            (((s.pets.filter (fun p => p.isSold)).reverse).map (fun p => p.price)).sum } := by
  unfold Legacy.PetShop.updateInventory
  rw [updateInventoryLoop_append s.pets [] s (by simp)]
  simp

/-- C30: for every `PetShop` state of the console model, `updateInventory` ends, and
afterwards: no pet in `pets` is sold; `pets` is the unsold pets of before in their order;
`soldPets` is the one of before followed by the sold pets that were in `pets` (from the
last to the first), so every sold pet has been moved and `pets` with `soldPets` hold the same
pets as before; `totalSales` has grown by the sum of the prices of the moved pets; the name is
as before; and a second `updateInventory` leaves this state as it is. -/
theorem updateInventory_moves_sold (s : Legacy.PetShop) :
    ∃ s1 moved, s.updateInventory = some s1 ∧
      moved = (s.pets.filter (fun p => p.isSold)).reverse ∧
      (∀ p ∈ s1.pets, p.isSold = false) ∧
      s1.pets = s.pets.filter (fun p => !p.isSold) ∧
      s1.pets.Sublist s.pets ∧
      s1.soldPets = s.soldPets ++ moved ∧
      (s1.pets ++ s1.soldPets).Perm (s.pets ++ s.soldPets) ∧
      s1.totalSales = s.totalSales + (moved.map (fun p => p.price)).sum ∧
      s1.shopName = s.shopName ∧
      s1.updateInventory = some s1 := by
  refine ⟨_, _, updateInventory_eq s, rfl, ?_, rfl, ?_, rfl, ?_, rfl, rfl, ?_⟩
  · intro p hp
    have := (List.mem_filter.mp hp).2
    simpa using this
  · exact List.filter_sublist _
  · show (s.pets.filter (fun p => !p.isSold) ++
        (s.soldPets ++ (s.pets.filter (fun p => p.isSold)).reverse)).Perm (s.pets ++ s.soldPets)
    have h1 : (s.pets.filter (fun p => p.isSold) ++ s.pets.filter (fun p => !p.isSold)).Perm
        s.pets := List.filter_append_perm (fun p : Legacy.Pet => p.isSold) s.pets
    have h2 : ((s.pets.filter (fun p => p.isSold)).reverse).Perm
        (s.pets.filter (fun p => p.isSold)) := List.reverse_perm _
    refine (List.Perm.append_left _ List.perm_append_comm).trans ?_
    rw [← List.append_assoc]
    exact List.Perm.append_right _
      (((List.Perm.append_left _ h2).trans List.perm_append_comm).trans h1)
  · rw [updateInventory_eq]
    simp

/-- The scenario of C30: with Buddy and Tweety sold, `updateInventory` leaves Whiskers in
`pets`, puts Tweety then Buddy in `soldPets`, and makes `totalSales` 650. -/
theorem updateInventory_scenario :
    legacyShop.updateInventory =
      some { shopName := "Happy Paws"
             pets := [Legacy.Pet.new "Whiskers" "Cat" 2 300]
             totalSales := 650
             soldPets := [(Legacy.Pet.new "Tweety" "Bird" 1 150).sell.2,
                          (Legacy.Pet.new "Buddy" "Dog" 3 500).sell.2] } := by
  simp [Legacy.PetShop.updateInventory, Legacy.PetShop.updateInventoryLoop, legacyShop,
    Legacy.Pet.sell, Legacy.Pet.new]
  norm_num

end HappyPaws
